import Mathlib

/-!
Verification development for the LLMSandBox simulation core
(`newserver`: world model, effect executor, recipe engine, perception,
decision arbitration, tick scheduler).

The Python sources are shallowly embedded: dataclasses become structures,
`dict`s keyed by insertion order become association lists, Python floats
become `Rat` (the claims under study only use order and addition, never
rounding), and fallible code returns `Except`.  The executor's uncaught
`raise` sites (duplicate-id registration) and potential non-termination
(recursion over cyclic containment) are modelled by an explicit error
type; the `uuid4` source for generated ids is modelled by a counter
(`fresh_seq`) on the world state.
-/

namespace Sandbox

/-- `str(x)` applied to an optional string, as Python renders `None`. -/
def strOfOpt : Option String → String
  | some s => s
  | none => "None"

/-- `str.endswith(suffix)` (the library `String.endsWith` is not
kernel-reducible, so it is re-expressed over character lists). -/
def pyEndsWith (s suffix : String) : Bool :=
  suffix.toList.isSuffixOf s.toList

/-- `str.strip()`: drop leading and trailing whitespace. -/
def pyStrip (s : String) : String :=
  String.mk (((s.toList.dropWhile Char.isWhitespace).reverse.dropWhile
    Char.isWhitespace).reverse)

/-- `str.replace(pattern, repl)`: non-overlapping left-to-right
replacement; the fuel is the string length, which bounds the number of
consumed characters (an empty pattern, unused by the source's templates,
leaves the string unchanged). -/
def pyReplaceAux (pattern repl : List Char) : Nat → List Char → List Char
  | 0, l => l
  | _, [] => []
  | fuel + 1, c :: rest =>
    if pattern.isPrefixOf (c :: rest) then
      repl ++ pyReplaceAux pattern repl fuel (rest.drop (pattern.length - 1))
    else
      c :: pyReplaceAux pattern repl fuel rest

def pyReplace (s pattern repl : String) : String :=
  if pattern.toList = [] then s
  else String.mk (pyReplaceAux pattern.toList repl.toList (s.toList.length + 1) s.toList)

/-- Destination payload of a `CreateEntity` effect (`{"type": ..., "target": ...}`). -/
structure DestData where
  type : String := ""
  target : Option String := none
deriving DecidableEq

/-- An effect dictionary, with the fields the executor actually reads.
Numeric fields (`change`, `delta`) are modelled as `Rat` with the source's
defaults; absent string fields use the Python falsy default. -/
structure EffectData where
  effect : String := ""
  target : Option String := none
  component : String := ""
  property : String := ""
  change : Rat := 0
  template : String := ""
  destination : Option DestData := none
  instance_id : String := ""
  condition_id : String := ""
  task_id : String := ""
  status : String := ""
  delta : Rat := 0
deriving DecidableEq

/-- Values held by an `UnknownComponent.data` dict.  Numeric strings that
Python's `float()` would parse are not modelled (they behave as
unconvertible); no claim depends on that corner. -/
inductive UVal where
  | num (q : Rat)
  | strv (s : String)
  | strList (l : List String)
  | effList (l : List EffectData)
deriving DecidableEq

/-- Slot configuration.  The builder's `setdefault` calls make these four
keys always present, so they are structure fields with the source's
defaults. -/
structure SlotConfig where
  capacity_volume : Rat := 999
  capacity_count : Int := 999
  accepted_tags : List String := []
  transparent : Bool := false
deriving DecidableEq

structure ContainerSlot where
  config : SlotConfig := {}
  items : List String := []
deriving DecidableEq

structure ContainerComponent where
  slots : List (String × ContainerSlot) := []
deriving DecidableEq

structure CreatureComponent where
  max_hp : Rat := 100
  max_energy : Rat := 100
  max_nutrition : Rat := 100
  current_hp : Option Rat := none
  current_energy : Option Rat := none
  current_nutrition : Option Rat := none
deriving DecidableEq

structure AgentComponent where
  agent_name : String := ""
  personality_summary : String := ""
  common_knowledge_summary : String := ""
deriving DecidableEq

/-- Built-in interrupt rules (`sim/interrupt_rules`). -/
inductive InterruptRule where
  | idle (priority : Int)
  | lowNutrition (priority : Int) (threshold : Rat)
deriving DecidableEq

/-- Component state, polymorphic over kinds (the Python `ComponentValue`
union plus the rule-holding arbiter and the task host / worker kinds). -/
inductive Component where
  | tag (tags : List String)
  | container (cc : ContainerComponent)
  | creature (c : CreatureComponent)
  | agentc (a : AgentComponent)
  | agentControl (enabled : Bool) (provider_id : String)
  | playerControl (enabled : Bool) (provider_id : String)
  | logicControl (enabled : Bool) (provider_id : String)
  | arbiter (ruleset : List InterruptRule)
  | taskHost (taskIds : List String)
  | worker (current_task_id : String)
  | unknown (data : List (String × UVal))
deriving DecidableEq

/-- `models/entity.py`: `Entity`. -/
structure Entity where
  entity_id : String
  template_id : String
  entity_name : String := "Unnamed Entity"
  volume : Rat := 1
  weight : Rat := 1
  components : List (String × Component) := []
deriving DecidableEq

/-- `models/location.py`: `Location` (connections are unused by the core
logic under study and omitted). -/
structure Location where
  location_id : String
  location_name : String := "Unnamed Location"
  description : String := ""
  entities_in_location : List String := []
deriving DecidableEq

/-- Linear progressor parameters read from `task.progressor_params`
(`progressors/linear.py`). -/
structure Contributor where
  component : String := ""
  property : String := ""
  multiplier : Rat := 1
deriving DecidableEq

structure ProgParams where
  base_progress_per_tick : Rat := 1
  progress_contributors : List Contributor := []
deriving DecidableEq

/-- `models/task.py`: `Task`. -/
structure Task where
  task_id : String := ""
  task_type : String := ""
  action_type : String := "Action"
  target_entity_id : String := ""
  progress : Rat := 0
  required_progress : Rat := 100
  multiple_entity : Bool := false
  assigned_agent_ids : List String := []
  task_status : String := "Inactive"
  parameters : List (String × String) := []
  progressor_id : String := ""
  progressor_params : ProgParams := {}
  tick_effects : List EffectData := []
  completion_effects : List EffectData := []
deriving DecidableEq

def Task.is_complete (t : Task) : Bool := t.progress ≥ t.required_progress

/-- Events returned by the executor and the scheduler. -/
inductive Event where
  | executorError (message : String)
  | propertyModified (entity_id component property : String) (delta new_value : Rat)
  | entityCreated (entity_id template_id : String) (placed : Bool)
  | entityDestroyed (entity_id : String)
  | entityTransferred (entity_id : String)
  | conditionAdded (entity_id condition_id : String)
  | conditionRemoved (entity_id condition_id : String)
  | taskCreated (task_id target_entity_id : String)
  | taskAssigned (task_id agent_id : String)
  | taskProgressed (task_id : String) (delta new_progress required : Rat)
  | taskStatusChanged (task_id old_status new_status : String)
  | taskFinished (task_id : String)
  | taskInterrupted (task_id reason : String)
  | tickAdvanced (total_ticks : Int) (time : String)
deriving DecidableEq

/-- `world_state.event_log` entry. -/
structure LogEntry where
  seq : Int
  tick : Int
  location_id : String
  actor_id : String
  event : Event
deriving DecidableEq

/-- `world_state.interaction_log` entry. -/
structure InteractionEntry where
  seq : Int
  tick : Int
  location_id : String
  actor_id : String
  actor_name : String
  verb : String
  target_id : String
  target_name : String
  recipe_id : String
  status : String
  reason : String
deriving DecidableEq

/-- `models/world_state.py`: `WorldState`.  `fresh_seq` models the `uuid4`
stream used for generated entity/task ids; the per-tick service registry
is modelled by explicit parameters instead of a field. -/
structure WorldState where
  total_ticks : Int := 0
  entities : List Entity := []
  locations : List Location := []
  tasks : List Task := []
  event_log : List LogEntry := []
  event_seq : Int := 0
  interaction_log : List InteractionEntry := []
  interaction_seq : Int := 0
  fresh_seq : Nat := 0
deriving DecidableEq

/-! ### Entity and component helpers (`entity.py`, `container.py`) -/

def Entity.get_component (e : Entity) (name : String) : Option Component :=
  (e.components.find? (fun p => p.1 = name)).map (·.2)

def Entity.has_component (e : Entity) (name : String) : Bool :=
  (e.components.find? (fun p => p.1 = name)).isSome

/-- `Entity.add_component`: raises on a duplicate name, modelled as `none`. -/
def Entity.add_component (e : Entity) (name : String) (c : Component) : Option Entity :=
  if e.has_component name then none
  else some { e with components := e.components ++ [(name, c)] }

def Entity.get_all_tags (e : Entity) : List String :=
  match e.get_component "TagComponent" with
  | some (.tag ts) => ts
  | _ => []

def Entity.has_tag (e : Entity) (t : String) : Bool :=
  match e.get_component "TagComponent" with
  | some (.tag ts) => ts.contains t
  | _ => false

/-- The `ContainerComponent` of an entity, when the stored component really
is one (Python's `isinstance` check). -/
def Entity.containerComp (e : Entity) : Option ContainerComponent :=
  match e.get_component "ContainerComponent" with
  | some (.container cc) => some cc
  | _ => none

def ContainerComponent.get_all_item_ids (cc : ContainerComponent) : List String :=
  cc.slots.foldl (fun acc p => acc ++ p.2.items) []

def ContainerComponent.has_item_id (cc : ContainerComponent) (item_id : String) : Bool :=
  cc.slots.any (fun p => p.2.items.contains item_id)

/-- Remove the item from the first slot holding it. -/
def removeFirstSlotItem (item_id : String) :
    List (String × ContainerSlot) → List (String × ContainerSlot)
  | [] => []
  | (sid, slot) :: rest =>
    if item_id ∈ slot.items then
      (sid, { slot with items := slot.items.erase item_id }) :: rest
    else
      (sid, slot) :: removeFirstSlotItem item_id rest

/-- `ContainerComponent.remove_entity_by_id`: removes the item from the
first slot holding it; `none` means the Python `False` return. -/
def ContainerComponent.remove_entity_by_id (cc : ContainerComponent) (item_id : String) :
    Option ContainerComponent :=
  if cc.has_item_id item_id then
    some { slots := removeFirstSlotItem item_id cc.slots }
  else none

/-- `_find_first_available_slot_for`: first slot under its count capacity
whose accepted tags are all on the item. -/
def ContainerComponent.findFirstAvailableSlotId (cc : ContainerComponent)
    (item_tags : List String) : Option String :=
  (cc.slots.find? (fun p =>
    decide ((p.2.items.length : Int) < p.2.config.capacity_count) &&
    p.2.config.accepted_tags.all (fun t => item_tags.contains t))).map (·.1)

/-- `ContainerComponent.add_entity` (with the default empty `target_slot_id`):
refuses when the item id is already in one of this container's slots or no
slot accepts it, otherwise appends to the chosen slot. -/
def ContainerComponent.add_entity (cc : ContainerComponent) (item_id : String)
    (item_tags : List String) : Option ContainerComponent :=
  if item_id = "" then none
  else if cc.has_item_id item_id then none
  else
    match cc.findFirstAvailableSlotId item_tags with
    | none => none
    | some sid =>
      some { slots := cc.slots.map (fun p =>
        if p.1 = sid then (p.1, { p.2 with items := p.2.items ++ [item_id] }) else p) }

/-! ### Location helpers (`location.py`) -/

def Location.add_entity_id (l : Location) (entity_id : String) : Option Location :=
  if entity_id ∈ l.entities_in_location then none
  else some { l with entities_in_location := l.entities_in_location ++ [entity_id] }

def Location.remove_entity_id (l : Location) (entity_id : String) : Location :=
  { l with entities_in_location := l.entities_in_location.erase entity_id }

/-! ### WorldState lookups and index maintenance (`world_state.py`) -/

def WorldState.get_entity_by_id (ws : WorldState) (entity_id : String) : Option Entity :=
  ws.entities.find? (fun e => e.entity_id = entity_id)

def WorldState.get_location_by_id (ws : WorldState) (location_id : String) : Option Location :=
  ws.locations.find? (fun l => l.location_id = location_id)

def WorldState.get_task_by_id (ws : WorldState) (task_id : String) : Option Task :=
  ws.tasks.find? (fun t => t.task_id = task_id)

def WorldState.unregister_task (ws : WorldState) (task_id : String) : WorldState :=
  { ws with tasks := ws.tasks.filter (fun t => t.task_id ≠ task_id) }

/-- In-place mutation of the entity found by id, as Python mutates the
object held in the `entities` dict. -/
def WorldState.updateEntity (ws : WorldState) (entity_id : String)
    (f : Entity → Entity) : WorldState :=
  { ws with entities := ws.entities.map (fun e => if e.entity_id = entity_id then f e else e) }

def WorldState.updateLocation (ws : WorldState) (location_id : String)
    (f : Location → Location) : WorldState :=
  { ws with locations := ws.locations.map (fun l =>
      if l.location_id = location_id then f l else l) }

def WorldState.updateTask (ws : WorldState) (task_id : String)
    (f : Task → Task) : WorldState :=
  { ws with tasks := ws.tasks.map (fun t => if t.task_id = task_id then f t else t) }

def WorldState.findContainerEntityHoldingItem (ws : WorldState) (item_id : String) :
    Option Entity :=
  ws.entities.find? (fun e =>
    match e.containerComp with
    | some cc => cc.has_item_id item_id
    | none => false)

/-- `_resolve_location_for_entity`: direct membership first, then the
"is contained by" chain with a visited-set cycle guard.  The fuel argument
only makes the recursion structural; with the top-level fuel of
`get_location_of_entity` it never runs out before the visited-set guard or
a dead end stops the walk, so the two guards agree with the source. -/
def WorldState.resolveLocationAux (ws : WorldState) :
    Nat → List String → String → Option Location
  | 0, _, _ => none
  | fuel + 1, visited, entity_id =>
    if entity_id = "" then none
    else if entity_id ∈ visited then none
    else
      match ws.locations.find? (fun l => entity_id ∈ l.entities_in_location) with
      | some l => some l
      | none =>
        match ws.findContainerEntityHoldingItem entity_id with
        | some parent => ws.resolveLocationAux fuel (entity_id :: visited) parent.entity_id
        | none => none

def WorldState.get_location_of_entity (ws : WorldState) (entity_id : String) :
    Option Location :=
  ws.resolveLocationAux (ws.entities.length + 1) [] entity_id

def WorldState.ensure_entity_in_location (ws : WorldState) (entity_id location_id : String) :
    WorldState :=
  match ws.get_location_by_id location_id with
  | none => ws
  | some _ =>
    ws.updateLocation location_id (fun l =>
      if entity_id ∈ l.entities_in_location then l
      else { l with entities_in_location := l.entities_in_location ++ [entity_id] })

def WorldState.ensure_entity_removed_from_location (ws : WorldState)
    (entity_id location_id : String) : WorldState :=
  match ws.get_location_by_id location_id with
  | none => ws
  | some _ =>
    ws.updateLocation location_id (fun l =>
      { l with entities_in_location := l.entities_in_location.erase entity_id })

/-- Duplicate-freedom of an entity's container slots (trivially true
without a container). -/
def Entity.slotsNodupB (e : Entity) : Bool :=
  match e.containerComp with
  | some cc => cc.slots.all (fun p => decide p.2.items.Nodup)
  | none => true

/-- The index discipline the insertion checks enforce: every location
membership list and every container slot item list is duplicate-free. -/
def InvNodup (ws : WorldState) : Prop :=
  (∀ l ∈ ws.locations, l.entities_in_location.Nodup) ∧
  (∀ e ∈ ws.entities, e.slotsNodupB = true)

def WorldState.move_ids_between_locations (ws : WorldState) (ids : List String)
    (from_location_id to_location_id : String) : WorldState :=
  ids.foldl (fun w eid =>
    (w.ensure_entity_removed_from_location eid from_location_id).ensure_entity_in_location
      eid to_location_id) ws

/-- `collect_descendant_item_ids`.  The Python recursion has no cycle
guard; the fuel bounds the recursion depth, so any terminating Python run
(depth at most the number of entities, since a repetition-free containment
chain never revisits an id) is reproduced exactly and a cyclic containment
graph, on which Python would overflow the stack, yields `none`. -/
def WorldState.collectDescendantsAux (ws : WorldState) :
    Nat → String → Option (List String)
  | 0, _ => none
  | fuel + 1, root_entity_id =>
    match ws.get_entity_by_id root_entity_id with
    | none => some []
    | some root =>
      match root.containerComp with
      | none => some []
      | some cc =>
        cc.get_all_item_ids.foldl (fun acc child_id =>
          match acc with
          | none => none
          | some collected =>
            match ws.collectDescendantsAux fuel child_id with
            | none => none
            | some sub => some (collected ++ [child_id] ++ sub)) (some [])

def WorldState.collect_descendant_item_ids (ws : WorldState) (root_entity_id : String) :
    Option (List String) :=
  ws.collectDescendantsAux (ws.entities.length + 1) root_entity_id

/-! ### Recipes (`interaction/engine.py` data), templates (`data/builder.py` data) -/

/-- Linear-progressor configuration block of a recipe
(`recipe["progression"]` / `process["progression"]`). -/
structure Progression where
  progressor : Option String := none
  progressor_id : Option String := none
  params : ProgParams := {}
  tick_effects : List EffectData := []
deriving DecidableEq

structure ProcessData where
  required_progress : Option Rat := none
  progression : Option Progression := none
deriving DecidableEq

/-- A recipe output entry: either a plain effect dict or a
`dynamic_outputs_from_component` marker. -/
inductive RecipeOutput where
  | eff (e : EffectData)
  | dynamicFromComponent (component property : String)
deriving DecidableEq

/-- When a `dynamic_outputs_from_component` marker dict reaches the
executor unexpanded (via `Task.completion_effects`), it has no
`"effect"` key and triggers the "missing effect type" error event, so it
is mapped to the empty effect dict. -/
def recipeOutputToEffect : RecipeOutput → EffectData
  | .eff e => e
  | .dynamicFromComponent _ _ => {}

structure Recipe where
  id : String := ""
  verb : String := ""
  target_tags : List String := []
  parameter_match : Option (List (String × String)) := none
  process : Option ProcessData := none
  outputs : List RecipeOutput := []
  progression : Option Progression := none
  narrative_success : String := ""
  narrative_fail : String := ""
deriving DecidableEq

/-- Per-rule template payload of `DecisionArbiterComponent` data. -/
structure RuleData where
  type : String := ""
  priority : Option Int := none
  threshold : Option Rat := none
deriving DecidableEq

/-- Component payload in an entity template, with the fields
`_build_component` reads per component name; `rawD` is any unmigrated
payload. -/
inductive CompData where
  | tagD (tags : List String)
  | creatureD (max_hp max_energy max_nutrition : Option Rat)
  | agentD (agent_name personality_summary common_knowledge_summary : Option String)
  | controlD (enabled : Option Bool) (provider_id : Option String)
  | containerD (slots : List (String × SlotConfig))
  | arbiterD (rules : List RuleData)
  | taskHostD
  | rawD (data : List (String × UVal))
deriving DecidableEq

structure Template where
  name : Option String := none
  components : List (String × CompData) := []
deriving DecidableEq

abbrev Templates := List (String × Template)

def InterruptRule.priority : InterruptRule → Int
  | .idle p => p
  | .lowNutrition p _ => p

/-- `DecisionArbiterComponent.from_template_data`: build known rules,
skip unknown ones, then stable-sort ascending by priority (Python's
stable `sort`; `insertionSort` is likewise stable). -/
def arbiterFromTemplateData (rules : List RuleData) : List InterruptRule :=
  let ruleset := rules.filterMap (fun rd =>
    if rd.type = "Idle" then some (InterruptRule.idle (rd.priority.getD 999))
    else if rd.type = "LowNutrition" then
      some (InterruptRule.lowNutrition (rd.priority.getD 10) (rd.threshold.getD 50))
    else none)
  ruleset.insertionSort (fun a b => a.priority ≤ b.priority)

/-- `data/builder.py` `_build_component`: dispatch on the component name;
a payload of the wrong shape for a migrated name behaves as an empty dict
(all defaults). -/
def buildComponent (component_name : String) (d : CompData) : Component :=
  if component_name = "TagComponent" then
    .tag (match d with | .tagD ts => ts | _ => [])
  else if component_name = "CreatureComponent" then
    match d with
    | .creatureD h e n =>
      .creature { max_hp := h.getD 100, max_energy := e.getD 100, max_nutrition := n.getD 100 }
    | _ => .creature {}
  else if component_name = "AgentComponent" then
    match d with
    | .agentD a p c =>
      .agentc { agent_name := a.getD "", personality_summary := p.getD "",
                common_knowledge_summary := c.getD "" }
    | _ => .agentc {}
  else if component_name = "AgentControlComponent" ∨ component_name = "LLMControlComponent" then
    match d with
    | .controlD en pid => .agentControl (en.getD true) (pid.getD "")
    | _ => .agentControl true ""
  else if component_name = "PlayerControlComponent" then
    match d with
    | .controlD en pid =>
      let p := pid.getD "player"
      .playerControl (en.getD true) (if p = "" then "player" else p)
    | _ => .playerControl true "player"
  else if component_name = "LogicControlComponent" then
    match d with
    | .controlD en pid =>
      let p := pid.getD "logic"
      .logicControl (en.getD true) (if p = "" then "logic" else p)
    | _ => .logicControl true "logic"
  else if component_name = "ContainerComponent" then
    match d with
    | .containerD slots =>
      .container { slots := slots.map (fun p => (p.1, { config := p.2, items := [] })) }
    | _ => .container { slots := [] }
  else if component_name = "DecisionArbiterComponent" then
    match d with
    | .arbiterD rules => .arbiter (arbiterFromTemplateData rules)
    | _ => .arbiter (arbiterFromTemplateData [])
  else if component_name = "TaskComponent" ∨ component_name = "TaskHostComponent" then
    .taskHost []
  else
    .unknown (match d with | .rawD m => m | _ => [])

/-- `data/builder.py` `create_entity_from_template`, applied to an already
looked-up template (the executor checks template presence before calling).
Includes the default `WorkerComponent` injection for `agent`-tagged
entities. -/
def createEntityFromTemplateData (template_id instance_id : String) (template : Template) :
    Entity :=
  let ent : Entity :=
    { entity_id := instance_id, template_id := template_id,
      entity_name := template.name.getD "Unnamed Entity",
      components := template.components.map (fun p => (p.1, buildComponent p.1 p.2)) }
  if ent.has_tag "agent" && !ent.has_component "WorkerComponent" then
    { ent with components := ent.components ++ [("WorkerComponent", .worker "")] }
  else ent

/-! ### Executor (`executor/executor.py`) -/

/-- Execution context dictionary: string-valued keys, plus the `recipe`
object and the `entities_for_consumption_ids` list (the only non-string
values the executor reads).  The executor's in-place context writes
(`created_task_id`, `setdefault("target_id", ...)`) are threaded locally
inside a call; their visibility to the Python caller after the call is
not consumed by any code under study. -/
structure Context where
  strs : List (String × String) := []
  recipe : Option Recipe := none
  consumptionIds : List String := []
deriving DecidableEq

def Context.getStr (ctx : Context) (k : String) : String :=
  ((ctx.strs.find? (fun p => p.1 = k)).map (·.2)).getD ""

def Context.setDefaultStr (ctx : Context) (k v : String) : Context :=
  if (ctx.strs.find? (fun p => p.1 = k)).isSome then ctx
  else { ctx with strs := ctx.strs ++ [(k, v)] }

/-- Uncaught executor exceptions: duplicate-id registration raises
`ValueError` in the source; `outOfFuel` models non-termination
(`RecursionError`) of the unguarded recursions over cyclic containment. -/
inductive ExecErr where
  | dupEntityId (id : String)
  | dupTaskOnHost (id : String)
  | dupTaskGlobal (id : String)
  | outOfFuel
deriving DecidableEq

def idKeyOf (key : String) : String :=
  if pyEndsWith key "_id" then key else key ++ "_id"

def resolveEntityFromCtx (ws : WorldState) (ctx : Context) (key : String) : Option Entity :=
  ws.get_entity_by_id (ctx.getStr (idKeyOf key))

/-- A resolved container entity or location. -/
inductive RefNode where
  | ent (e : Entity)
  | loc (l : Location)
deriving DecidableEq

def resolveContainerOrLocationFromCtx (ws : WorldState) (ctx : Context) (key : String) :
    Option RefNode :=
  let id_val := ctx.getStr (idKeyOf key)
  match ws.get_entity_by_id id_val with
  | some e =>
    if e.containerComp.isSome then some (.ent e)
    else (ws.get_location_by_id id_val).map .loc
  | none => (ws.get_location_by_id id_val).map .loc

def Entity.setComponent (e : Entity) (name : String) (c : Component) : Entity :=
  { e with components := e.components.map (fun p => if p.1 = name then (p.1, c) else p) }

def CreatureComponent.ensure_initialized (c : CreatureComponent) : CreatureComponent :=
  { c with
    current_hp := some (c.current_hp.getD c.max_hp),
    current_energy := some (c.current_energy.getD c.max_energy),
    current_nutrition := some (c.current_nutrition.getD c.max_nutrition) }

/-- `getattr(creature, prop, None)` restricted to the dataclass's numeric
fields (other attribute names resolve to `None` / non-numeric values and
end in the same error paths). -/
def CreatureComponent.getProp (c : CreatureComponent) (prop : String) : Option Rat :=
  if prop = "max_hp" then some c.max_hp
  else if prop = "max_energy" then some c.max_energy
  else if prop = "max_nutrition" then some c.max_nutrition
  else if prop = "current_hp" then c.current_hp
  else if prop = "current_energy" then c.current_energy
  else if prop = "current_nutrition" then c.current_nutrition
  else none

def CreatureComponent.setProp (c : CreatureComponent) (prop : String) (v : Rat) :
    CreatureComponent :=
  if prop = "max_hp" then { c with max_hp := v }
  else if prop = "max_energy" then { c with max_energy := v }
  else if prop = "max_nutrition" then { c with max_nutrition := v }
  else if prop = "current_hp" then { c with current_hp := some v }
  else if prop = "current_energy" then { c with current_energy := some v }
  else if prop = "current_nutrition" then { c with current_nutrition := some v }
  else c

def lookupUVal (m : List (String × UVal)) (k : String) : Option UVal :=
  (m.find? (fun p => p.1 = k)).map (·.2)

def setUVal (m : List (String × UVal)) (k : String) (v : UVal) : List (String × UVal) :=
  if (m.find? (fun p => p.1 = k)).isSome then
    m.map (fun p => if p.1 = k then (p.1, v) else p)
  else m ++ [(k, v)]

/-- `float(x)` on an `UnknownComponent` data value; a numeric string that
Python would parse is treated as unconvertible (no claim exercises it). -/
def uvalToRat : UVal → Option Rat
  | .num q => some q
  | _ => none

def execModifyProperty (ws : WorldState) (data : EffectData) (ctx : Context) :
    WorldState × List Event :=
  match resolveEntityFromCtx ws ctx (strOfOpt data.target) with
  | none => (ws, [.executorError "ModifyProperty: target missing"])
  | some target =>
    let comp_name := data.component
    let prop_name := data.property
    let change := data.change
    match target.get_component comp_name with
    | none => (ws, [.executorError ("ModifyProperty: component missing: " ++ comp_name)])
    | some (.creature c0) =>
      let c := c0.ensure_initialized
      let ws1 := ws.updateEntity target.entity_id
        (fun e => e.setComponent comp_name (.creature c))
      match c.getProp prop_name with
      | none => (ws1, [.executorError ("ModifyProperty: property missing: " ++ prop_name)])
      | some cur =>
        let ws2 := ws1.updateEntity target.entity_id
          (fun e => e.setComponent comp_name (.creature (c.setProp prop_name (cur + change))))
        (ws2, [.propertyModified target.entity_id comp_name prop_name change (cur + change)])
    | some (.unknown m) =>
      let cur := (lookupUVal m prop_name).getD (.num 0)
      match uvalToRat cur with
      | some q =>
        let ws1 := ws.updateEntity target.entity_id
          (fun e => e.setComponent comp_name (.unknown (setUVal m prop_name (.num (q + change)))))
        (ws1, [.propertyModified target.entity_id comp_name prop_name change (q + change)])
      | none => (ws, [.executorError "ModifyProperty: failed to write UnknownComponent"])
    | some _ => (ws, [.executorError "ModifyProperty: unsupported component type"])

/-- Generated instance id: `f"{template_id}_{uuid4().hex[:8]}"` with the
uuid stream modelled by the world's counter. -/
def genEntityId (template_id : String) (n : Nat) : String :=
  template_id ++ "_u" ++ toString n

def genTaskId (n : Nat) : String :=
  "task_u" ++ toString n

/-- The placement attempt of `_execute_create_entity` (destination
branches and the actor-location fallback); returns the world and the
`placed` flag. -/
def createEntityPlace (ws : WorldState) (ctx : Context) (dd : DestData)
    (new_entity : Entity) : WorldState × Bool :=
  let (ws, placed) :=
    if dd.type = "container" then
      match resolveEntityFromCtx ws ctx (strOfOpt dd.target) with
      | none => (ws, false)
      | some parent =>
        match parent.containerComp with
        | none => (ws, false)
        | some cc =>
          match cc.add_entity new_entity.entity_id new_entity.get_all_tags with
          | none => (ws, false)
          | some cc2 =>
            let ws := ws.updateEntity parent.entity_id
              (fun e => e.setComponent "ContainerComponent" (.container cc2))
            let ws :=
              match ws.get_location_of_entity parent.entity_id with
              | some loc => ws.ensure_entity_in_location new_entity.entity_id loc.location_id
              | none => ws
            (ws, true)
    else if dd.type = "location" then
      match resolveEntityFromCtx ws ctx "agent" with
      | none => (ws, false)
      | some agent =>
        match ws.get_location_of_entity agent.entity_id with
        | none => (ws, false)
        | some loc => (ws.ensure_entity_in_location new_entity.entity_id loc.location_id, true)
    else (ws, false)
  if placed then (ws, placed)
  else
    match resolveEntityFromCtx ws ctx "agent" with
    | none => (ws, false)
    | some agent =>
      match ws.get_location_of_entity agent.entity_id with
      | none => (ws, false)
      | some loc => (ws.ensure_entity_in_location new_entity.entity_id loc.location_id, true)

def execCreateEntity (templates : Option Templates) (ws : WorldState) (data : EffectData)
    (ctx : Context) : Except ExecErr (WorldState × List Event) :=
  if data.template = "" ∨ data.destination.isNone then
    .ok (ws, [.executorError "CreateEntity: missing template or destination"])
  else
    match templates with
    | none => .ok (ws, [.executorError "CreateEntity: executor has no entity_templates"])
    | some tdb =>
      match tdb.find? (fun p => p.1 = data.template) with
      | none =>
        .ok (ws, [.executorError ("CreateEntity: template not found: " ++ data.template)])
      | some (_, tmpl) =>
        let (new_id, ws) :=
          if data.instance_id ≠ "" then (data.instance_id, ws)
          else (genEntityId data.template ws.fresh_seq, { ws with fresh_seq := ws.fresh_seq + 1 })
        let new_entity := createEntityFromTemplateData data.template new_id tmpl
        if (ws.get_entity_by_id new_id).isSome then
          .error (.dupEntityId new_id)
        else
          let ws := { ws with entities := ws.entities ++ [new_entity] }
          let (ws, placed) := createEntityPlace ws ctx (data.destination.getD {}) new_entity
          .ok (ws, [.entityCreated new_entity.entity_id new_entity.template_id placed])

/-- Steps 1-3 of `_execute_destroy_entity` after the recursive child
destruction: strip the id from every location index and every container
slot, then delete the entity from the table. -/
def destroyStrip (ws : WorldState) (eid : String) : WorldState :=
  let ws1 := { ws with locations := ws.locations.map (fun (l : Location) =>
    { l with entities_in_location := l.entities_in_location.erase eid }) }
  let ws2 := { ws1 with entities := ws1.entities.map (fun (e : Entity) =>
    match e.containerComp with
    | some cc =>
      e.setComponent "ContainerComponent" (.container
        { slots := cc.slots.map (fun (p : String × ContainerSlot) =>
            (p.1, { p.2 with items := p.2.items.erase eid })) })
    | none => e) }
  { ws2 with entities := ws2.entities.filter (fun e => e.entity_id ≠ eid) }

/-- The location of a resolved container-or-location node: the location
itself, or the container entity's resolved location. -/
def refNodeLoc (ws : WorldState) (n : RefNode) : Option Location :=
  match n with
  | .loc l => some l
  | .ent e => ws.get_location_of_entity e.entity_id

/-- Step 2 of `_execute_transfer_entity`: add the entity to the
destination (live objects re-read from the current state); the flag is
the source's `add_ok`. -/
def transferAddToDest (ws1 : WorldState) (dest_node : RefNode) (entity_to_move : Entity)
    (dest_loc : Option Location) : WorldState × Bool :=
  match dest_node with
  | .loc l =>
    match ws1.get_location_by_id l.location_id with
    | some lcur =>
      match lcur.add_entity_id entity_to_move.entity_id with
      | some l2 => (ws1.updateLocation l.location_id (fun _ => l2), true)
      | none => (ws1, false)
    | none => (ws1, false)
  | .ent e =>
    match (ws1.get_entity_by_id e.entity_id).bind Entity.containerComp with
    | some cc =>
      match cc.add_entity entity_to_move.entity_id entity_to_move.get_all_tags with
      | some cc2 =>
        let wsA := ws1.updateEntity e.entity_id
          (fun en => en.setComponent "ContainerComponent" (.container cc2))
        let wsB :=
          match dest_loc with
          | some dl => wsA.ensure_entity_in_location entity_to_move.entity_id dl.location_id
          | none => wsA
        (wsB, true)
      | none => (ws1, false)
    | none => (ws1, false)

/-- Step 3 of `_execute_transfer_entity`: the cross-location cascade that
moves the entity and all of its recursively contained descendants between
the two location indexes. -/
def transferCascade (ws2 : WorldState) (entity_id : String) (cross_location : Bool)
    (source_loc dest_loc : Option Location) : Except ExecErr WorldState :=
  if cross_location then
    match source_loc, dest_loc with
    | some sl, some dl =>
      match (ws2.get_entity_by_id entity_id).bind Entity.containerComp with
      | some _ =>
        match ws2.collect_descendant_item_ids entity_id with
        | some ds =>
          .ok (ws2.move_ids_between_locations ([entity_id] ++ ds)
            sl.location_id dl.location_id)
        | none => .error .outOfFuel
      | none =>
        .ok (ws2.move_ids_between_locations [entity_id] sl.location_id dl.location_id)
    | _, _ => .ok ws2
  else .ok ws2

def execTransferEntity (ws : WorldState) (_data : EffectData) (ctx : Context) :
    Except ExecErr (WorldState × List Event) :=
  match resolveEntityFromCtx ws ctx "entity_id",
      resolveContainerOrLocationFromCtx ws ctx "source_id",
      resolveContainerOrLocationFromCtx ws ctx "destination_id" with
  | some entity_to_move, some source_node, some dest_node =>
    let source_loc : Option Location := refNodeLoc ws source_node
    let dest_loc : Option Location := refNodeLoc ws dest_node
    let cross_location : Bool :=
      match source_loc, dest_loc with
      | some sl, some dl => sl.location_id != dl.location_id
      | _, _ => false
    -- 1) remove from source
    let step1 : Option WorldState :=
      match source_node with
      | .loc l =>
        if cross_location then
          some (ws.updateLocation l.location_id (fun l0 =>
            l0.remove_entity_id entity_to_move.entity_id))
        else some ws
      | .ent e =>
        match e.containerComp with
        | some cc =>
          match cc.remove_entity_by_id entity_to_move.entity_id with
          | some cc2 =>
            some (ws.updateEntity e.entity_id
              (fun en => en.setComponent "ContainerComponent" (.container cc2)))
          | none => none
        | none => some ws
    match step1 with
    | none =>
      .ok (ws, [.executorError "TransferEntity: failed to remove from source container"])
    | some ws1 =>
      let (ws2, add_ok) := transferAddToDest ws1 dest_node entity_to_move dest_loc
      if !add_ok then
        .ok (ws2, [.executorError "TransferEntity: failed to add to destination"])
      else
        match transferCascade ws2 entity_to_move.entity_id cross_location
            source_loc dest_loc with
        | .error e => .error e
        | .ok ws3 => .ok (ws3, [.entityTransferred entity_to_move.entity_id])
  | _, _, _ => .ok (ws, [.executorError "TransferEntity: missing entity/source/destination"])

/-- `_get_or_create_conditions_list`: on success returns the world with
the `conditions` key ensured on the target's `ConditionComponent` data and
the current list.  A `conditions` value that is a non-string list is
treated as unusable (Python would accept any list object; no claim
exercises that corner). -/
def getOrCreateConditionsList (ws : WorldState) (target : Entity) :
    Option (WorldState × List String) :=
  match target.get_component "ConditionComponent" with
  | some (.unknown m) =>
    match lookupUVal m "conditions" with
    | none =>
      some (ws.updateEntity target.entity_id (fun e =>
        e.setComponent "ConditionComponent" (.unknown (setUVal m "conditions" (.strList [])))), [])
    | some (.strList l) => some (ws, l)
    | some _ => none
  | _ => none

def setConditionsList (ws : WorldState) (target_id : String) (l : List String) : WorldState :=
  ws.updateEntity target_id (fun e =>
    match e.get_component "ConditionComponent" with
    | some (.unknown m) =>
      e.setComponent "ConditionComponent" (.unknown (setUVal m "conditions" (.strList l)))
    | _ => e)

def execAddCondition (ws : WorldState) (data : EffectData) (ctx : Context) :
    WorldState × List Event :=
  match resolveEntityFromCtx ws ctx (strOfOpt data.target), data.condition_id != "" with
  | some target, true =>
    match getOrCreateConditionsList ws target with
    | none => (ws, [.executorError "AddCondition: ConditionComponent missing (not migrated yet)"])
    | some (ws1, cond_list) =>
      let cid := data.condition_id
      let ws2 := if cid ∈ cond_list then ws1
        else setConditionsList ws1 target.entity_id (cond_list ++ [cid])
      (ws2, [.conditionAdded target.entity_id cid])
  | _, _ => (ws, [.executorError "AddCondition: missing target or condition_id"])

def execRemoveCondition (ws : WorldState) (data : EffectData) (ctx : Context) :
    WorldState × List Event :=
  match resolveEntityFromCtx ws ctx (strOfOpt data.target), data.condition_id != "" with
  | some target, true =>
    match getOrCreateConditionsList ws target with
    | none =>
      (ws, [.executorError "RemoveCondition: ConditionComponent missing (not migrated yet)"])
    | some (ws1, cond_list) =>
      let cid := data.condition_id
      let ws2 := if cid ∈ cond_list then
        setConditionsList ws1 target.entity_id (cond_list.erase cid) else ws1
      (ws2, [.conditionRemoved target.entity_id cid])
  | _, _ => (ws, [.executorError "RemoveCondition: missing target or condition_id"])

def execCreateTask (ws : WorldState) (_data : EffectData) (ctx : Context) :
    Except ExecErr (WorldState × List Event) :=
  match resolveEntityFromCtx ws ctx "target" with
  | none => .ok (ws, [.executorError "CreateTask: target missing"])
  | some target =>
    match ctx.recipe with
    | none => .ok (ws, [.executorError "CreateTask: recipe missing in context"])
    | some recipe =>
      let agent_id := ctx.getStr "agent_id"
      let agent? := if agent_id ≠ "" then ws.get_entity_by_id agent_id else none
      let host_entity := match agent? with | some a => a | none => target
      -- locate the host component ("TaskHostComponent", legacy "TaskComponent"),
      -- or attach a fresh one; `add_component` raising is caught in the source
      let hostInfo : Option (WorldState × String) :=
        match host_entity.get_component "TaskHostComponent" with
        | some (.taskHost _) => some (ws, "TaskHostComponent")
        | _ =>
          match host_entity.get_component "TaskComponent" with
          | some (.taskHost _) => some (ws, "TaskComponent")
          | _ =>
            if host_entity.has_component "TaskHostComponent" then none
            else
              some (ws.updateEntity host_entity.entity_id (fun e =>
                { e with components := e.components ++ [("TaskHostComponent", .taskHost [])] }),
                "TaskHostComponent")
      match hostInfo with
      | none => .ok (ws, [.executorError "CreateTask: failed to add TaskHostComponent"])
      | some (ws, host_key) =>
        let process := recipe.process.getD {}
        let prog := (recipe.progression.orElse (fun _ => process.progression)).getD {}
        let task : Task :=
          { task_id := genTaskId ws.fresh_seq, task_type := recipe.verb,
            action_type := "Task", target_entity_id := target.entity_id,
            required_progress := process.required_progress.getD 1,
            completion_effects := recipe.outputs.map recipeOutputToEffect,
            progressor_id :=
              match prog.progressor with
              | some s => s
              | none => prog.progressor_id.getD "",
            progressor_params := prog.params,
            tick_effects := prog.tick_effects }
        let ws := { ws with fresh_seq := ws.fresh_seq + 1 }
        match (ws.get_entity_by_id host_entity.entity_id).bind
            (fun e => e.get_component host_key) with
        | some (.taskHost ids) =>
          if task.task_id ∈ ids then .error (.dupTaskOnHost task.task_id)
          else
            let ws := ws.updateEntity host_entity.entity_id (fun e =>
              e.setComponent host_key (.taskHost (ids ++ [task.task_id])))
            if (ws.get_task_by_id task.task_id).isSome then .error (.dupTaskGlobal task.task_id)
            else
              let ws := { ws with tasks := ws.tasks ++ [task] }
              let events := [Event.taskCreated task.task_id target.entity_id]
              match agent? with
              | none => .ok (ws, events)
              | some _ =>
                match (ws.get_entity_by_id agent_id).bind
                    (fun a => a.get_component "WorkerComponent") with
                | some (.worker _) =>
                  let ws := ws.updateEntity agent_id
                    (fun a => a.setComponent "WorkerComponent" (.worker task.task_id))
                  let ws := ws.updateTask task.task_id (fun t =>
                    let t := { t with task_status := "InProgress" }
                    if agent_id ≠ "" ∧ agent_id ∉ t.assigned_agent_ids then
                      { t with assigned_agent_ids := t.assigned_agent_ids ++ [agent_id] }
                    else t)
                  .ok (ws, events ++ [.taskAssigned task.task_id agent_id])
                | _ => .ok (ws, events)
        -- unreachable: the host key was just checked / attached
        | _ => .ok (ws, [.executorError "CreateTask: failed to add TaskHostComponent"])

def execProgressTask (ws : WorldState) (data : EffectData) (ctx : Context) :
    WorldState × List Event :=
  let task_id := if data.task_id ≠ "" then data.task_id else ctx.getStr "task_id"
  match ws.get_task_by_id task_id with
  | none => (ws, [.executorError ("ProgressTask: task not found " ++ task_id)])
  | some task =>
    let ws := ws.updateTask task_id (fun t => { t with progress := t.progress + data.delta })
    (ws, [.taskProgressed task.task_id data.delta (task.progress + data.delta)
      task.required_progress])

def execUpdateTaskStatus (ws : WorldState) (data : EffectData) (ctx : Context) :
    WorldState × List Event :=
  let task_id := if data.task_id ≠ "" then data.task_id else ctx.getStr "task_id"
  let new_status := pyStrip data.status
  match ws.get_task_by_id task_id with
  | none => (ws, [.executorError ("UpdateTaskStatus: task not found " ++ task_id)])
  | some task =>
    let ws := ws.updateTask task_id (fun t => { t with task_status := new_status })
    (ws, [.taskStatusChanged task.task_id task.task_status new_status])

/-- `_execute_finish_task` after the completion-effect cascade: detach from
the host component and unregister globally. -/
def finishTaskCleanup (ws : WorldState) (ctx : Context) (task : Task) (evs : List Event) :
    WorldState × List Event :=
  let agent_id := ctx.getStr "agent_id"
  let host_entity? :=
    match (if agent_id ≠ "" then ws.get_entity_by_id agent_id else none) with
    | some h => some h
    | none => ws.get_entity_by_id task.target_entity_id
  let ws :=
    match host_entity? with
    | none => ws
    | some h =>
      let key? :=
        match h.get_component "TaskHostComponent" with
        | some (.taskHost _) => some "TaskHostComponent"
        | _ =>
          match h.get_component "TaskComponent" with
          | some (.taskHost _) => some "TaskComponent"
          | _ => none
      match key? with
      | some key =>
        ws.updateEntity h.entity_id (fun e =>
          match e.get_component key with
          | some (.taskHost ids) => e.setComponent key (.taskHost (ids.filter (· ≠ task.task_id)))
          | _ => e)
      | none => ws
  let ws := ws.unregister_task task.task_id
  (ws, evs ++ [.taskFinished task.task_id])

def destroyEffectPair (eid : String) : EffectData × Context :=
  ({ effect := "DestroyEntity", target := some "entity_to_destroy" },
   { strs := [("entity_to_destroy_id", eid)] })

/-- Sequential execution of a list of (effect, context) pairs through a
given executor step, as the source's loops over `self.execute(...)`
calls; an uncaught exception aborts the remainder. -/
def runMany (step : WorldState → EffectData → Context → Except ExecErr (WorldState × List Event)) :
    WorldState → List (EffectData × Context) → Except ExecErr (WorldState × List Event)
  | ws, [] => .ok (ws, [])
  | ws, (e, c) :: rest =>
    match step ws e c with
    | .error err => .error err
    | .ok (ws1, evs1) =>
      match runMany step ws1 rest with
      | .error err => .error err
      | .ok (ws2, evs2) => .ok (ws2, evs1 ++ evs2)

/-- `WorldExecutor.execute`: single dispatch over the effect tag.  The
fuel only bounds the recursion depth of the self-invoking effects
(DestroyEntity children, ConsumeInputs, FinishTask completion effects);
running out models the source's unbounded recursion on cyclic data. -/
def exec (templates : Option Templates) : Nat → WorldState → EffectData → Context →
    Except ExecErr (WorldState × List Event)
  | 0, _, _, _ => .error .outOfFuel
  | fuel + 1, ws, data, ctx =>
    if data.effect = "" then .ok (ws, [.executorError "missing effect type"])
    else if data.effect = "ModifyProperty" then .ok (execModifyProperty ws data ctx)
    else if data.effect = "CreateEntity" then execCreateEntity templates ws data ctx
    else if data.effect = "DestroyEntity" then
      match resolveEntityFromCtx ws ctx (data.target.getD "entity_to_destroy") with
      | none => .ok (ws, [.executorError "DestroyEntity: target missing"])
      | some ent =>
        let child_ids := match ent.containerComp with
          | some cc => cc.get_all_item_ids
          | none => []
        match runMany (exec templates fuel) ws (child_ids.map destroyEffectPair) with
        | .error e => .error e
        | .ok (ws1, evs) =>
          .ok (destroyStrip ws1 ent.entity_id, evs ++ [.entityDestroyed ent.entity_id])
    else if data.effect = "TransferEntity" then execTransferEntity ws data ctx
    else if data.effect = "AddCondition" then .ok (execAddCondition ws data ctx)
    else if data.effect = "RemoveCondition" then .ok (execRemoveCondition ws data ctx)
    else if data.effect = "ConsumeInputs" then
      runMany (exec templates fuel) ws (ctx.consumptionIds.map destroyEffectPair)
    else if data.effect = "CreateTask" then execCreateTask ws data ctx
    else if data.effect = "ProgressTask" then .ok (execProgressTask ws data ctx)
    else if data.effect = "UpdateTaskStatus" then .ok (execUpdateTaskStatus ws data ctx)
    else if data.effect = "FinishTask" then
      match ws.get_task_by_id (ctx.getStr "task_id") with
      | none => .ok (ws, [.executorError "FinishTask: task not found"])
      | some task =>
        let ctx2 := ctx.setDefaultStr "target_id" task.target_entity_id
        let effects :=
          if task.completion_effects ≠ [] then task.completion_effects
          else match ctx.recipe with
            | some r => r.outputs.map recipeOutputToEffect
            | none => []
        match runMany (exec templates fuel) ws (effects.map (fun e => (e, ctx2))) with
        | .error e => .error e
        | .ok (ws1, evs) => .ok (finishTaskCleanup ws1 ctx2 task evs)
    else .ok (ws, [.executorError ("unknown effect type: " ++ data.effect)])

/-! ### World builder (`data/builder.py` `build_world_state`)

The bundle model covers location declarations, entity placements and
`parent_container` references.  Bundles carrying `component_overrides` or
persisted `tasks` are outside the modelled format; on bundles without
them the corresponding builder passes are no-ops, so the embedding is
faithful for the modelled format. -/

structure BundleEntity where
  template_id : String := ""
  instance_id : String := ""
  parent_container : Option String := none
deriving DecidableEq

structure BundleLocation where
  location_id : String := ""
  location_name : String := "Unnamed Location"
  description : String := ""
  entities : List BundleEntity := []
deriving DecidableEq

structure BundleWorld where
  current_tick : Int := 0
  locations : List BundleLocation := []
deriving DecidableEq

/-- Structural build errors: fail fast and abort construction. -/
inductive BuildErr where
  | dupLocationId (id : String)
  | dupEntityId (id : String)
  | templateNotFound (id : String)
  | componentExists (name : String)
deriving DecidableEq

/-- `Entity.ensure_initialized`. -/
def Entity.ensure_initialized (e : Entity) : Entity :=
  match e.get_component "CreatureComponent" with
  | some (.creature c) => e.setComponent "CreatureComponent" (.creature c.ensure_initialized)
  | _ => e

/-- `_create_default_container_component`. -/
def createDefaultContainerComponent : ContainerComponent :=
  let cfg : SlotConfig :=
    { capacity_volume := 999, capacity_count := 999, accepted_tags := [], transparent := false }
  { slots := [("main", { config := cfg, items := [] })] }

/-- `_current_move_entity_between_locations`: remove from every other
location, then ensure membership in the target. -/
def currentMoveEntityBetweenLocations (ws : WorldState) (entity_id to_location_id : String) :
    WorldState :=
  let ws := { ws with locations := ws.locations.map (fun (l : Location) =>
    if entity_id ∈ l.entities_in_location ∧ l.location_id ≠ to_location_id then
      l.remove_entity_id entity_id
    else l) }
  ws.ensure_entity_in_location entity_id to_location_id

def buildRegisterLocations (bundle : BundleWorld) (ws : WorldState) :
    Except BuildErr WorldState :=
  bundle.locations.foldlM (fun ws ld => do
    let lid := pyStrip ld.location_id
    if lid = "" then pure ws
    else if (ws.get_location_by_id lid).isSome then throw (BuildErr.dupLocationId lid)
    else pure { ws with locations := ws.locations ++
      [{ location_id := lid, location_name := ld.location_name,
         description := ld.description }] }) ws

/-- Pass 2: create entities from templates, register them, index them in
their declared location, and record the `parent_container` declarations
(in insertion order, as the Python snapshot dict iterates). -/
def buildRegisterEntities (bundle : BundleWorld) (templates : Templates) (ws : WorldState) :
    Except BuildErr (WorldState × List (String × String)) :=
  bundle.locations.foldlM (fun acc ld => do
    let (ws, parents) := acc
    let lid := pyStrip ld.location_id
    match ws.get_location_by_id lid with
    | none => pure (ws, parents)
    | some _ =>
      ld.entities.foldlM (fun acc snapshot => do
        let (ws, parents) := acc
        if snapshot.template_id = "" ∨ snapshot.instance_id = "" then pure (ws, parents)
        else
          match templates.find? (fun p => p.1 = snapshot.template_id) with
          | none => throw (BuildErr.templateNotFound snapshot.template_id)
          | some (_, tmpl) =>
            let ent := createEntityFromTemplateData snapshot.template_id
              snapshot.instance_id tmpl
            if (ws.get_entity_by_id ent.entity_id).isSome then
              throw (BuildErr.dupEntityId ent.entity_id)
            let ws := { ws with entities := ws.entities ++ [ent] }
            let ws := ws.updateLocation lid (fun l =>
              if ent.entity_id ∈ l.entities_in_location then l
              else { l with entities_in_location := l.entities_in_location ++ [ent.entity_id] })
            let parents := parents ++
              (match snapshot.parent_container with
               | some p => [(ent.entity_id, p)]
               | none => [])
            pure (ws, parents)) (ws, parents)) (ws, [])

/-- Pass 2.5: establish containment for `parent_container` declarations
and correct location ownership. -/
def buildApplyParent (ws : WorldState) (decl : String × String) : Except BuildErr WorldState := do
  let (entity_id, parent_raw) := decl
  let parent_id := pyStrip parent_raw
  if parent_id = "" then return ws
  match ws.get_entity_by_id entity_id with
  | none => return ws
  | some child =>
    match ws.get_location_by_id parent_id with
    | some ploc => return currentMoveEntityBetweenLocations ws entity_id ploc.location_id
    | none =>
      match ws.get_entity_by_id parent_id with
      | none => return ws
      | some parent_entity =>
        let (ws, cc) ←
          match parent_entity.containerComp with
          | some cc => pure (ws, cc)
          | none =>
            -- fault tolerance: synthesize a default container component
            if parent_entity.has_component "ContainerComponent" then
              throw (BuildErr.componentExists "ContainerComponent")
            else
              let cc := createDefaultContainerComponent
              pure (ws.updateEntity parent_id (fun e =>
                { e with components := e.components ++ [("ContainerComponent", .container cc)] }),
                cc)
        let ws :=
          match cc.add_entity child.entity_id child.get_all_tags with
          | some cc2 => ws.updateEntity parent_id (fun e =>
              e.setComponent "ContainerComponent" (.container cc2))
          | none => ws
        match ws.get_location_of_entity parent_id with
        | some ploc => return currentMoveEntityBetweenLocations ws entity_id ploc.location_id
        | none => return ws

/-- `build_world_state` for the modelled bundle format. -/
def buildWorldState (bundle : BundleWorld) (templates : Templates) :
    Except BuildErr WorldState := do
  let ws : WorldState := { total_ticks := bundle.current_tick }
  let ws ← buildRegisterLocations bundle ws
  let (ws, parents) ← buildRegisterEntities bundle templates ws
  let ws ← parents.foldlM buildApplyParent ws
  return { ws with entities := ws.entities.map Entity.ensure_initialized }

/-! ### Interaction engine (`interaction/engine.py`) -/

abbrev RecipeDb := List (String × Recipe)

structure Action where
  verb : String := ""
  target_id : String := ""
  parameters : List (String × String) := []
deriving DecidableEq

structure CommandResult where
  status : String := ""
  reason : String := ""
  message : String := ""
  effects : List EffectData := []
  context : Option Context := none
deriving DecidableEq

/-- The `continue` conditions of `_find_matching_recipe`'s loop body:
verb equality, every required tag present on the target, and — when a
non-empty `parameter_match` dict is declared — its first key's value
equal to the supplied parameter. -/
def recipeMatches (verb : String) (target : Entity) (params : List (String × String))
    (recipe : Recipe) : Bool :=
  recipe.verb == verb &&
  recipe.target_tags.all (fun t => target.has_tag t) &&
  (match recipe.parameter_match with
   | none => true
   | some [] => true
   | some ((k, v) :: _) => ((params.find? (fun p => p.1 = k)).map (·.2)) == some v)

/-- `_find_matching_recipe`: first recipe of the table (insertion order)
passing `recipeMatches`, with the recipe id copied into the result. -/
def findMatchingRecipe (db : RecipeDb) (verb : String) (target : Entity)
    (params : List (String × String)) : Option Recipe :=
  (db.find? (fun p => recipeMatches verb target params p.2)).map
    (fun p => { p.2 with id := p.1 })

/-- Spec-side matching predicate, transcribed from the specification's
words: the verb equals the requested verb, every required target tag is
present on the target, and the single declared `parameter_match` key (if
any) equals the supplied parameter value.  To be compared with the
source-side `recipeMatches`. -/
def specRecipeMatches (verb : String) (target : Entity) (params : List (String × String))
    (recipe : Recipe) : Prop :=
  recipe.verb = verb ∧
  (∀ t ∈ recipe.target_tags, target.has_tag t = true) ∧
  (∀ k v, recipe.parameter_match = some [(k, v)] →
    ((params.find? (fun p => p.1 = k)).map (·.2)) = some v)

/-- `_expand_dynamic_outputs`: splice in list-valued component properties
for `dynamic_outputs_from_component` entries. -/
def expandDynamicOutputs (target : Entity) (outputs : List RecipeOutput) : List EffectData :=
  outputs.foldl (fun effects out =>
    match out with
    | .dynamicFromComponent comp_name prop_name =>
      let val : Option UVal :=
        match target.get_component comp_name with
        | some (.unknown m) => lookupUVal m prop_name
        | _ => none
      match val with
      | some (.effList l) => effects ++ l
      | _ => effects
    | .eff e => effects ++ [e]) []

def processCommand (db : RecipeDb) (ws : WorldState) (agent_id : String) (command : Action) :
    CommandResult :=
  match ws.get_entity_by_id command.target_id with
  | none => { status := "failed", reason := "NO_TARGET", message := "target entity not found" }
  | some target =>
    match findMatchingRecipe db command.verb target command.parameters with
    | none =>
      { status := "failed", reason := "NO_RECIPE",
        message := "No matching recipe found for this interaction." }
    | some recipe =>
      let context : Context :=
        { strs := [("agent_id", agent_id), ("target_id", command.target_id)],
          recipe := some recipe }
      let required_progress := (recipe.process.bind ProcessData.required_progress).getD 0
      if required_progress ≠ 0 then
        { status := "success", effects := [{ effect := "CreateTask" }], context := some context }
      else
        { status := "success", effects := expandDynamicOutputs target recipe.outputs,
          context := some context }

/-! ### Logging (`world_state.py` `record_event` / `record_interaction_attempt`) -/

/-- The `"type"` string the source stores in each event dict. -/
def eventTypeName : Event → String
  | .executorError _ => "ExecutorError"
  | .propertyModified _ _ _ _ _ => "PropertyModified"
  | .entityCreated _ _ _ => "EntityCreated"
  | .entityDestroyed _ => "EntityDestroyed"
  | .entityTransferred _ => "EntityTransferred"
  | .conditionAdded _ _ => "ConditionAdded"
  | .conditionRemoved _ _ => "ConditionRemoved"
  | .taskCreated _ _ => "TaskCreated"
  | .taskAssigned _ _ => "TaskAssigned"
  | .taskProgressed _ _ _ _ => "TaskProgressed"
  | .taskStatusChanged _ _ _ => "TaskStatusChanged"
  | .taskFinished _ => "TaskFinished"
  | .taskInterrupted _ _ => "TaskInterrupted"
  | .tickAdvanced _ _ => "TickAdvanced"

def WorldState.record_event (ws : WorldState) (event : Event) (ctx : Context) : WorldState :=
  let actor_id :=
    if ctx.getStr "agent_id" ≠ "" then ctx.getStr "agent_id" else ctx.getStr "actor_id"
  let loc_id :=
    if actor_id ≠ "" then
      match ws.get_location_of_entity actor_id with
      | some l => l.location_id
      | none => ""
    else ""
  let entry : LogEntry :=
    { seq := ws.event_seq + 1, tick := ws.total_ticks, location_id := loc_id,
      actor_id := actor_id, event := event }
  { ws with event_seq := ws.event_seq + 1, event_log := ws.event_log ++ [entry] }

def WorldState.record_interaction_attempt (ws : WorldState)
    (actor_id verb target_id status reason recipe_id : String) : WorldState :=
  let actor := if actor_id ≠ "" then ws.get_entity_by_id actor_id else none
  let target := if target_id ≠ "" then ws.get_entity_by_id target_id else none
  let actor_name :=
    match actor with
    | some a => if a.entity_name ≠ "" then a.entity_name else actor_id
    | none => actor_id
  let target_name :=
    match target with
    | some t => if t.entity_name ≠ "" then t.entity_name else target_id
    | none => target_id
  let loc_id :=
    if actor_id ≠ "" then
      match ws.get_location_of_entity actor_id with
      | some l => l.location_id
      | none => ""
    else ""
  let entry : InteractionEntry :=
    { seq := ws.interaction_seq + 1, tick := ws.total_ticks, location_id := loc_id,
      actor_id := actor_id, actor_name := actor_name, verb := verb, target_id := target_id,
      target_name := target_name, recipe_id := recipe_id, status := status, reason := reason }
  { ws with
    interaction_seq := ws.interaction_seq + 1,
    interaction_log := ws.interaction_log ++ [entry] }

/-! ### Perception system (`sim/perception.py`) -/

structure EntityView where
  id : String
  name : String
  tags : List String
deriving DecidableEq

structure EventView where
  tick : Int
  actor_id : String
  type : String
  event : Event
deriving DecidableEq

structure InteractionView where
  tick : Int
  text : String
  actor_id : String
  status : String
  reason : String
deriving DecidableEq

/-- Perception snapshot; `events`/`interactions` are `none` when not
requested (the source omits the keys), and `recipe_db` is the extra key
`AgentControlComponent.per_tick` injects before calling the provider. -/
structure Perception where
  agent_id : String := ""
  location : Option (String × String) := none
  entities : List EntityView := []
  hidden_entity_count : Nat := 0
  events : Option (List EventView) := none
  interactions : Option (List InteractionView) := none
  recipe_db : Option RecipeDb := none

def getVisibleEventsGo (loc_id : String) (min_tick : Int) (max_events : Nat) :
    List LogEntry → List EventView → List EventView
  | [], out => out
  | item :: rest, out =>
    if item.location_id ≠ loc_id then getVisibleEventsGo loc_id min_tick max_events rest out
    else if item.tick < min_tick then out
    else
      let view : EventView :=
        { tick := item.tick, actor_id := item.actor_id,
          type := eventTypeName item.event, event := item.event }
      let out := out ++ [view]
      if out.length ≥ max_events then out
      else getVisibleEventsGo loc_id min_tick max_events rest out

def getVisibleEvents (ws : WorldState) (agent_id : String) (max_events tick_window : Nat) :
    List EventView :=
  match ws.get_location_of_entity agent_id with
  | none => []
  | some loc =>
    let min_tick := max 0 (ws.total_ticks - (tick_window : Int))
    (getVisibleEventsGo loc.location_id min_tick max_events ws.event_log.reverse []).reverse

/-- `_render_interaction_record`. -/
def renderInteractionRecord (record : InteractionEntry) (viewer_id : String) (db : RecipeDb) :
    String :=
  let actor_name := if record.actor_name ≠ "" then record.actor_name else record.actor_id
  let target_name := if record.target_name ≠ "" then record.target_name else record.target_id
  let actor_text := if viewer_id = record.actor_id then "Me" else actor_name
  let reason_text :=
    if record.reason = "NO_TARGET" then "Target not found"
    else if record.reason = "NO_RECIPE" then "No corresponding interaction rule"
    else if record.reason = "TASK_NOT_IMPLEMENTED" then "Continuous task not yet implemented"
    else if record.reason ≠ "" then record.reason
    else "Unknown reason"
  let template :=
    if record.recipe_id ≠ "" then
      match db.find? (fun p => p.1 = record.recipe_id) with
      | some (_, recipe) =>
        if record.status = "success" then recipe.narrative_success else recipe.narrative_fail
      | none => ""
    else ""
  let template :=
    if template = "" then
      if record.status = "success" then "{actor} executed {verb} ({target})"
      else "{actor} attempted {verb} ({target}) but failed: {reason}"
    else template
  pyReplace (pyReplace (pyReplace (pyReplace template "{actor}" actor_text)
    "{target}" target_name) "{verb}" record.verb) "{reason}" reason_text

def getVisibleInteractionsGo (viewer_id : String) (db : RecipeDb) (loc_id : String)
    (min_tick : Int) (max_records : Nat) :
    List InteractionEntry → List InteractionView → List InteractionView
  | [], out => out
  | item :: rest, out =>
    if item.location_id ≠ loc_id then
      getVisibleInteractionsGo viewer_id db loc_id min_tick max_records rest out
    else if item.tick < min_tick then out
    else
      let view : InteractionView :=
        { tick := item.tick, text := renderInteractionRecord item viewer_id db,
          actor_id := item.actor_id, status := item.status, reason := item.reason }
      let out := out ++ [view]
      if out.length ≥ max_records then out
      else getVisibleInteractionsGo viewer_id db loc_id min_tick max_records rest out

def getVisibleInteractions (ws : WorldState) (db : RecipeDb) (viewer_id : String)
    (max_records tick_window : Nat) : List InteractionView :=
  match ws.get_location_of_entity viewer_id with
  | none => []
  | some loc =>
    let min_tick := max 0 (ws.total_ticks - (tick_window : Int))
    (getVisibleInteractionsGo viewer_id db loc.location_id min_tick max_records
      ws.interaction_log.reverse []).reverse

/-- `_collect_contained_ids_in_location`: every id held inside a container
belonging to an entity resolving to this location (a Python `set`; only
membership is consumed, so duplicates are immaterial). -/
def collectContainedIdsInLocation (ws : WorldState) (location_id : String) : List String :=
  ws.entities.foldl (fun contained ent =>
    match ws.get_location_of_entity ent.entity_id with
    | some l =>
      if l.location_id = location_id then
        match ent.containerComp with
        | some cc => contained ++ cc.get_all_item_ids
        | none => contained
      else contained
    | none => contained) []

/-- The items of the transparent slots of an entity's container, in slot
order (the ids the BFS may enqueue from this node). -/
def transparentItemsOf (ws : WorldState) (eid : String) : List String :=
  match (ws.get_entity_by_id eid).bind Entity.containerComp with
  | some cc => cc.slots.foldl (fun acc p =>
      if p.2.config.transparent then acc ++ p.2.items else acc) []
  | none => []

/-- Enqueue unseen non-empty ids, marking them seen, as the inner loops of
`_expand_transparent_contents` do (state: seen × queue). -/
def bfsEnqueue : List String → List String → List String → List String × List String
  | seen, queue, [] => (seen, queue)
  | seen, queue, i :: rest =>
    if i ≠ "" ∧ i ∉ seen then bfsEnqueue (seen ++ [i]) (queue ++ [i]) rest
    else bfsEnqueue seen queue rest

/-- The `while queue:` loop; returns (visible, seen, queue-left).  The
fuel bounds the number of pops, which never exceeds the number of
enqueues (each enqueue marks a fresh id seen), so the top-level fuel
below always lets the queue drain exactly as the source's loop does. -/
def expandTransparentAux (ws : WorldState) :
    Nat → List String → List String → List String →
    List String × List String × List String
  | 0, queue, seen, visible => (visible, seen, queue)
  | fuel + 1, queue, seen, visible =>
    match queue with
    | [] => (visible, seen, [])
    | current :: qrest =>
      let visible := visible ++ [current]
      let (seen, queue) := bfsEnqueue seen qrest (transparentItemsOf ws current)
      expandTransparentAux ws fuel queue seen visible

def totalSlotItems (ws : WorldState) : Nat :=
  ws.entities.foldl (fun n e =>
    match e.containerComp with
    | some cc => n + cc.get_all_item_ids.length
    | none => n) 0

/-- All slot items of all containers, as a list; `totalSlotItems` is its
length. -/
def allSlotItemsList (ws : WorldState) : List String :=
  ws.entities.foldl (fun acc e =>
    match e.containerComp with
    | some cc => acc ++ cc.get_all_item_ids
    | none => acc) []

/-- `_expand_transparent_contents`. -/
def expandTransparentContents (ws : WorldState) (seed_visible_ids : List String) :
    List String :=
  let (seen, queue) := bfsEnqueue [] [] seed_visible_ids
  (expandTransparentAux ws (seed_visible_ids.length + totalSlotItems ws + 1)
    queue seen []).1

/-- `PerceptionSystem.perceive`.  `hidden_entity_count` is the source's
`max(0, len(members) - len(visible_ids))`, which truncated `Nat`
subtraction renders exactly. -/
def perceive (ws : WorldState) (db : RecipeDb) (agent_id : String)
    (include_events include_interactions : Bool) : Perception :=
  match ws.get_location_of_entity agent_id with
  | none => { agent_id := agent_id, location := none, entities := [] }
  | some loc =>
    let contained_ids := collectContainedIdsInLocation ws loc.location_id
    let visible_seed := loc.entities_in_location.filter (fun eid => eid ∉ contained_ids)
    let visible_ids := expandTransparentContents ws visible_seed
    let entities := visible_ids.foldl (fun acc eid =>
      match ws.get_entity_by_id eid with
      | none => acc
      | some ent =>
        let view : EntityView :=
          { id := ent.entity_id, name := ent.entity_name, tags := ent.get_all_tags }
        acc ++ [view]) []
    { agent_id := agent_id,
      location := some (loc.location_id, loc.location_name),
      entities := entities,
      hidden_entity_count := loc.entities_in_location.length - visible_ids.length,
      events := if include_events then some (getVisibleEvents ws agent_id 20 10) else none,
      interactions :=
        if include_interactions then some (getVisibleInteractions ws db agent_id 20 10)
        else none }

/-! ### Decision arbitration (`decision_arbiter.py`, `controller_resolver.py`,
`interrupt_rules/`) -/

structure InterruptResult where
  interrupt : Bool
  reason : String := ""
  rule_type : String := ""
  priority : Int := 999999
deriving DecidableEq

/-- Is the component stored under `name` an enabled controller of the
class the resolver pairs with that name? -/
def isEnabledControllerAs (c : Component) (name : String) : Bool :=
  if name = "PlayerControlComponent" then
    match c with | .playerControl en _ => en | _ => false
  else if name = "AgentControlComponent" ∨ name = "LLMControlComponent" then
    match c with | .agentControl en _ => en | _ => false
  else if name = "LogicControlComponent" then
    match c with | .logicControl en _ => en | _ => false
  else false

/-- `resolve_enabled_controller_component`: fixed precedence
Player > Agent/LLM > Logic, first enabled match. -/
def resolveEnabledControllerComponent (entity : Option Entity) :
    Option (String × Component) :=
  match entity with
  | none => none
  | some e =>
    ["PlayerControlComponent", "AgentControlComponent", "LLMControlComponent",
     "LogicControlComponent"].foldl (fun found name =>
      match found with
      | some r => some r
      | none =>
        match e.get_component name with
        | some c => if isEnabledControllerAs c name then some (name, c) else none
        | none => none) none

/-- `IdleRule.should_interrupt` / `LowNutritionRule.should_interrupt`.
The source's `creature.ensure_initialized()` side effect is a no-op on
worlds built through the builder (which initializes every creature), so
the rule is modelled as a pure predicate over the initialized view. -/
def ruleShouldInterrupt (ws : WorldState) (agent_id : String) :
    InterruptRule → InterruptResult
  | .idle p =>
    let worker := (ws.get_entity_by_id agent_id).bind
      (fun a => a.get_component "WorkerComponent")
    let has_task :=
      match worker with
      | some (.worker cur) => cur ≠ ""
      | _ => false
    if !has_task then
      { interrupt := true, reason := "Idle state", rule_type := "Idle", priority := p }
    else
      { interrupt := false, reason := "", rule_type := "Idle", priority := p }
  | .lowNutrition p thr =>
    match (ws.get_entity_by_id agent_id).bind (fun a => a.get_component "CreatureComponent") with
    | some (.creature c0) =>
      let c := c0.ensure_initialized
      match c.current_nutrition with
      | none => { interrupt := false, rule_type := "LowNutrition", priority := p }
      | some cur =>
        if cur < thr then
          { interrupt := true, reason := "营养过低，需要进食",
            rule_type := "LowNutrition", priority := p }
        else
          { interrupt := false, rule_type := "LowNutrition", priority := p }
    | _ => { interrupt := false, rule_type := "LowNutrition", priority := p }

def firstInterrupt (ws : WorldState) (agent_id : String) :
    List InterruptRule → InterruptResult
  | [] => { interrupt := false, reason := "", rule_type := "", priority := 999999 }
  | r :: rest =>
    let result := ruleShouldInterrupt ws agent_id r
    if result.interrupt then result else firstInterrupt ws agent_id rest

/-- `DecisionArbiterComponent.check_if_interrupt_is_needed`: no enabled
controller means no decision; otherwise the first firing rule wins. -/
def checkIfInterruptIsNeeded (ruleset : List InterruptRule) (ws : WorldState)
    (agent_id : String) : InterruptResult :=
  match resolveEnabledControllerComponent (ws.get_entity_by_id agent_id) with
  | none => { interrupt := false, reason := "", rule_type := "", priority := 999999 }
  | some _ => firstInterrupt ws agent_id ruleset

/-! ### Progressors (`progressors/linear.py`; the registry only ever holds
the `Linear` progressor, which `get_progressor` also falls back to) -/

/-- `_read_number_from_component`.  `float()` on a Python `bool` yields
0/1, hence the `enabled` cases on control components. -/
def readNumberFromComponent (comp : Option Component) (prop : String) (default : Rat) : Rat :=
  match comp with
  | none => default
  | some (.unknown m) =>
    match lookupUVal m prop with
    | some v => (uvalToRat v).getD default
    | none => default
  | some (.creature c) => (c.getProp prop).getD default
  | some (.agentControl en _) => if prop = "enabled" then (if en then 1 else 0) else default
  | some (.playerControl en _) => if prop = "enabled" then (if en then 1 else 0) else default
  | some (.logicControl en _) => if prop = "enabled" then (if en then 1 else 0) else default
  | some _ => default

/-- `LinearProgressor.compute_progress_delta`. -/
def computeProgressDelta (ws : WorldState) (agent_id : String) (task : Task) (ticks : Int) :
    Rat :=
  let params := task.progressor_params
  match ws.get_entity_by_id agent_id with
  | none => 0
  | some agent =>
    let delta := params.progress_contributors.foldl (fun d c =>
      d + readNumberFromComponent (agent.get_component c.component) c.property 0 * c.multiplier)
      params.base_progress_per_tick
    delta * (ticks : Rat)

/-! ### Tick scheduler (`sim/manager.py`) and the per-tick hooks
(`worker.py`, `agent_control.py`) -/

inductive PyExc where
  | typeError
  | otherExc
deriving DecidableEq

/-- An action provider; `decide3`/`decide2` are the 3- and 2-argument
call shapes, each of which may raise. -/
structure ActionProvider where
  decide3 : Perception → String → String → Except PyExc (List Action)
  decide2 : Perception → String → Except PyExc (List Action)

/-- The source's `try: decide(p, r, aid) except TypeError: decide(p, r)`:
only a TypeError from the 3-argument call triggers the 2-argument retry;
every other exception (and one raised by the retry) propagates. -/
def callProvider (p : ActionProvider) (perception : Perception) (reason agent_id : String) :
    Except PyExc (List Action) :=
  match p.decide3 perception reason agent_id with
  | .error .typeError => p.decide2 perception reason
  | r => r

/-- An exception escaping a per-tick hook: a provider exception or an
executor exception. -/
inductive TickErr where
  | providerErr (e : PyExc)
  | execErr (e : ExecErr)
deriving DecidableEq

/-- One observation of the world by a provider: the state at the moment
`decide` is invoked, with the perception and reason passed to it. -/
structure ProviderCall where
  agent_id : String
  reason : String
  ws : WorldState
  perception : Perception

/-- The per-tick service bindings the manager installs (`step` item 2),
modelled as explicit parameters instead of the transient registry. -/
structure SimServices where
  templates : Option Templates := none
  recipe_db : RecipeDb := []
  default_provider : Option ActionProvider := none
  action_providers : List (String × ActionProvider) := []

/-- The `execute` wrapper the manager installs: run the effect, record
every resulting event, extend the tick's accumulator. -/
def executeWrapper (templates : Option Templates) (fuel : Nat) (ws : WorldState)
    (events : List Event) (eff : EffectData) (ctx : Context) :
    Except ExecErr (WorldState × List Event) := do
  let (ws1, result_events) ← exec templates fuel ws eff ctx
  let ws2 := result_events.foldl (fun w ev => w.record_event ev ctx) ws1
  pure (ws2, events ++ result_events)

/-- The worker's `current_task_id` as read from the live component (empty
when the entity or component is missing). -/
def workerCurrentTaskId (ws : WorldState) (agent_id : String) : String :=
  match (ws.get_entity_by_id agent_id).bind (fun a => a.get_component "WorkerComponent") with
  | some (.worker cur) => cur
  | _ => ""

def setWorkerTask (ws : WorldState) (agent_id task_id : String) : WorldState :=
  ws.updateEntity agent_id (fun a => a.setComponent "WorkerComponent" (.worker task_id))

/-- `WorkerComponent.per_tick`: progress the current task through the
executor, run its tick effects, and finish it when complete.  The
completion check reads the live task; if a tick effect unregistered it,
the live object's progress still includes the `ProgressTask` delta. -/
def workerPerTick (templates : Option Templates) (fuel : Nat) (ws : WorldState)
    (events : List Event) (entity_id : String) (ticks : Int) :
    Except ExecErr (WorldState × List Event) := do
  match (ws.get_entity_by_id entity_id).bind (fun e => e.get_component "WorkerComponent") with
  | some (.worker cur) =>
    if cur = "" then pure (ws, events)
    else
      match ws.get_task_by_id cur with
      | none => pure (setWorkerTask ws entity_id "", events)
      | some task => do
        let delta := computeProgressDelta ws entity_id task ticks
        let (ws, events) ← executeWrapper templates fuel ws events
          { effect := "ProgressTask", task_id := task.task_id, delta := delta }
          { strs := [("agent_id", entity_id), ("task_id", task.task_id)] }
        let (ws, events) ← task.tick_effects.foldlM (fun acc eff =>
          executeWrapper templates fuel acc.1 acc.2 eff
            { strs := [("agent_id", entity_id), ("task_id", task.task_id),
                       ("target_id", task.target_entity_id)] }) (ws, events)
        let taskNow := (ws.get_task_by_id task.task_id).getD
          { task with progress := task.progress + delta }
        if taskNow.is_complete then do
          let (ws, events) ← executeWrapper templates fuel ws events { effect := "FinishTask" }
            { strs := [("agent_id", entity_id), ("task_id", task.task_id),
                       ("target_id", task.target_entity_id)] }
          pure (setWorkerTask ws entity_id "", events)
        else pure (ws, events)
  | _ => pure (ws, events)

/-- The per-tick action ceiling (`max_actions_in_tick`). -/
def maxActionsInTick : Nat := 50

/-- Outcome of the `for action in actions:` body: fall through to the
next outer iteration, `return` out of the hook, or an uncaught
exception. -/
inductive ActOutcome where
  | fallthrough
  | ret
  | err (e : TickErr)

/-- The `for action in actions:` loop of `AgentControlComponent.per_tick`:
translate each action through the recipe engine, log the attempt, execute
its effects immediately, stop on failure or once a task occupies the
worker, and respect the action ceiling. -/
def processActions (svc : SimServices) (fuel : Nat) (agent_id : String) :
    List Action → WorldState → List Event → Nat →
    WorldState × List Event × Nat × ActOutcome
  | [], ws, events, n => (ws, events, n, .fallthrough)
  | action :: rest, ws, events, n =>
    let result := processCommand svc.recipe_db ws agent_id action
    if result.status ≠ "success" then
      let ws := ws.record_interaction_attempt agent_id action.verb action.target_id
        "failed" result.reason ""
      (ws, events, n, .ret)
    else
      let ctx := result.context.getD {}
      let recipe_id := match ctx.recipe with | some r => r.id | none => ""
      let ws := ws.record_interaction_attempt agent_id action.verb action.target_id
        "success" "" recipe_id
      match result.effects.foldlM (fun acc eff =>
          executeWrapper svc.templates fuel acc.1 acc.2 eff ctx) (ws, events) with
      | .error e => (ws, events, n, .err (.execErr e))
      | .ok (ws, events) =>
        if workerCurrentTaskId ws agent_id ≠ "" then (ws, events, n, .ret)
        else
          let n := n + 1
          if n ≥ maxActionsInTick then (ws, events, n, .ret)
          else processActions svc fuel agent_id rest ws events n

/-- The `while True:` action loop of `AgentControlComponent.per_tick`.
The fuel bounds outer iterations; every non-terminal iteration executes
at least one action, so `maxActionsInTick + 2` iterations always cover
the source's loop. -/
def agentActionsLoop (svc : SimServices) (fuel : Nat) (provider : ActionProvider)
    (ruleset : List InterruptRule) (agent_id : String) :
    Nat → WorldState → List Event → List ProviderCall → Nat →
    List ProviderCall × Except TickErr (WorldState × List Event)
  | 0, _, _, trace, _ => (trace, .error (.execErr .outOfFuel))
  | ofuel + 1, ws, events, trace, actions_executed =>
    if workerCurrentTaskId ws agent_id ≠ "" then (trace, .ok (ws, events))
    else
      let interrupt := checkIfInterruptIsNeeded ruleset ws agent_id
      if !interrupt.interrupt then (trace, .ok (ws, events))
      else
        let reason := interrupt.reason
        let perception0 := perceive ws svc.recipe_db agent_id false true
        let perception := { perception0 with recipe_db := some svc.recipe_db }
        let trace := trace ++ [{ agent_id := agent_id, reason := reason, ws := ws,
                                 perception := perception }]
        match callProvider provider perception reason agent_id with
        | .error e => (trace, .error (.providerErr e))
        | .ok actions =>
          if actions = [] then (trace, .ok (ws, events))
          else
            match processActions svc fuel agent_id actions ws events actions_executed with
            | (ws, events, _, .ret) => (trace, .ok (ws, events))
            | (_, _, _, .err e) => (trace, .error e)
            | (ws, events, actions_executed, .fallthrough) =>
              agentActionsLoop svc fuel provider ruleset agent_id
                ofuel ws events trace actions_executed

/-- `AgentControlComponent.per_tick`: arbitration gate, task-pause
prologue, provider selection, then the bounded action loop.  The
perception system and interaction engine are always installed by the
manager, so their `None` guards never fire in the modelled runs. -/
def agentControlPerTick (svc : SimServices) (fuel : Nat) (enabled : Bool)
    (provider_id : String) (ws : WorldState) (events : List Event) (entity_id : String) :
    List ProviderCall × Except TickErr (WorldState × List Event) :=
  if !enabled then ([], .ok (ws, events))
  else
    match ws.get_entity_by_id entity_id with
    | none => ([], .ok (ws, events))
    | some agent =>
      match agent.get_component "DecisionArbiterComponent" with
      | some (.arbiter ruleset) =>
        let interrupt := checkIfInterruptIsNeeded ruleset ws entity_id
        if !interrupt.interrupt then ([], .ok (ws, events))
        else
          let worker? := agent.get_component "WorkerComponent"
          let current_task_id :=
            match worker? with
            | some (.worker c) => c
            | _ => ""
          let prologue : Except ExecErr (WorldState × List Event) :=
            if worker?.isSome ∧ current_task_id ≠ "" then do
              let (ws, events) ←
                match ws.get_task_by_id current_task_id with
                | some _ =>
                  executeWrapper svc.templates fuel ws events
                    { effect := "UpdateTaskStatus", task_id := current_task_id,
                      status := "Paused" }
                    { strs := [("agent_id", entity_id), ("task_id", current_task_id)] }
                | none => pure (ws, events)
              let ws := setWorkerTask ws entity_id ""
              let ws := ws.record_event
                (.taskInterrupted current_task_id interrupt.reason)
                { strs := [("actor_id", entity_id)] }
              pure (ws, events)
            else pure (ws, events)
          match prologue with
          | .error e => ([], .error (.execErr e))
          | .ok (ws, events) =>
            let pid := pyStrip provider_id
            let provider? :=
              if pid = "" then svc.default_provider
              else (svc.action_providers.find? (fun p => p.1 = pid)).map (·.2)
            match provider? with
            | none => ([], .ok (ws, events))
            | some provider =>
              agentActionsLoop svc fuel provider ruleset entity_id
                (maxActionsInTick + 2) ws events [] 0
      | _ => ([], .ok (ws, events))

/-! ### Game time rendering (`models/gametime.py`; Python `//` and `%` are
floor division and modulo, `Int.fdiv`/`Int.fmod`) -/

def ticksPerMinuteC : Int := 1
def ticksPerHourC : Int := ticksPerMinuteC * 60
def ticksPerDayC : Int := ticksPerHourC * 24

def pad2 (n : Int) : String :=
  if 0 ≤ n ∧ n < 10 then "0" ++ toString n else toString n

def timeToString (total_ticks : Int) : String :=
  let den_year := ticksPerDayC * 7 * 4 * 12
  let den_month := ticksPerDayC * 7 * 4
  let year := 1 + Int.fdiv total_ticks den_year
  let month := 1 + Int.fdiv (Int.fmod total_ticks den_year) den_month
  let ticks_in_day := Int.fmod total_ticks ticksPerDayC
  let hour := Int.fdiv ticks_in_day ticksPerHourC
  let minute := Int.fdiv (Int.fmod ticks_in_day ticksPerHourC) ticksPerMinuteC
  "Year " ++ toString year ++ ", Month " ++ toString month ++ ", Day 1, " ++
    pad2 hour ++ ":" ++ pad2 minute

/-- Per-tick hook dispatch for one component of one entity, reading the
live component from the current state (a hook of an entity destroyed
earlier in the same tick runs on a stale object in the source and is
skipped here; no modelled scenario destroys a hooked entity mid-tick). -/
def stepComponent (svc : SimServices) (fuel : Nat) (ticks : Int) (ws : WorldState)
    (events : List Event) (trace : List ProviderCall) (eid comp_name : String) :
    List ProviderCall × Except TickErr (WorldState × List Event) :=
  match (ws.get_entity_by_id eid).bind (fun e => e.get_component comp_name) with
  | some (.agentControl enabled pid) =>
    let (tr, r) := agentControlPerTick svc fuel enabled pid ws events eid
    (trace ++ tr, r)
  | some (.worker _) =>
    match workerPerTick svc.templates fuel ws events eid ticks with
    | .ok (ws, events) => (trace, .ok (ws, events))
    | .error e => (trace, .error (.execErr e))
  | _ => (trace, .ok (ws, events))

def stepComponents (svc : SimServices) (fuel : Nat) (ticks : Int) (eid : String) :
    List String → WorldState → List Event → List ProviderCall →
    List ProviderCall × Except TickErr (WorldState × List Event)
  | [], ws, events, trace => (trace, .ok (ws, events))
  | comp_name :: rest, ws, events, trace =>
    match stepComponent svc fuel ticks ws events trace eid comp_name with
    | (trace, .ok (ws, events)) => stepComponents svc fuel ticks eid rest ws events trace
    | (trace, .error e) => (trace, .error e)

def stepEntities (svc : SimServices) (fuel : Nat) (ticks : Int) :
    List String → WorldState → List Event → List ProviderCall →
    List ProviderCall × Except TickErr (WorldState × List Event)
  | [], ws, events, trace => (trace, .ok (ws, events))
  | eid :: rest, ws, events, trace =>
    let comp_names :=
      match ws.get_entity_by_id eid with
      | some e => e.components.map (·.1)
      | none => []
    match stepComponents svc fuel ticks eid comp_names ws events trace with
    | (trace, .ok (ws, events)) => stepEntities svc fuel ticks rest ws events trace
    | (trace, .error e) => (trace, .error e)

/-- `WorldManager.step`: advance time, log the tick event, then invoke
every component's per-tick hook over a start-of-tick snapshot of the
entity order.  Returns the provider-call trace alongside the result so
the scheduling claims can speak about which providers ran. -/
def step (svc : SimServices) (fuel : Nat) (ticks_per_step : Int) (ws : WorldState) :
    List ProviderCall × Except TickErr (WorldState × List Event) :=
  let ws := { ws with total_ticks := ws.total_ticks + ticks_per_step }
  let tickEv := Event.tickAdvanced ws.total_ticks (timeToString ws.total_ticks)
  let events := [tickEv]
  let ws := ws.record_event tickEv { strs := [("actor_id", "")] }
  let snapshot := ws.entities.map (·.entity_id)
  stepEntities svc fuel ticks_per_step snapshot ws events []

/-! ### Concrete fixtures used by counterexamples and witnesses -/

def tmplChest : Template :=
  { name := some "Chest",
    components := [("TagComponent", .tagD ["container"]),
                   ("ContainerComponent", .containerD [("main", {})])] }

def tmplApple : Template :=
  { name := some "Apple",
    components := [("TagComponent", .tagD ["food"])] }

/-- A container template whose single slot accepts nothing (count
capacity 0). -/
def tmplSmall : Template :=
  { name := some "Small",
    components := [("ContainerComponent", .containerD [("main", { capacity_count := 0 })])] }

def tdb : Templates := [("chest", tmplChest), ("apple", tmplApple), ("small", tmplSmall)]

def chestE : Entity := createEntityFromTemplateData "chest" "chest_1" tmplChest

def roomL : Location :=
  { location_id := "room", location_name := "Room", entities_in_location := ["chest_1"] }

def ws0 : WorldState := { entities := [chestE], locations := [roomL] }

def createEff : EffectData :=
  { effect := "CreateEntity", template := "apple", instance_id := "apple_1",
    destination := some { type := "container", target := some "dest" } }

def ctx0 : Context := { strs := [("dest_id", "chest_1")] }

/-- A `CreateEntity` whose explicit instance id collides with an existing
entity. -/
def createDup : EffectData :=
  { effect := "CreateEntity", template := "apple", instance_id := "chest_1",
    destination := some { type := "location" } }

/-- Bundle: a room holding a chest, and an apple declared with
`parent_container` pointing at the chest. -/
def bundleAppleSnap : BundleEntity :=
  { template_id := "apple", instance_id := "apple_1", parent_container := some "chest_1" }

def bundleRoom : BundleLocation :=
  { location_id := "room", location_name := "Room",
    entities := [{ template_id := "chest", instance_id := "chest_1" }, bundleAppleSnap] }

def bundleA : BundleWorld := { locations := [bundleRoom] }

def wsBuilt : WorldState :=
  match buildWorldState bundleA tdb with
  | .ok ws => ws
  | .error _ => {}

/-- World for the transfer fixtures: a chest holding the apple, the
apple, and an empty zero-capacity chest, all indexed in the room. -/
def smallE : Entity := createEntityFromTemplateData "small" "chest_2" tmplSmall

def ccChest1 : ContainerComponent := { slots := [("main", { items := ["apple_1"] })] }

def ccChest1Removed : ContainerComponent := { slots := [("main", { items := [] })] }

def chest1F : Entity :=
  { entity_id := "chest_1", template_id := "chest", entity_name := "Chest",
    components := [("TagComponent", .tag ["container"]),
                   ("ContainerComponent", .container ccChest1)] }

def appleF : Entity := createEntityFromTemplateData "apple" "apple_1" tmplApple

def roomT : Location :=
  { location_id := "room", location_name := "Room",
    entities_in_location := ["chest_1", "apple_1", "chest_2"] }

def wsT : WorldState := { entities := [chest1F, appleF, smallE], locations := [roomT] }

def transferEff : EffectData := { effect := "TransferEntity" }

def ctxT : Context :=
  { strs := [("entity_id", "apple_1"), ("source_id", "chest_1"),
             ("destination_id", "chest_2")] }

/-- Scenario fixtures for the decision/scheduling claims: an agent with
nutrition 40 (threshold 50), an active task, and an opaque chest holding
a gem in the same room. -/
def bobCreature : CreatureComponent :=
  { current_nutrition := some 40, current_hp := some 100, current_energy := some 100 }

def gemE : Entity :=
  { entity_id := "gem_1", template_id := "gem", entity_name := "Gem",
    components := [("TagComponent", .tag ["shiny"])] }

def chestOp : Entity :=
  { entity_id := "chest_1", template_id := "chest", entity_name := "Chest",
    components := [("ContainerComponent", .container
      { slots := [("main", { config := { transparent := false }, items := ["gem_1"] })] })] }

def agentE : Entity :=
  { entity_id := "bob", template_id := "villager", entity_name := "Bob",
    components :=
      [("TagComponent", .tag ["agent"]),
       ("CreatureComponent", .creature bobCreature),
       ("AgentControlComponent", .agentControl true ""),
       ("DecisionArbiterComponent", .arbiter [.lowNutrition 10 50, .idle 999]),
       ("WorkerComponent", .worker "t1"),
       ("TaskHostComponent", .taskHost ["t1"])] }

def taskT1 : Task :=
  { task_id := "t1", task_type := "Dig", target_entity_id := "bob",
    progress := 10, required_progress := 60, task_status := "InProgress" }

def roomS : Location :=
  { location_id := "room", location_name := "Room",
    entities_in_location := ["bob", "chest_1", "gem_1"] }

def wsS : WorldState :=
  { entities := [agentE, chestOp, gemE], locations := [roomS], tasks := [taskT1] }

def emptyProvider : ActionProvider :=
  { decide3 := fun _ _ _ => .ok [], decide2 := fun _ _ => .ok [] }

def raisingProvider : ActionProvider :=
  { decide3 := fun _ _ _ => .error .otherExc, decide2 := fun _ _ => .ok [] }

def svcS (p : ActionProvider) : SimServices :=
  { templates := some tdb, recipe_db := [], default_provider := some p }

def agent2E : Entity :=
  { agentE with
    entity_id := "eve",
    entity_name := "Eve",
    components := agentE.components.map (fun p =>
      if p.1 = "WorkerComponent" then (p.1, .worker "") else p) }

def roomS2 : Location :=
  { location_id := "room", location_name := "Room",
    entities_in_location := ["bob", "eve", "chest_1", "gem_1"] }

def wsS2 : WorldState :=
  { wsS with entities := [agentE, agent2E, chestOp, gemE], locations := [roomS2] }

/-- The effect tags whose handlers can raise or recurse; every other tag
is handled by a total, purely event-returning branch. -/
def raisingTags : List String :=
  ["CreateEntity", "DestroyEntity", "TransferEntity", "ConsumeInputs", "CreateTask",
   "FinishTask"]

/-- Every tag the dispatcher recognizes, plus the missing-tag case. -/
def allEffectTags : List String :=
  ["", "ModifyProperty", "CreateEntity", "DestroyEntity", "TransferEntity", "AddCondition",
   "RemoveCondition", "ConsumeInputs", "CreateTask", "ProgressTask", "UpdateTaskStatus",
   "FinishTask"]

/-- Fixtures for the unplaced-creation scenario: a `CreateEntity` whose
declared container destination and whose acting agent are both absent
from the execution context. -/
def createOrphan : EffectData :=
  { effect := "CreateEntity", template := "apple", instance_id := "apple_9",
    destination := some { type := "container", target := some "dest" } }

def ctxEmpty : Context := {}

def appleOrphan : Entity := createEntityFromTemplateData "apple" "apple_9" tmplApple

def wsRegW : WorldState := { ws0 with entities := ws0.entities ++ [appleOrphan] }

/-- The world after a successful placed creation of the apple into the
chest, used to witness index-discipline preservation. -/
def wsC1 : WorldState :=
  match exec (some tdb) 10 ws0 createEff ctx0 with
  | .ok (w, _) => w
  | .error _ => ws0

/-- Cross-location transfer fixtures: a box holding the apple, indexed in
roomX together with the apple (the standard double indexing), and an
empty roomY. -/
def boxCC : ContainerComponent := { slots := [("main", { items := ["apple_1"] })] }

def boxE : Entity :=
  { entity_id := "box_1", template_id := "box", entity_name := "Box",
    components := [("ContainerComponent", .container boxCC)] }

def appleM : Entity :=
  { entity_id := "apple_1", template_id := "apple", entity_name := "Apple",
    components := [("TagComponent", .tag ["food"])] }

def roomX : Location :=
  { location_id := "roomX", location_name := "Room X",
    entities_in_location := ["box_1", "apple_1"] }

def roomY : Location :=
  { location_id := "roomY", location_name := "Room Y", entities_in_location := [] }

def wsM : WorldState := { entities := [boxE, appleM], locations := [roomX, roomY] }

def ctxM : Context :=
  { strs := [("entity_id", "box_1"), ("source_id", "roomX"), ("destination_id", "roomY")] }

def wsM1 : WorldState :=
  wsM.updateLocation "roomX" (fun l0 => l0.remove_entity_id "box_1")

def roomY2 : Location := { roomY with entities_in_location := ["box_1"] }

def wsM2 : WorldState := wsM1.updateLocation "roomY" (fun _ => roomY2)

def wsM3 : WorldState :=
  wsM2.move_ids_between_locations (["box_1"] ++ ["apple_1"]) "roomX" "roomY"

/-- Recipe fixtures: a non-matching recipe first (wrong tag), then the
matching "eat" recipe with a nonzero required progress. -/
def recWrong : Recipe := { verb := "eat", target_tags := ["metal"] }

def recEat : Recipe :=
  { verb := "eat", target_tags := ["food"], process := some { required_progress := some 5 } }

def rdbW : RecipeDb := [("r1", recWrong), ("r2", recEat)]

def cmdEat : Action := { verb := "eat", target_id := "apple_1" }

/-- Trace of the low-nutrition pause scenario: the agent control hook for
the nutrition-40 agent holding an in-progress task. -/
def traceC8 : List ProviderCall :=
  (agentControlPerTick (svcS emptyProvider) 20 true "" wsS [] "bob").1

def c0C8 : ProviderCall :=
  match traceC8 with
  | c :: _ => c
  | [] => { agent_id := "", reason := "", ws := {}, perception := {} }

/-- A provider whose 3-argument decide raises TypeError, triggering the
2-argument retry. -/
def retryProvider : ActionProvider :=
  { decide3 := fun _ _ _ => .error .typeError, decide2 := fun _ _ => .ok [] }

/-- The trace of the failing per-entity hook run for bob under the
raising provider. -/
def trB : List ProviderCall :=
  (stepComponents (svcS raisingProvider) 20 1 "bob"
    (match wsS2.get_entity_by_id "bob" with
     | some en => en.components.map (·.1)
     | none => []) wsS2 [] []).1

/-- The destroyed-entity ids carried by a destroy run's event list, in
emission order. -/
def destroyedIds (evs : List Event) : List String :=
  evs.filterMap (fun e => match e with
    | Event.entityDestroyed i => some i
    | _ => none)

/-- Every event a DestroyEntity run can emit: a destruction record or the
missing-target error event of an unresolvable (already destroyed) id. -/
def destroyShape (evs : List Event) : Prop :=
  ∀ e ∈ evs, (∃ i, e = Event.entityDestroyed i) ∨
    e = Event.executorError "DestroyEntity: target missing"

/-- No reference to `i` anywhere: absent from every location membership
list, absent from every container slot, and gone from the entity table. -/
def notIndexed (ws : WorldState) (i : String) : Prop :=
  (∀ l ∈ ws.locations, i ∉ l.entities_in_location) ∧
  (∀ e ∈ ws.entities, ∀ cc, e.containerComp = some cc →
    ∀ p ∈ cc.slots, i ∉ p.2.items) ∧
  ws.get_entity_by_id i = none

/-- DestroyEntity effect aimed at the box via the `t` target key. -/
def destroyEffD5 : EffectData := { effect := "DestroyEntity", target := some "t" }
def ctxD5 : Context := { strs := [("t_id", "box_1")] }

def wsD5 : WorldState :=
  match exec none 10 wsM destroyEffD5 ctxD5 with
  | .ok (w, _) => w
  | .error _ => wsM

def evsD5 : List Event :=
  match exec none 10 wsM destroyEffD5 ctxD5 with
  | .ok (_, e) => e
  | .error _ => []

/-! ## Theorems

### C3 — executor exception discipline -/

theorem execCreateEntity_error_classified (templates : Option Templates) (ws : WorldState)
    (data : EffectData) (ctx : Context) (e : ExecErr)
    (h : execCreateEntity templates ws data ctx = .error e) : ∃ i, e = .dupEntityId i := by
  unfold execCreateEntity at h
  repeat' split at h
  all_goals first
    | exact Except.noConfusion h
    | exact ⟨_, (Except.error.inj h).symm⟩

theorem execCreateTask_error_classified (ws : WorldState) (data : EffectData) (ctx : Context)
    (e : ExecErr) (h : execCreateTask ws data ctx = .error e) :
    ∃ i, e = .dupTaskOnHost i ∨ e = .dupTaskGlobal i := by
  unfold execCreateTask at h
  dsimp only at h
  repeat' split at h
  all_goals first
    | exact Except.noConfusion h
    | exact ⟨_, Or.inl (Except.error.inj h).symm⟩
    | exact ⟨_, Or.inr (Except.error.inj h).symm⟩

theorem transferCascade_error_classified (ws2 : WorldState) (entity_id : String)
    (cross : Bool) (sl dl : Option Location) (e : ExecErr)
    (h : transferCascade ws2 entity_id cross sl dl = .error e) : e = .outOfFuel := by
  unfold transferCascade at h
  repeat' split at h
  all_goals first
    | exact Except.noConfusion h
    | exact (Except.error.inj h).symm

theorem execTransferEntity_error_classified (ws : WorldState) (data : EffectData)
    (ctx : Context) (e : ExecErr) (h : execTransferEntity ws data ctx = .error e) :
    e = .outOfFuel := by
  unfold execTransferEntity at h
  dsimp only at h
  repeat' split at h
  all_goals try exact Except.noConfusion h
  rename_i err heq
  exact (Except.error.inj h) ▸ transferCascade_error_classified _ _ _ _ _ _ heq

/-- A destroy cascade (`DestroyEntity` and the `ConsumeInputs` loop over
it) can only escape with fuel exhaustion, the model of the source's
unbounded recursion over cyclic containment. -/
theorem exec_destroy_consume_transfer_error_classified (templates : Option Templates) :
    ∀ (f : Nat) (ws : WorldState) (d : EffectData) (c : Context) (e : ExecErr),
      (d.effect = "DestroyEntity" ∨ d.effect = "ConsumeInputs" ∨
        d.effect = "TransferEntity") →
      exec templates f ws d c = .error e → e = .outOfFuel := by
  intro f
  induction f with
  | zero =>
    intro ws d c e _ h
    exact (Except.error.inj h).symm
  | succ n ih =>
    have hMany : ∀ (pairs : List (EffectData × Context)) (ws : WorldState) (e : ExecErr),
        (∀ p ∈ pairs, (p : EffectData × Context).1.effect = "DestroyEntity") →
        runMany (exec templates n) ws pairs = .error e → e = .outOfFuel := by
      intro pairs
      induction pairs with
      | nil =>
        intro ws e _ h
        exact Except.noConfusion h
      | cons p rest ihp =>
        intro ws e hall h
        obtain ⟨pe, pc⟩ := p
        rw [runMany] at h
        split at h
        · exact (Except.error.inj h) ▸
            ih ws pe pc _ (Or.inl (hall (pe, pc) (List.mem_cons_self _ _))) (by assumption)
        · split at h
          · rename_i err1 heq1
            exact (Except.error.inj h) ▸
              ihp _ _ (fun q hq => hall q (List.mem_cons_of_mem _ hq)) heq1
          · exact Except.noConfusion h
    intro ws d c e hd h
    rcases hd with hd | hd | hd
    · rw [show (n + 1) = Nat.succ n from rfl, exec, hd] at h
      simp only [String.reduceEq, if_false, if_true, reduceIte] at h
      split at h
      · exact Except.noConfusion h
      · split at h
        · rename_i ent hres err heq
          refine (Except.error.inj h) ▸ hMany _ _ _ ?_ heq
          intro p hp
          simp only [List.mem_map] at hp
          obtain ⟨cid, _, rfl⟩ := hp
          rfl
        · exact Except.noConfusion h
    · rw [show (n + 1) = Nat.succ n from rfl, exec, hd] at h
      simp only [String.reduceEq, if_false, if_true, reduceIte] at h
      refine hMany _ _ _ ?_ h
      intro p hp
      simp only [List.mem_map] at hp
      obtain ⟨cid, _, rfl⟩ := hp
      rfl
    · rw [show (n + 1) = Nat.succ n from rfl, exec, hd] at h
      simp only [String.reduceEq, if_false, if_true, reduceIte] at h
      exact execTransferEntity_error_classified _ _ _ _ h

/-- Handlers outside `raisingTags` are total: they always return an
event list. -/
theorem exec_ok_of_safe_tag (templates : Option Templates) (f : Nat) (ws : WorldState)
    (d : EffectData) (c : Context) (h : d.effect ∉ raisingTags) :
    ∃ r, exec templates (f + 1) ws d c = .ok r := by
  simp only [raisingTags, List.mem_cons, List.not_mem_nil, or_false, not_or] at h
  obtain ⟨h1, h2, h3, h4, h5, h6⟩ := h
  rw [show (f + 1) = Nat.succ f from rfl, exec]
  by_cases c0 : d.effect = ""
  · rw [if_pos c0]; exact ⟨_, rfl⟩
  rw [if_neg c0]
  by_cases cM : d.effect = "ModifyProperty"
  · rw [if_pos cM]; exact ⟨_, rfl⟩
  rw [if_neg cM, if_neg h1, if_neg h2, if_neg h3]
  by_cases cA : d.effect = "AddCondition"
  · rw [if_pos cA]; exact ⟨_, rfl⟩
  rw [if_neg cA]
  by_cases cR : d.effect = "RemoveCondition"
  · rw [if_pos cR]; exact ⟨_, rfl⟩
  rw [if_neg cR, if_neg h4, if_neg h5]
  by_cases cP : d.effect = "ProgressTask"
  · rw [if_pos cP]; exact ⟨_, rfl⟩
  rw [if_neg cP]
  by_cases cU : d.effect = "UpdateTaskStatus"
  · rw [if_pos cU]; exact ⟨_, rfl⟩
  rw [if_neg cU, if_neg h6]
  exact ⟨_, rfl⟩

theorem exec_missing_tag (templates : Option Templates) (f : Nat) (ws : WorldState)
    (d : EffectData) (c : Context) (h : d.effect = "") :
    exec templates (f + 1) ws d c = .ok (ws, [.executorError "missing effect type"]) := by
  rw [show (f + 1) = Nat.succ f from rfl, exec, h]
  simp

theorem exec_unknown_tag (templates : Option Templates) (f : Nat) (ws : WorldState)
    (d : EffectData) (c : Context) (h : d.effect ∉ allEffectTags) :
    exec templates (f + 1) ws d c =
      .ok (ws, [.executorError ("unknown effect type: " ++ d.effect)]) := by
  simp only [allEffectTags, List.mem_cons, List.not_mem_nil, or_false, not_or] at h
  obtain ⟨h0, h1, h2, h3, h4, h5, h6, h7, h8, h9, h10, h11⟩ := h
  rw [show (f + 1) = Nat.succ f from rfl, exec]
  rw [if_neg h0, if_neg h1, if_neg h2, if_neg h3, if_neg h4, if_neg h5, if_neg h6,
    if_neg h7, if_neg h8, if_neg h9, if_neg h10, if_neg h11]

/-- C3 (corrected): the claim says `execute` never raises for
business-logic failures; but `_execute_create_entity` registers the new
entity through `WorldState.register_entity`, which raises `ValueError`
when the effect's `instance_id` collides with an existing entity id — a
plain business-data failure.  Here a `CreateEntity` effect dict with the
explicit instance id `"chest_1"` escapes `execute` as an exception
(modelled as `Except.error`) instead of returning an event list. -/
theorem C3_counterexample_create_entity_duplicate_id_raises :
    exec (some tdb) 10 ws0 createDup ctx0 = .error (.dupEntityId "chest_1") := by rfl

/-- C3 (amended): every effect dictionary outside the raising tags gets
an event list, never an exception; a missing or unrecognized tag yields
exactly one `ExecutorError` event; the destroy cascade, `ConsumeInputs`
and `TransferEntity` can only escape by unbounded recursion over cyclic
containment (fuel exhaustion); `CreateEntity` can only raise the
duplicate-entity-id registration error; and `CreateTask` can only raise
the duplicate-task-id registration errors. -/
theorem C3_amended_executor_exception_discipline :
    (∀ (templates : Option Templates) (f : Nat) (ws : WorldState) (d : EffectData)
       (c : Context), d.effect ∉ raisingTags → ∃ r, exec templates (f + 1) ws d c = .ok r) ∧
    (∀ (templates : Option Templates) (f : Nat) (ws : WorldState) (d : EffectData)
       (c : Context), d.effect = "" →
       exec templates (f + 1) ws d c = .ok (ws, [.executorError "missing effect type"])) ∧
    (∀ (templates : Option Templates) (f : Nat) (ws : WorldState) (d : EffectData)
       (c : Context), d.effect ∉ allEffectTags →
       exec templates (f + 1) ws d c =
         .ok (ws, [.executorError ("unknown effect type: " ++ d.effect)])) ∧
    (∀ (templates : Option Templates) (f : Nat) (ws : WorldState) (d : EffectData)
       (c : Context) (e : ExecErr),
       (d.effect = "DestroyEntity" ∨ d.effect = "ConsumeInputs" ∨
         d.effect = "TransferEntity") →
       exec templates f ws d c = .error e → e = .outOfFuel) ∧
    (∀ (templates : Option Templates) (ws : WorldState) (d : EffectData) (c : Context)
       (e : ExecErr), execCreateEntity templates ws d c = .error e →
       ∃ i, e = .dupEntityId i) ∧
    (∀ (ws : WorldState) (d : EffectData) (c : Context) (e : ExecErr),
       execCreateTask ws d c = .error e → ∃ i, e = .dupTaskOnHost i ∨ e = .dupTaskGlobal i) :=
  ⟨exec_ok_of_safe_tag, exec_missing_tag, exec_unknown_tag,
   fun templates f ws d c e => exec_destroy_consume_transfer_error_classified templates f ws d c e,
   execCreateEntity_error_classified, execCreateTask_error_classified⟩

/-- Witness for C3's amended theorem at concrete inputs: an unrecognized
tag returns a single `ExecutorError` event, and the duplicate-id
`CreateEntity` exception is classified as such. -/
theorem C3_amended_witness :
    exec (some tdb) 10 ws0 { effect := "Bogus" } ctx0 =
      .ok (ws0, [.executorError ("unknown effect type: " ++ "Bogus")]) ∧
    ∃ i, (ExecErr.dupEntityId "chest_1") = .dupEntityId i :=
  ⟨C3_amended_executor_exception_discipline.2.2.1 (some tdb) 9 ws0 { effect := "Bogus" }
     ctx0 (by decide),
   C3_amended_executor_exception_discipline.2.2.2.2.1 (some tdb) ws0 createDup ctx0
     (.dupEntityId "chest_1") (by rfl)⟩

/-! ### Association-list and index helper lemmas -/

theorem find?_update_by_id (l : List Entity) (i : String) (f : Entity → Entity)
    (hid : ∀ e, (f e).entity_id = e.entity_id) :
    (l.map (fun e => if e.entity_id = i then f e else e)).find?
      (fun e => decide (e.entity_id = i)) =
    (l.find? (fun e => decide (e.entity_id = i))).map f := by
  induction l with
  | nil => rfl
  | cons a t ih =>
    simp only [List.map_cons]
    by_cases ha : a.entity_id = i
    · rw [List.find?_cons_of_pos _ (by rw [if_pos ha]; simp [hid, ha]),
        List.find?_cons_of_pos _ (by simp [ha])]
      rw [if_pos ha]
      rfl
    · rw [List.find?_cons_of_neg _ (by rw [if_neg ha]; simp [ha]),
        List.find?_cons_of_neg _ (by simp [ha])]
      exact ih

theorem get_entity_by_id_updateEntity_self (ws : WorldState) (i : String)
    (f : Entity → Entity) (hid : ∀ e, (f e).entity_id = e.entity_id) :
    (ws.updateEntity i f).get_entity_by_id i = (ws.get_entity_by_id i).map f := by
  unfold WorldState.updateEntity WorldState.get_entity_by_id
  exact find?_update_by_id ws.entities i f hid

theorem find?_set_by_key (l : List (String × Component)) (name : String) (c : Component) :
    (l.map (fun p => if p.1 = name then (p.1, c) else p)).find?
      (fun p => decide (p.1 = name)) =
    (l.find? (fun p => decide (p.1 = name))).map (fun p => (p.1, c)) := by
  induction l with
  | nil => rfl
  | cons a t ih =>
    simp only [List.map_cons]
    by_cases ha : a.1 = name
    · rw [List.find?_cons_of_pos _ (by rw [if_pos ha]; simp [ha]),
        List.find?_cons_of_pos _ (by simp [ha])]
      rw [if_pos ha]
      rfl
    · rw [List.find?_cons_of_neg _ (by rw [if_neg ha]; simp [ha]),
        List.find?_cons_of_neg _ (by simp [ha])]
      exact ih

theorem containerComp_setComponent (e : Entity) (cc cc2 : ContainerComponent)
    (h : e.containerComp = some cc) :
    (e.setComponent "ContainerComponent" (.container cc2)).containerComp = some cc2 := by
  unfold Entity.containerComp Entity.get_component at h ⊢
  unfold Entity.setComponent
  simp only [find?_set_by_key]
  cases hf : e.components.find? (fun p => decide (p.1 = "ContainerComponent")) with
  | none => rw [hf] at h; simp at h
  | some p =>
    rw [hf] at h
    cases p with
    | mk k v => cases v <;> simp_all

theorem transferAddToDest_fail_state (ws1 : WorldState) (D : RefNode) (e : Entity)
    (dl : Option Location) (h : (transferAddToDest ws1 D e dl).2 = false) :
    (transferAddToDest ws1 D e dl).1 = ws1 := by
  unfold transferAddToDest at h ⊢
  repeat' split
  all_goals simp_all

theorem removeFirstSlotItem_not_mem (x : String) :
    ∀ (slots : List (String × ContainerSlot)),
      ((slots.map (fun p => p.2.items)).flatten).Nodup →
      ∀ p ∈ removeFirstSlotItem x slots, x ∉ p.2.items := by
  intro slots
  induction slots with
  | nil =>
    intro _ p hp
    simp [removeFirstSlotItem] at hp
  | cons a rest ih =>
    intro hnd p hp
    obtain ⟨sid, slot⟩ := a
    simp only [List.map_cons, List.flatten_cons] at hnd
    simp only [removeFirstSlotItem] at hp
    by_cases hm : x ∈ slot.items
    · rw [if_pos hm] at hp
      rcases List.mem_cons.mp hp with rfl | hp2
      · intro hx
        exact absurd (((List.Nodup.of_append_left hnd).mem_erase_iff).mp hx).1 (by simp)
      · intro hx
        exact (List.disjoint_of_nodup_append hnd) hm
          (List.mem_flatten.mpr ⟨p.2.items, List.mem_map.mpr ⟨p, hp2, rfl⟩, hx⟩)
    · rw [if_neg hm] at hp
      rcases List.mem_cons.mp hp with rfl | hp2
      · exact hm
      · exact ih (List.Nodup.of_append_right hnd) p hp2

theorem remove_entity_by_id_removes (cc : ContainerComponent) (x : String)
    (cc2 : ContainerComponent)
    (hnd : ((cc.slots.map (fun p => p.2.items)).flatten).Nodup)
    (h : cc.remove_entity_by_id x = some cc2) : cc2.has_item_id x = false := by
  unfold ContainerComponent.remove_entity_by_id at h
  split at h
  · cases h
    unfold ContainerComponent.has_item_id
    simp only [List.any_eq_false]
    intro p hp
    simpa using removeFirstSlotItem_not_mem x cc.slots hnd p hp
  · exact Option.noConfusion h

/-- The resolved container node is itself found in the entity table under
its own id. -/
theorem resolve_ent_found (ws : WorldState) (ctx : Context) (k : String) (S : Entity)
    (h : resolveContainerOrLocationFromCtx ws ctx k = some (.ent S)) :
    ws.get_entity_by_id S.entity_id = some S := by
  unfold resolveContainerOrLocationFromCtx at h
  dsimp only at h
  cases hg : ws.get_entity_by_id (ctx.getStr (idKeyOf k)) with
  | none =>
    rw [hg] at h
    dsimp only at h
    cases hl : ws.get_location_by_id (ctx.getStr (idKeyOf k)) with
    | none => rw [hl] at h; exact Option.noConfusion h
    | some l => rw [hl] at h; simp at h
  | some e' =>
    rw [hg] at h
    dsimp only at h
    by_cases hc : e'.containerComp.isSome
    · rw [if_pos hc] at h
      have : e' = S := by
        have := Option.some.inj h
        exact RefNode.ent.inj this
      subst this
      have hid : e'.entity_id = ctx.getStr (idKeyOf k) := by
        have := List.find?_some hg
        simpa using this
      rw [hid]
      exact hg
    · rw [if_neg hc] at h
      cases hl : ws.get_location_by_id (ctx.getStr (idKeyOf k)) with
      | none => rw [hl] at h; exact Option.noConfusion h
      | some l => rw [hl] at h; simp at h

/-! ### C9 — TransferEntity is not atomic on destination failure -/

/-- C9: when the source resolves to a container holding the entity and
the destination add fails, `execute` returns a single `ExecutorError`
event while the world keeps the source-side removal: the final state is
exactly the post-removal state `ws1`, whose source container carries
`cc2 = remove_entity_by_id`'s result, and (when the container's slots
hold no duplicate ids) the entity is no longer anywhere in the source
container.  No rollback happens. -/
theorem C9_transfer_not_atomic (templates : Option Templates) (f : Nat)
    (ws ws1 : WorldState) (d : EffectData) (ctx : Context) (e S : Entity) (D : RefNode)
    (cc cc2 : ContainerComponent) (dest_loc : Option Location)
    (hTag : d.effect = "TransferEntity")
    (hE : resolveEntityFromCtx ws ctx "entity_id" = some e)
    (hS : resolveContainerOrLocationFromCtx ws ctx "source_id" = some (.ent S))
    (hD : resolveContainerOrLocationFromCtx ws ctx "destination_id" = some D)
    (hcc : S.containerComp = some cc)
    (hrem : cc.remove_entity_by_id e.entity_id = some cc2)
    (hws1 : ws1 = ws.updateEntity S.entity_id
      (fun en => en.setComponent "ContainerComponent" (.container cc2)))
    (hdl : dest_loc = refNodeLoc ws D)
    (hAdd : (transferAddToDest ws1 D e dest_loc).2 = false)
    (hnd : ((cc.slots.map (fun p => p.2.items)).flatten).Nodup) :
    exec templates (f + 1) ws d ctx =
      .ok (ws1, [.executorError "TransferEntity: failed to add to destination"]) ∧
    (ws1.get_entity_by_id S.entity_id).bind Entity.containerComp = some cc2 ∧
    cc2.has_item_id e.entity_id = false := by
  refine ⟨?_, ?_, remove_entity_by_id_removes cc e.entity_id cc2 hnd hrem⟩
  · rw [show (f + 1) = Nat.succ f from rfl, exec, hTag]
    simp only [String.reduceEq, reduceIte]
    unfold execTransferEntity
    rw [hE, hS, hD]
    dsimp only
    rw [hcc]
    dsimp only
    rw [hrem]
    dsimp only
    rw [← hdl, ← hws1]
    rw [show (transferAddToDest ws1 D e dest_loc) =
      (ws1, false) from Prod.ext (transferAddToDest_fail_state ws1 D e dest_loc hAdd) hAdd]
    simp
  · rw [hws1, get_entity_by_id_updateEntity_self ws S.entity_id
      (fun en => en.setComponent "ContainerComponent" (.container cc2)) (fun _ => rfl),
      resolve_ent_found ws ctx "source_id" S hS]
    simpa using containerComp_setComponent S cc cc2 hcc

/-- Witness for the C9 theorem: transferring the apple from the chest
into the zero-capacity chest removes it from the source yet reports only
an executor-error event, leaving the apple in neither container. -/
theorem C9_witness :
    exec (some tdb) 10 wsT transferEff ctxT =
      .ok (wsT.updateEntity chest1F.entity_id
            (fun en => en.setComponent "ContainerComponent" (.container ccChest1Removed)),
          [.executorError "TransferEntity: failed to add to destination"]) ∧
    ((wsT.updateEntity chest1F.entity_id
        (fun en => en.setComponent "ContainerComponent"
          (.container ccChest1Removed))).get_entity_by_id chest1F.entity_id).bind
        Entity.containerComp = some ccChest1Removed ∧
    ccChest1Removed.has_item_id appleF.entity_id = false :=
  C9_transfer_not_atomic (some tdb) 9 wsT
    (wsT.updateEntity chest1F.entity_id
      (fun en => en.setComponent "ContainerComponent" (.container ccChest1Removed)))
    transferEff ctxT appleF chest1F (.ent smallE) ccChest1 ccChest1Removed
    (refNodeLoc wsT (.ent smallE))
    rfl rfl rfl rfl rfl rfl rfl rfl (by decide) (by decide)

/-! ### C10 — unplaced creation is not an error -/

theorem find?_append_left_none {α} (p : α → Bool) (l1 l2 : List α)
    (h : l1.find? p = none) : (l1 ++ l2).find? p = l2.find? p := by
  induction l1 with
  | nil => rfl
  | cons a t ih =>
    by_cases hp : p a
    · rw [List.find?_cons_of_pos _ hp] at h
      exact absurd h (by simp)
    · rw [List.find?_cons_of_neg _ hp] at h
      rw [List.cons_append, List.find?_cons_of_neg _ hp]
      exact ih h

theorem createEntityFromTemplateData_entity_id (t i : String) (tm : Template) :
    (createEntityFromTemplateData t i tm).entity_id = i := by
  unfold createEntityFromTemplateData
  dsimp only
  split <;> rfl

theorem createEntityFromTemplateData_template_id (t i : String) (tm : Template) :
    (createEntityFromTemplateData t i tm).template_id = t := by
  unfold createEntityFromTemplateData
  dsimp only
  split <;> rfl

/-- Containers built from template data always start with empty slot item
lists (`items: []` in `_build_component`). -/
theorem buildComponent_container_no_item (d : CompData) (cc : ContainerComponent)
    (iid : String) (h : buildComponent "ContainerComponent" d = .container cc) :
    cc.has_item_id iid = false := by
  unfold buildComponent at h
  rw [if_neg (by decide), if_neg (by decide), if_neg (by decide), if_neg (by decide),
    if_neg (by decide), if_neg (by decide), if_pos rfl] at h
  cases d <;> dsimp only at h <;> injection h with h2 <;> rw [← h2] <;>
    simp [ContainerComponent.has_item_id]
  intro a b x x1 hmx hxa hb
  rw [← hb]
  simp

theorem containerComp_eq_some (e : Entity) (cc : ContainerComponent)
    (h : e.containerComp = some cc) :
    e.get_component "ContainerComponent" = some (.container cc) := by
  unfold Entity.containerComp at h
  cases hg : e.get_component "ContainerComponent" with
  | none => rw [hg] at h; exact absurd h (by simp)
  | some c =>
    rw [hg] at h
    cases c <;> simp_all

/-- Every component stored on a freshly templated entity is either built by
`buildComponent` under its own name or the injected default worker. -/
theorem createEntityFromTemplateData_components_mem (t i : String) (tm : Template)
    (pr : String × Component) (h : pr ∈ (createEntityFromTemplateData t i tm).components) :
    (∃ d, pr = (pr.1, buildComponent pr.1 d)) ∨ pr = ("WorkerComponent", .worker "") := by
  unfold createEntityFromTemplateData at h
  dsimp only at h
  rw [apply_ite Entity.components] at h
  have hbase : ∀ q ∈ tm.components.map
      (fun p => ((p : String × CompData).1, buildComponent p.1 p.2)),
      ∃ d, q = (q.1, buildComponent q.1 d) := by
    intro q hq
    rcases List.mem_map.mp hq with ⟨p, _, hpq⟩
    exact ⟨p.2, by rw [← hpq]⟩
  split at h
  · dsimp only at h
    rcases List.mem_append.mp h with h1 | h2
    · exact Or.inl (hbase pr h1)
    · exact Or.inr (by simpa using h2)
  · dsimp only at h
    exact Or.inl (hbase pr h)

/-- A freshly templated entity's container (when it has one) holds no item
at all. -/
theorem createEntityFromTemplateData_container_no_item (t i : String) (tm : Template)
    (cc : ContainerComponent) (iid : String)
    (h : (createEntityFromTemplateData t i tm).containerComp = some cc) :
    cc.has_item_id iid = false := by
  have hg := containerComp_eq_some _ _ h
  unfold Entity.get_component at hg
  cases hf : (createEntityFromTemplateData t i tm).components.find?
      (fun p => decide (p.1 = "ContainerComponent")) with
  | none => rw [hf] at hg; exact absurd hg (by simp)
  | some pr =>
    rw [hf] at hg
    simp only [Option.map_some', Option.some.injEq] at hg
    have hmem := List.mem_of_find?_eq_some hf
    have hkey : pr.1 = "ContainerComponent" := by simpa using List.find?_some hf
    rcases createEntityFromTemplateData_components_mem t i tm pr hmem with ⟨d, hd⟩ | hw
    · refine buildComponent_container_no_item d cc iid ?_
      rw [← hkey]
      have h2 : pr.2 = buildComponent pr.1 d := by rw [hd]
      rw [← h2, hg]
    · rw [hw] at hg
      simp at hg

/-- When neither the declared container destination nor the acting agent's
location resolves, the placement attempt returns the world unchanged with
`placed = false`. -/
theorem createEntityPlace_unresolvable (ws : WorldState) (ctx : Context) (dd : DestData)
    (ne : Entity)
    (hT : dd.type = "container" → resolveEntityFromCtx ws ctx (strOfOpt dd.target) = none)
    (hA : ∀ a, resolveEntityFromCtx ws ctx "agent" = some a →
      ws.get_location_of_entity a.entity_id = none) :
    createEntityPlace ws ctx dd ne = (ws, false) := by
  unfold createEntityPlace
  by_cases hc : dd.type = "container"
  · rw [if_pos hc, hT hc]
    dsimp only
    rw [if_neg (by decide)]
    cases hag : resolveEntityFromCtx ws ctx "agent" with
    | none => rfl
    | some a =>
      dsimp only
      rw [hA a hag]
  · rw [if_neg hc]
    by_cases hl : dd.type = "location"
    · rw [if_pos hl]
      cases hag : resolveEntityFromCtx ws ctx "agent" with
      | none =>
        dsimp only
        rw [if_neg (by decide), hag]
      | some a =>
        have hla := hA a hag
        dsimp only
        rw [hla]
        dsimp only
        rw [if_neg (by decide), hag]
        dsimp only
        rw [hla]
    · rw [if_neg hl]
      dsimp only
      rw [if_neg (by decide)]
      cases hag : resolveEntityFromCtx ws ctx "agent" with
      | none => rfl
      | some a =>
        dsimp only
        rw [hA a hag]

/-- C10: a `CreateEntity` whose template and destination data resolve and
whose instance id is fresh succeeds even when neither the declared
destination nor the acting agent's location can be resolved: the entity is
registered in the entity table, exactly one `EntityCreated` event is
emitted with `placed = false`, and the created id appears in no location
membership list and no container slot. -/
theorem C10_create_entity_unplaced_is_ok (templates : Option Templates) (f : Nat)
    (ws wsid wsReg : WorldState) (d : EffectData) (ctx : Context) (dd : DestData)
    (tdbv : Templates) (tn : String) (tmpl : Template) (new_id : String) (new_entity : Entity)
    (hTag : d.effect = "CreateEntity")
    (hTmpl : d.template ≠ "")
    (hDest : d.destination = some dd)
    (hT : templates = some tdbv)
    (hFind : tdbv.find? (fun p => p.1 = d.template) = some (tn, tmpl))
    (hGen : (if d.instance_id ≠ "" then (d.instance_id, ws)
      else (genEntityId d.template ws.fresh_seq,
        { ws with fresh_seq := ws.fresh_seq + 1 })) = (new_id, wsid))
    (hFresh : wsid.get_entity_by_id new_id = none)
    (hNE : new_entity = createEntityFromTemplateData d.template new_id tmpl)
    (hReg : wsReg = { wsid with entities := wsid.entities ++ [new_entity] })
    (hNoT : dd.type = "container" →
      resolveEntityFromCtx wsReg ctx (strOfOpt dd.target) = none)
    (hNoA : ∀ a, resolveEntityFromCtx wsReg ctx "agent" = some a →
      wsReg.get_location_of_entity a.entity_id = none)
    (hNoLocPre : ∀ l ∈ ws.locations, new_id ∉ l.entities_in_location)
    (hNoSlotPre : ∀ e ∈ ws.entities, ∀ cc, e.containerComp = some cc →
      cc.has_item_id new_id = false) :
    exec templates (f + 1) ws d ctx =
      .ok (wsReg, [.entityCreated new_id d.template false]) ∧
    wsReg.get_entity_by_id new_id = some new_entity ∧
    (∀ l ∈ wsReg.locations, new_id ∉ l.entities_in_location) ∧
    (∀ e ∈ wsReg.entities, ∀ cc, e.containerComp = some cc →
      cc.has_item_id new_id = false) := by
  have hwsid : wsid.entities = ws.entities ∧ wsid.locations = ws.locations := by
    split at hGen <;> (injection hGen with h1 h2; rw [← h2]; exact ⟨rfl, rfl⟩)
  obtain ⟨hEnt, hLoc⟩ := hwsid
  have hFresh' : wsid.entities.find? (fun e => decide (e.entity_id = new_id)) = none :=
    hFresh
  refine ⟨?_, ?_, ?_, ?_⟩
  · rw [show (f + 1) = Nat.succ f from rfl, exec, hTag]
    simp only [String.reduceEq, reduceIte]
    unfold execCreateEntity
    rw [hDest]
    rw [if_neg (by simp [hTmpl])]
    rw [hT]
    dsimp only
    rw [hFind]
    dsimp only
    rw [hGen]
    dsimp only
    rw [hFresh]
    rw [if_neg (by simp)]
    rw [← hNE, ← hReg]
    simp only [Option.getD_some]
    rw [createEntityPlace_unresolvable wsReg ctx dd new_entity hNoT hNoA]
    dsimp only
    rw [hNE, createEntityFromTemplateData_entity_id, createEntityFromTemplateData_template_id]
  · rw [hReg]
    unfold WorldState.get_entity_by_id
    dsimp only
    rw [find?_append_left_none _ _ _ hFresh']
    rw [List.find?_cons_of_pos _ (by simp [hNE, createEntityFromTemplateData_entity_id])]
  · intro l hl
    rw [hReg] at hl
    dsimp only at hl
    rw [hLoc] at hl
    exact hNoLocPre l hl
  · intro e he cc hcc
    rw [hReg] at he
    dsimp only at he
    rw [hEnt] at he
    rcases List.mem_append.mp he with h1 | h2
    · exact hNoSlotPre e h1 cc hcc
    · have he2 : e = new_entity := by simpa using h2
      rw [he2, hNE] at hcc
      exact createEntityFromTemplateData_container_no_item _ _ _ _ _ hcc

/-- Witness for the C10 theorem: creating an apple with an unresolvable
container destination and no acting agent in the context succeeds,
reporting `placed = false`, and the apple sits in the entity table. -/
theorem C10_witness :
    exec (some tdb) 10 ws0 createOrphan ctxEmpty =
      .ok (wsRegW, [.entityCreated "apple_9" "apple" false]) ∧
    wsRegW.get_entity_by_id "apple_9" = some appleOrphan :=
  have h := C10_create_entity_unplaced_is_ok (some tdb) 9 ws0 ws0 wsRegW createOrphan
    ctxEmpty { type := "container", target := some "dest" } tdb "apple" tmplApple
    "apple_9" appleOrphan rfl (by decide) rfl rfl rfl rfl rfl rfl rfl
    (fun _ => rfl)
    (fun a ha => by
      rw [show resolveEntityFromCtx wsRegW ctxEmpty "agent" = none from rfl] at ha
      exact Option.noConfusion ha)
    (by decide)
    (fun e he cc hcc => by
      have he' : e = chestE := by simpa using (show e ∈ [chestE] from he)
      rw [he'] at hcc
      rw [show chestE.containerComp =
        some ({ slots := [("main", { config := {}, items := [] })] } : ContainerComponent)
        from rfl] at hcc
      rw [← Option.some.inj hcc]
      decide)
  ⟨h.1, h.2.1⟩

/-! ### C1 — index discipline (duplicate-freedom of every index list) -/

theorem find?_append_left_some {α} (p : α → Bool) (l1 l2 : List α) (a : α)
    (h : l1.find? p = some a) : (l1 ++ l2).find? p = some a := by
  induction l1 with
  | nil => exact absurd h (by simp)
  | cons b t ih =>
    by_cases hp : p b
    · rw [List.find?_cons_of_pos _ hp] at h
      rw [List.cons_append, List.find?_cons_of_pos _ hp]
      exact h
    · rw [List.find?_cons_of_neg _ hp] at h
      rw [List.cons_append, List.find?_cons_of_neg _ hp]
      exact ih h

theorem find?_map_fst_preserved (l : List (String × Component))
    (g : String × Component → String × Component) (hg : ∀ p, (g p).1 = p.1) (key : String) :
    (l.map g).find? (fun p => decide (p.1 = key)) =
    (l.find? (fun p => decide (p.1 = key))).map g := by
  induction l with
  | nil => rfl
  | cons a t ih =>
    simp only [List.map_cons]
    by_cases ha : a.1 = key
    · rw [List.find?_cons_of_pos _ (by simp [hg, ha]), List.find?_cons_of_pos _ (by simp [ha])]
      rfl
    · rw [List.find?_cons_of_neg _ (by simp [hg, ha]), List.find?_cons_of_neg _ (by simp [ha])]
      exact ih

theorem containerComp_setComponent_cases (e : Entity) (name : String) (c : Component)
    (cc' : ContainerComponent)
    (h : (e.setComponent name c).containerComp = some cc') :
    c = .container cc' ∨ e.containerComp = some cc' := by
  unfold Entity.containerComp Entity.get_component at h ⊢
  unfold Entity.setComponent at h
  rw [find?_map_fst_preserved _ _
    (fun p => by by_cases hpn : p.1 = name <;> simp [hpn])] at h
  cases hf : e.components.find? (fun p => decide (p.1 = "ContainerComponent")) with
  | none => rw [hf] at h; simp at h
  | some pr =>
    rw [hf] at h
    simp only [Option.map_some'] at h
    by_cases hn : pr.1 = name
    · rw [if_pos hn] at h
      dsimp only at h
      cases c <;> simp_all
    · rw [if_neg hn] at h
      exact Or.inr h

theorem slotsNodupB_setComponent (e : Entity) (name : String) (c : Component)
    (he : e.slotsNodupB = true)
    (hc : ∀ cc, c = .container cc →
      cc.slots.all (fun p => decide p.2.items.Nodup) = true) :
    (e.setComponent name c).slotsNodupB = true := by
  unfold Entity.slotsNodupB at he ⊢
  cases h : (e.setComponent name c).containerComp with
  | none => rfl
  | some cc' =>
    rcases containerComp_setComponent_cases e name c cc' h with h1 | h2
    · exact hc cc' h1
    · rw [h2] at he
      exact he

theorem get_entity_by_id_mem (ws : WorldState) (i : String) (e : Entity)
    (h : ws.get_entity_by_id i = some e) : e ∈ ws.entities :=
  List.mem_of_find?_eq_some h

theorem get_location_by_id_mem (ws : WorldState) (i : String) (l : Location)
    (h : ws.get_location_by_id i = some l) : l ∈ ws.locations :=
  List.mem_of_find?_eq_some h

theorem invNodup_updateEntity (ws : WorldState) (i : String) (f : Entity → Entity)
    (h : InvNodup ws) (hf : ∀ e, e.slotsNodupB = true → (f e).slotsNodupB = true) :
    InvNodup (ws.updateEntity i f) := by
  refine ⟨h.1, ?_⟩
  intro e he
  rcases List.mem_map.mp (show e ∈ ws.entities.map
      (fun e0 => if e0.entity_id = i then f e0 else e0) from he) with ⟨x, hx, hgx⟩
  by_cases hxi : x.entity_id = i
  · rw [if_pos hxi] at hgx
    rw [← hgx]
    exact hf x (h.2 x hx)
  · rw [if_neg hxi] at hgx
    rw [← hgx]
    exact h.2 x hx

theorem invNodup_updateLocation (ws : WorldState) (i : String) (f : Location → Location)
    (h : InvNodup ws)
    (hf : ∀ l, l.entities_in_location.Nodup → (f l).entities_in_location.Nodup) :
    InvNodup (ws.updateLocation i f) := by
  refine ⟨?_, h.2⟩
  intro l hl
  rcases List.mem_map.mp (show l ∈ ws.locations.map
      (fun l0 => if l0.location_id = i then f l0 else l0) from hl) with ⟨x, hx, hgx⟩
  by_cases hxi : x.location_id = i
  · rw [if_pos hxi] at hgx
    rw [← hgx]
    exact hf x (h.1 x hx)
  · rw [if_neg hxi] at hgx
    rw [← hgx]
    exact h.1 x hx

theorem invNodup_ensure_in (ws : WorldState) (eid lid : String) (h : InvNodup ws) :
    InvNodup (ws.ensure_entity_in_location eid lid) := by
  unfold WorldState.ensure_entity_in_location
  cases hg : ws.get_location_by_id lid with
  | none => exact h
  | some l0 =>
    refine invNodup_updateLocation ws lid _ h ?_
    intro l hl
    by_cases hm : eid ∈ l.entities_in_location
    · rw [if_pos hm]
      exact hl
    · rw [if_neg hm]
      dsimp only
      rw [List.nodup_append]
      exact ⟨hl, List.nodup_singleton eid,
        fun a ha hb => hm ((List.mem_singleton.mp hb) ▸ ha)⟩

theorem invNodup_ensure_removed (ws : WorldState) (eid lid : String) (h : InvNodup ws) :
    InvNodup (ws.ensure_entity_removed_from_location eid lid) := by
  unfold WorldState.ensure_entity_removed_from_location
  cases hg : ws.get_location_by_id lid with
  | none => exact h
  | some l0 =>
    refine invNodup_updateLocation ws lid _ h ?_
    intro l hl
    exact hl.erase eid

theorem invNodup_move_ids (ids : List String) (ws : WorldState) (fl tl : String)
    (h : InvNodup ws) : InvNodup (ws.move_ids_between_locations ids fl tl) := by
  unfold WorldState.move_ids_between_locations
  revert h
  induction ids generalizing ws with
  | nil => exact fun h => h
  | cons a t ih =>
    intro h
    exact ih _ (invNodup_ensure_in _ _ _ (invNodup_ensure_removed _ _ _ h))

theorem has_item_id_false_not_mem (cc : ContainerComponent) (iid : String)
    (h : cc.has_item_id iid = false) : ∀ p ∈ cc.slots, iid ∉ p.2.items := by
  intro p hp hmem
  have htrue : cc.has_item_id iid = true := by
    unfold ContainerComponent.has_item_id
    rw [List.any_eq_true]
    exact ⟨p, hp, by simpa using hmem⟩
  rw [h] at htrue
  exact Bool.noConfusion htrue

theorem add_entity_slots_nodup (cc : ContainerComponent) (iid : String) (tags : List String)
    (cc2 : ContainerComponent) (h : cc.add_entity iid tags = some cc2)
    (hcc : cc.slots.all (fun p => decide p.2.items.Nodup) = true) :
    cc2.slots.all (fun p => decide p.2.items.Nodup) = true := by
  unfold ContainerComponent.add_entity at h
  by_cases h0 : iid = ""
  · rw [if_pos h0] at h
    exact absurd h (by simp)
  rw [if_neg h0] at h
  cases hhas : cc.has_item_id iid with
  | true =>
    rw [hhas] at h
    simp at h
  | false =>
    rw [hhas] at h
    simp only [Bool.false_eq_true, if_false] at h
    cases hs : cc.findFirstAvailableSlotId tags with
    | none =>
      rw [hs] at h
      exact absurd h (by simp)
    | some sid =>
      rw [hs] at h
      dsimp only at h
      rw [← Option.some.inj h]
      simp only [List.all_eq_true, decide_eq_true_eq] at hcc ⊢
      intro q hq
      rcases List.mem_map.mp hq with ⟨p, hp, hpq⟩
      by_cases hps : p.1 = sid
      · rw [if_pos hps] at hpq
        rw [← hpq]
        dsimp only
        rw [List.nodup_append]
        exact ⟨hcc p hp, List.nodup_singleton iid,
          fun a ha hb => has_item_id_false_not_mem cc iid hhas p hp
            ((List.mem_singleton.mp hb) ▸ ha)⟩
      · rw [if_neg hps] at hpq
        rw [← hpq]
        exact hcc p hp

theorem removeFirstSlotItem_nodup (iid : String) (l : List (String × ContainerSlot))
    (hl : ∀ p ∈ l, p.2.items.Nodup) : ∀ p ∈ removeFirstSlotItem iid l, p.2.items.Nodup := by
  induction l with
  | nil =>
    intro p hp
    simp [removeFirstSlotItem] at hp
  | cons a t ih =>
    obtain ⟨sid, slot⟩ := a
    intro p hp
    unfold removeFirstSlotItem at hp
    by_cases hm : iid ∈ slot.items
    · rw [if_pos hm] at hp
      rcases List.mem_cons.mp hp with h1 | h2
      · rw [h1]
        exact (hl (sid, slot) (by simp)).erase iid
      · exact hl p (by simp [h2])
    · rw [if_neg hm] at hp
      rcases List.mem_cons.mp hp with h1 | h2
      · rw [h1]
        exact hl (sid, slot) (by simp)
      · exact ih (fun q hq => hl q (by simp [hq])) p h2

theorem remove_entity_slots_nodup (cc : ContainerComponent) (iid : String)
    (cc2 : ContainerComponent) (h : cc.remove_entity_by_id iid = some cc2)
    (hcc : cc.slots.all (fun p => decide p.2.items.Nodup) = true) :
    cc2.slots.all (fun p => decide p.2.items.Nodup) = true := by
  unfold ContainerComponent.remove_entity_by_id at h
  cases hhas : cc.has_item_id iid with
  | false =>
    rw [hhas] at h
    simp at h
  | true =>
    rw [hhas] at h
    simp only [if_true] at h
    rw [← Option.some.inj h]
    simp only [List.all_eq_true, decide_eq_true_eq] at hcc ⊢
    exact fun q hq => removeFirstSlotItem_nodup iid cc.slots hcc q hq

theorem slotsNodupB_of_containerComp (e : Entity) (cc : ContainerComponent)
    (he : e.slotsNodupB = true) (hc : e.containerComp = some cc) :
    cc.slots.all (fun p => decide p.2.items.Nodup) = true := by
  unfold Entity.slotsNodupB at he
  rw [hc] at he
  exact he

theorem invNodup_setComponent_update (ws : WorldState) (i name : String) (c : Component)
    (h : InvNodup ws)
    (hc : ∀ cc, c = .container cc →
      cc.slots.all (fun p => decide p.2.items.Nodup) = true) :
    InvNodup (ws.updateEntity i (fun e => e.setComponent name c)) :=
  invNodup_updateEntity ws i _ h (fun e he => slotsNodupB_setComponent e name c he hc)

theorem invNodup_setComponent_nc (ws : WorldState) (i name : String) (c : Component)
    (h : InvNodup ws) (hnc : ∀ cc, c = Component.container cc → False) :
    InvNodup (ws.updateEntity i (fun e => e.setComponent name c)) :=
  invNodup_setComponent_update ws i name c h (fun cc hcon => (hnc cc hcon).elim)

theorem slotsNodupB_append_taskHost (e : Entity) (he : e.slotsNodupB = true) :
    (Entity.slotsNodupB { e with components :=
      e.components ++ [("TaskHostComponent", Component.taskHost [])] }) = true := by
  unfold Entity.slotsNodupB Entity.containerComp Entity.get_component at he ⊢
  dsimp only
  cases hf : e.components.find? (fun p => decide (p.1 = "ContainerComponent")) with
  | none =>
    rw [find?_append_left_none _ _ _ hf]
    rfl
  | some pr =>
    rw [find?_append_left_some _ _ _ _ hf]
    rw [hf] at he
    exact he

theorem invNodup_addTaskHostComp (ws : WorldState) (i : String) (hInv : InvNodup ws) :
    InvNodup (ws.updateEntity i (fun e =>
      { e with components := e.components ++ [("TaskHostComponent", Component.taskHost [])] })) :=
  invNodup_updateEntity ws i _ hInv (fun e he => slotsNodupB_append_taskHost e he)

theorem invNodup_unregister (ws : WorldState) (tid : String) (h : InvNodup ws) :
    InvNodup (ws.unregister_task tid) := h

theorem resolveEntityFromCtx_mem (ws : WorldState) (ctx : Context) (k : String) (e : Entity)
    (h : resolveEntityFromCtx ws ctx k = some e) : e ∈ ws.entities :=
  get_entity_by_id_mem _ _ _ h

theorem resolveCoL_ent_mem (ws : WorldState) (ctx : Context) (k : String) (e : Entity)
    (h : resolveContainerOrLocationFromCtx ws ctx k = some (.ent e)) : e ∈ ws.entities := by
  unfold resolveContainerOrLocationFromCtx at h
  dsimp only at h
  cases hg : ws.get_entity_by_id (ctx.getStr (idKeyOf k)) with
  | none =>
    rw [hg] at h
    cases hl : ws.get_location_by_id (ctx.getStr (idKeyOf k)) with
    | none => rw [hl] at h; exact Option.noConfusion h
    | some l => rw [hl] at h; simp at h
  | some e0 =>
    rw [hg] at h
    dsimp only at h
    by_cases hic : e0.containerComp.isSome = true
    · rw [if_pos hic] at h
      injection h with h'
      injection h' with he
      rw [← he]
      exact get_entity_by_id_mem _ _ _ hg
    · rw [if_neg hic] at h
      cases hl : ws.get_location_by_id (ctx.getStr (idKeyOf k)) with
      | none => rw [hl] at h; exact Option.noConfusion h
      | some l => rw [hl] at h; simp at h

theorem bind_containerComp_mem (ws : WorldState) (i : String) (cc : ContainerComponent)
    (h : (ws.get_entity_by_id i).bind Entity.containerComp = some cc) :
    ∃ e, e ∈ ws.entities ∧ e.containerComp = some cc := by
  cases hg : ws.get_entity_by_id i with
  | none => rw [hg] at h; exact absurd h (by simp)
  | some e => exact ⟨e, get_entity_by_id_mem _ _ _ hg, by rw [hg] at h; simpa using h⟩

theorem add_entity_id_nodup (l : Location) (eid : String) (l2 : Location)
    (h : l.add_entity_id eid = some l2) (hl : l.entities_in_location.Nodup) :
    l2.entities_in_location.Nodup := by
  unfold Location.add_entity_id at h
  by_cases hm : eid ∈ l.entities_in_location
  · rw [if_pos hm] at h
    exact absurd h (by simp)
  · rw [if_neg hm] at h
    rw [← Option.some.inj h]
    dsimp only
    rw [List.nodup_append]
    exact ⟨hl, List.nodup_singleton eid, fun a ha hb => hm ((List.mem_singleton.mp hb) ▸ ha)⟩

theorem invNodup_execModifyProperty (ws : WorldState) (d : EffectData) (ctx : Context)
    (ws' : WorldState) (evs : List Event)
    (h : execModifyProperty ws d ctx = (ws', evs)) (hInv : InvNodup ws) :
    InvNodup ws' := by
  unfold execModifyProperty at h
  dsimp only at h
  repeat' split at h
  all_goals injection h with h1 h2
  all_goals rw [← h1]
  all_goals first
    | exact hInv
    | exact invNodup_setComponent_nc _ _ _ _ hInv (fun cc hcon => Component.noConfusion hcon)
    | exact invNodup_setComponent_nc _ _ _ _
        (invNodup_setComponent_nc _ _ _ _ hInv (fun cc hcon => Component.noConfusion hcon))
        (fun cc hcon => Component.noConfusion hcon)

theorem invNodup_getOrCreateConditionsList (ws : WorldState) (t : Entity)
    (ws1 : WorldState) (l : List String)
    (h : getOrCreateConditionsList ws t = some (ws1, l)) (hInv : InvNodup ws) :
    InvNodup ws1 := by
  unfold getOrCreateConditionsList at h
  repeat' split at h
  all_goals try exact Option.noConfusion h
  all_goals injection h with h'
  all_goals injection h' with h1 h2
  all_goals rw [← h1]
  all_goals first
    | exact hInv
    | exact invNodup_setComponent_nc _ _ _ _ hInv (fun cc hcon => Component.noConfusion hcon)

theorem invNodup_setConditionsList (ws : WorldState) (tid : String) (l : List String)
    (hInv : InvNodup ws) : InvNodup (setConditionsList ws tid l) := by
  unfold setConditionsList
  refine invNodup_updateEntity _ _ _ hInv ?_
  intro e he
  split
  · exact slotsNodupB_setComponent _ _ _ he (fun cc hcon => Component.noConfusion hcon)
  · exact he

theorem invNodup_execAddCondition (ws : WorldState) (d : EffectData) (ctx : Context)
    (ws' : WorldState) (evs : List Event)
    (h : execAddCondition ws d ctx = (ws', evs)) (hInv : InvNodup ws) :
    InvNodup ws' := by
  unfold execAddCondition at h
  repeat' split at h
  all_goals try (injection h with h1 h2; rw [← h1]; exact hInv)
  all_goals rename_i ws1 cond_list hg
  all_goals have hInv1 := invNodup_getOrCreateConditionsList _ _ _ _ hg hInv
  all_goals injection h with h1 h2
  all_goals rw [← h1]
  all_goals first
    | exact hInv1
    | exact invNodup_setConditionsList _ _ _ hInv1
    | (split
       · exact hInv1
       · exact invNodup_setConditionsList _ _ _ hInv1)

theorem invNodup_execRemoveCondition (ws : WorldState) (d : EffectData) (ctx : Context)
    (ws' : WorldState) (evs : List Event)
    (h : execRemoveCondition ws d ctx = (ws', evs)) (hInv : InvNodup ws) :
    InvNodup ws' := by
  unfold execRemoveCondition at h
  repeat' split at h
  all_goals try (injection h with h1 h2; rw [← h1]; exact hInv)
  all_goals rename_i ws1 cond_list hg
  all_goals have hInv1 := invNodup_getOrCreateConditionsList _ _ _ _ hg hInv
  all_goals injection h with h1 h2
  all_goals rw [← h1]
  all_goals first
    | exact hInv1
    | exact invNodup_setConditionsList _ _ _ hInv1
    | (split
       · exact invNodup_setConditionsList _ _ _ hInv1
       · exact hInv1)

theorem invNodup_execProgressTask (ws : WorldState) (d : EffectData) (ctx : Context)
    (ws' : WorldState) (evs : List Event)
    (h : execProgressTask ws d ctx = (ws', evs)) (hInv : InvNodup ws) :
    InvNodup ws' := by
  unfold execProgressTask at h
  dsimp only at h
  repeat' split at h
  all_goals injection h with h1 h2
  all_goals rw [← h1]
  all_goals exact hInv

theorem invNodup_execUpdateTaskStatus (ws : WorldState) (d : EffectData) (ctx : Context)
    (ws' : WorldState) (evs : List Event)
    (h : execUpdateTaskStatus ws d ctx = (ws', evs)) (hInv : InvNodup ws) :
    InvNodup ws' := by
  unfold execUpdateTaskStatus at h
  dsimp only at h
  repeat' split at h
  all_goals injection h with h1 h2
  all_goals rw [← h1]
  all_goals exact hInv

/-- Containers built from template data have duplicate-free (empty) slot
item lists. -/
theorem buildComponent_container_slots_nodup (d : CompData) (cc : ContainerComponent)
    (h : buildComponent "ContainerComponent" d = .container cc) :
    cc.slots.all (fun p => decide p.2.items.Nodup) = true := by
  unfold buildComponent at h
  rw [if_neg (by decide), if_neg (by decide), if_neg (by decide), if_neg (by decide),
    if_neg (by decide), if_neg (by decide), if_pos rfl] at h
  cases d <;> dsimp only at h <;> injection h with h2 <;> rw [← h2] <;>
    simp [List.all_eq_true]
  intro a b x x1 hmx hxa hb
  rw [← hb]
  simp

theorem createEntityFromTemplateData_slotsNodupB (t i : String) (tm : Template) :
    (createEntityFromTemplateData t i tm).slotsNodupB = true := by
  unfold Entity.slotsNodupB
  cases hc : (createEntityFromTemplateData t i tm).containerComp with
  | none => rfl
  | some cc =>
    have hg := containerComp_eq_some _ _ hc
    unfold Entity.get_component at hg
    cases hf : (createEntityFromTemplateData t i tm).components.find?
        (fun p => decide (p.1 = "ContainerComponent")) with
    | none => rw [hf] at hg; exact absurd hg (by simp)
    | some pr =>
      rw [hf] at hg
      simp only [Option.map_some', Option.some.injEq] at hg
      have hmem := List.mem_of_find?_eq_some hf
      have hkey : pr.1 = "ContainerComponent" := by simpa using List.find?_some hf
      rcases createEntityFromTemplateData_components_mem t i tm pr hmem with ⟨dd, hd⟩ | hw
      · refine buildComponent_container_slots_nodup dd cc ?_
        rw [← hkey]
        have h2 : pr.2 = buildComponent pr.1 dd := by rw [hd]
        rw [← h2, hg]
      · rw [hw] at hg
        simp at hg

theorem invNodup_createEntityPlace (ws : WorldState) (ctx : Context) (dd : DestData)
    (ne : Entity) (wsr : WorldState) (b : Bool)
    (h : createEntityPlace ws ctx dd ne = (wsr, b)) (hInv : InvNodup ws) :
    InvNodup wsr := by
  unfold createEntityPlace at h
  by_cases hc : dd.type = "container"
  · rw [if_pos hc] at h
    cases hr : resolveEntityFromCtx ws ctx (strOfOpt dd.target) with
    | none =>
      rw [hr] at h
      dsimp only at h
      rw [if_neg (by decide)] at h
      cases hag : resolveEntityFromCtx ws ctx "agent" with
      | none =>
        rw [hag] at h
        dsimp only at h
        injection h with h1 h2
        rw [← h1]
        exact hInv
      | some a =>
        rw [hag] at h
        dsimp only at h
        cases hloca : ws.get_location_of_entity a.entity_id with
        | none =>
          rw [hloca] at h
          dsimp only at h
          injection h with h1 h2
          rw [← h1]
          exact hInv
        | some loc =>
          rw [hloca] at h
          dsimp only at h
          injection h with h1 h2
          rw [← h1]
          exact invNodup_ensure_in _ _ _ hInv
    | some parent =>
      rw [hr] at h
      dsimp only at h
      cases hpc : parent.containerComp with
      | none =>
        rw [hpc] at h
        dsimp only at h
        rw [if_neg (by decide)] at h
        cases hag : resolveEntityFromCtx ws ctx "agent" with
        | none =>
          rw [hag] at h
          dsimp only at h
          injection h with h1 h2
          rw [← h1]
          exact hInv
        | some a =>
          rw [hag] at h
          dsimp only at h
          cases hloca : ws.get_location_of_entity a.entity_id with
          | none =>
            rw [hloca] at h
            dsimp only at h
            injection h with h1 h2
            rw [← h1]
            exact hInv
          | some loc =>
            rw [hloca] at h
            dsimp only at h
            injection h with h1 h2
            rw [← h1]
            exact invNodup_ensure_in _ _ _ hInv
      | some cc =>
        rw [hpc] at h
        dsimp only at h
        cases hadd : cc.add_entity ne.entity_id ne.get_all_tags with
        | none =>
          rw [hadd] at h
          dsimp only at h
          rw [if_neg (by decide)] at h
          cases hag : resolveEntityFromCtx ws ctx "agent" with
          | none =>
            rw [hag] at h
            dsimp only at h
            injection h with h1 h2
            rw [← h1]
            exact hInv
          | some a =>
            rw [hag] at h
            dsimp only at h
            cases hloca : ws.get_location_of_entity a.entity_id with
            | none =>
              rw [hloca] at h
              dsimp only at h
              injection h with h1 h2
              rw [← h1]
              exact hInv
            | some loc =>
              rw [hloca] at h
              dsimp only at h
              injection h with h1 h2
              rw [← h1]
              exact invNodup_ensure_in _ _ _ hInv
        | some cc2 =>
          rw [hadd] at h
          dsimp only at h
          have hInvA : InvNodup (ws.updateEntity parent.entity_id
              (fun e => e.setComponent "ContainerComponent" (.container cc2))) := by
            refine invNodup_setComponent_update _ _ _ _ hInv ?_
            intro cc' hcon
            injection hcon with e2
            rw [← e2]
            exact add_entity_slots_nodup cc _ _ cc2 hadd
              (slotsNodupB_of_containerComp parent cc
                (hInv.2 parent (resolveEntityFromCtx_mem _ _ _ _ hr)) hpc)
          cases hloc : (ws.updateEntity parent.entity_id
              (fun e => e.setComponent "ContainerComponent"
                (.container cc2))).get_location_of_entity parent.entity_id with
          | none =>
            rw [hloc] at h
            dsimp only at h
            rw [if_pos rfl] at h
            injection h with h1 h2
            rw [← h1]
            exact hInvA
          | some loc =>
            rw [hloc] at h
            dsimp only at h
            rw [if_pos rfl] at h
            injection h with h1 h2
            rw [← h1]
            exact invNodup_ensure_in _ _ _ hInvA
  · rw [if_neg hc] at h
    by_cases hl : dd.type = "location"
    · rw [if_pos hl] at h
      cases hag : resolveEntityFromCtx ws ctx "agent" with
      | none =>
        rw [hag] at h
        dsimp only at h
        rw [if_neg (by decide), hag] at h
        dsimp only at h
        injection h with h1 h2
        rw [← h1]
        exact hInv
      | some a =>
        rw [hag] at h
        dsimp only at h
        cases hloca : ws.get_location_of_entity a.entity_id with
        | none =>
          rw [hloca] at h
          dsimp only at h
          rw [if_neg (by decide), hag] at h
          dsimp only at h
          rw [hloca] at h
          dsimp only at h
          injection h with h1 h2
          rw [← h1]
          exact hInv
        | some loc =>
          rw [hloca] at h
          dsimp only at h
          rw [if_pos rfl] at h
          injection h with h1 h2
          rw [← h1]
          exact invNodup_ensure_in _ _ _ hInv
    · rw [if_neg hl] at h
      dsimp only at h
      rw [if_neg (by decide)] at h
      cases hag : resolveEntityFromCtx ws ctx "agent" with
      | none =>
        rw [hag] at h
        dsimp only at h
        injection h with h1 h2
        rw [← h1]
        exact hInv
      | some a =>
        rw [hag] at h
        dsimp only at h
        cases hloca : ws.get_location_of_entity a.entity_id with
        | none =>
          rw [hloca] at h
          dsimp only at h
          injection h with h1 h2
          rw [← h1]
          exact hInv
        | some loc =>
          rw [hloca] at h
          dsimp only at h
          injection h with h1 h2
          rw [← h1]
          exact invNodup_ensure_in _ _ _ hInv

theorem invNodup_execCreateEntity (templates : Option Templates) (ws : WorldState)
    (d : EffectData) (ctx : Context) (ws' : WorldState) (evs : List Event)
    (h : execCreateEntity templates ws d ctx = .ok (ws', evs)) (hInv : InvNodup ws) :
    InvNodup ws' := by
  unfold execCreateEntity at h
  split at h
  · injection h with h'
    injection h' with h1 h2
    rw [← h1]
    exact hInv
  · split at h
    · injection h with h'
      injection h' with h1 h2
      rw [← h1]
      exact hInv
    · split at h
      · injection h with h'
        injection h' with h1 h2
        rw [← h1]
        exact hInv
      · rename_i tname tmpl hfind
        dsimp only at h
        split at h <;>
          (dsimp only at h
           split at h
           · exact Except.noConfusion h
           · injection h with h'
             injection h' with h1 h2
             rw [← h1]
             refine invNodup_createEntityPlace _ _ _ _ _ _ rfl ?_
             constructor
             · exact hInv.1
             · intro e he
               rcases List.mem_append.mp he with hm1 | hm2
               · exact hInv.2 e hm1
               · rw [List.mem_singleton.mp hm2]
                 exact createEntityFromTemplateData_slotsNodupB _ _ _)

theorem invNodup_destroyStrip (ws : WorldState) (eid : String) (hInv : InvNodup ws) :
    InvNodup (destroyStrip ws eid) := by
  unfold destroyStrip
  dsimp only
  constructor
  · intro l hl
    rcases List.mem_map.mp (show l ∈ ws.locations.map _ from hl) with ⟨x, hx, hgx⟩
    rw [← hgx]
    exact (hInv.1 x hx).erase eid
  · intro e he
    have he2 := List.mem_of_mem_filter (show e ∈ (ws.entities.map _).filter _ from he)
    rcases List.mem_map.mp he2 with ⟨x, hx, hgx⟩
    rw [← hgx]
    cases hcc : x.containerComp with
    | none =>
      dsimp only
      exact hInv.2 x hx
    | some cc =>
      dsimp only
      refine slotsNodupB_setComponent _ _ _ (hInv.2 x hx) ?_
      intro cc' hcon
      injection hcon with e2
      rw [← e2]
      simp only [List.all_eq_true, decide_eq_true_eq]
      intro q hq
      rcases List.mem_map.mp hq with ⟨p, hp, hpq⟩
      rw [← hpq]
      have hall := slotsNodupB_of_containerComp x cc (hInv.2 x hx) hcc
      simp only [List.all_eq_true, decide_eq_true_eq] at hall
      exact (hall p hp).erase eid

theorem invNodup_transferAddToDest (ws1 : WorldState) (dn : RefNode) (etm : Entity)
    (dl : Option Location) (ws2 : WorldState) (b : Bool)
    (h : transferAddToDest ws1 dn etm dl = (ws2, b)) (hInv : InvNodup ws1) :
    InvNodup ws2 := by
  unfold transferAddToDest at h
  cases dn with
  | loc l =>
    dsimp only at h
    cases hg : ws1.get_location_by_id l.location_id with
    | none =>
      rw [hg] at h
      dsimp only at h
      injection h with h1 h2
      rw [← h1]
      exact hInv
    | some lcur =>
      rw [hg] at h
      dsimp only at h
      cases ha : lcur.add_entity_id etm.entity_id with
      | none =>
        rw [ha] at h
        dsimp only at h
        injection h with h1 h2
        rw [← h1]
        exact hInv
      | some l2 =>
        rw [ha] at h
        dsimp only at h
        injection h with h1 h2
        rw [← h1]
        refine invNodup_updateLocation _ _ _ hInv ?_
        intro l0 hl0
        exact add_entity_id_nodup lcur _ l2 ha (hInv.1 lcur (get_location_by_id_mem _ _ _ hg))
  | ent e0 =>
    dsimp only at h
    cases hb : (ws1.get_entity_by_id e0.entity_id).bind Entity.containerComp with
    | none =>
      rw [hb] at h
      dsimp only at h
      injection h with h1 h2
      rw [← h1]
      exact hInv
    | some cc =>
      rw [hb] at h
      dsimp only at h
      cases hadd : cc.add_entity etm.entity_id etm.get_all_tags with
      | none =>
        rw [hadd] at h
        dsimp only at h
        injection h with h1 h2
        rw [← h1]
        exact hInv
      | some cc2 =>
        rw [hadd] at h
        dsimp only at h
        rcases bind_containerComp_mem ws1 e0.entity_id cc hb with ⟨ec, hmem, hec⟩
        have hInvA : InvNodup (ws1.updateEntity e0.entity_id
            (fun en => en.setComponent "ContainerComponent" (.container cc2))) := by
          refine invNodup_setComponent_update _ _ _ _ hInv ?_
          intro cc' hcon
          injection hcon with e2
          rw [← e2]
          exact add_entity_slots_nodup cc _ _ cc2 hadd
            (slotsNodupB_of_containerComp ec cc (hInv.2 ec hmem) hec)
        cases dl with
        | none =>
          dsimp only at h
          injection h with h1 h2
          rw [← h1]
          exact hInvA
        | some dloc =>
          dsimp only at h
          injection h with h1 h2
          rw [← h1]
          exact invNodup_ensure_in _ _ _ hInvA

theorem invNodup_transferCascade (ws2 : WorldState) (eid : String) (cross : Bool)
    (sl dl : Option Location) (ws3 : WorldState)
    (h : transferCascade ws2 eid cross sl dl = .ok ws3) (hInv : InvNodup ws2) :
    InvNodup ws3 := by
  unfold transferCascade at h
  repeat' split at h
  all_goals try exact Except.noConfusion h
  all_goals injection h with h1
  all_goals rw [← h1]
  all_goals first
    | exact hInv
    | exact invNodup_move_ids _ _ _ _ hInv

theorem invNodup_execTransferEntity (ws : WorldState) (d : EffectData) (ctx : Context)
    (ws' : WorldState) (evs : List Event)
    (h : execTransferEntity ws d ctx = .ok (ws', evs)) (hInv : InvNodup ws) :
    InvNodup ws' := by
  unfold execTransferEntity at h
  split at h
  case h_2 =>
    injection h with h'
    injection h' with h1 h2
    rw [← h1]
    exact hInv
  case h_1 etm sn dn hE hS hD =>
    dsimp only at h
    have tail : ∀ ws1 : WorldState, InvNodup ws1 →
        ∀ (cross : Bool) (sl : Option Location),
        (if (!(transferAddToDest ws1 dn etm (refNodeLoc ws dn)).2) = true then
          Except.ok ((transferAddToDest ws1 dn etm (refNodeLoc ws dn)).1,
            [Event.executorError "TransferEntity: failed to add to destination"])
        else
          match transferCascade (transferAddToDest ws1 dn etm (refNodeLoc ws dn)).1
              etm.entity_id cross sl (refNodeLoc ws dn) with
          | .error e => Except.error e
          | .ok ws3 => Except.ok (ws3, [Event.entityTransferred etm.entity_id])) =
          .ok (ws', evs) → InvNodup ws' := by
      intro ws1 hInv1 cross sl htail
      have hInv2 : InvNodup (transferAddToDest ws1 dn etm (refNodeLoc ws dn)).1 :=
        invNodup_transferAddToDest _ _ _ _ _ _ rfl hInv1
      cases hb : (transferAddToDest ws1 dn etm (refNodeLoc ws dn)).2 with
      | false =>
        rw [hb] at htail
        rw [if_pos (by rfl)] at htail
        injection htail with h'
        injection h' with h1 h2
        rw [← h1]
        exact hInv2
      | true =>
        rw [hb] at htail
        rw [if_neg (by simp)] at htail
        split at htail
        · exact Except.noConfusion htail
        · rename_i ws3 hcas
          injection htail with h'
          injection h' with h1 h2
          rw [← h1]
          exact invNodup_transferCascade _ _ _ _ _ _ hcas hInv2
    cases sn with
    | loc l =>
      dsimp only at h
      split at h
      · injection h with h'
        injection h' with h1 h2
        rw [← h1]
        exact hInv
      · rename_i ws1 heq
        have hInv1 : InvNodup ws1 := by
          split at heq
          · injection heq with e1
            rw [← e1]
            exact invNodup_updateLocation _ _ _ hInv (fun l0 hl0 => hl0.erase etm.entity_id)
          · injection heq with e1
            rw [← e1]
            exact hInv
        exact tail ws1 hInv1 _ _ h
    | ent e0 =>
      dsimp only at h
      cases hcc : e0.containerComp with
      | none =>
        rw [hcc] at h
        dsimp only at h
        exact tail ws hInv _ _ h
      | some cc =>
        rw [hcc] at h
        dsimp only at h
        cases hrem : cc.remove_entity_by_id etm.entity_id with
        | none =>
          rw [hrem] at h
          dsimp only at h
          injection h with h'
          injection h' with h1 h2
          rw [← h1]
          exact hInv
        | some cc2 =>
          rw [hrem] at h
          dsimp only at h
          refine tail _ ?_ _ _ h
          refine invNodup_setComponent_update _ _ _ _ hInv ?_
          intro cc' hcon
          injection hcon with e2
          rw [← e2]
          exact remove_entity_slots_nodup cc _ cc2 hrem
            (slotsNodupB_of_containerComp e0 cc
              (hInv.2 e0 (resolveCoL_ent_mem _ _ _ _ hS)) hcc)

theorem invNodup_runMany
    (step : WorldState → EffectData → Context → Except ExecErr (WorldState × List Event))
    (hstep : ∀ ws d ctx ws' evs, InvNodup ws → step ws d ctx = .ok (ws', evs) → InvNodup ws')
    (l : List (EffectData × Context)) :
    ∀ ws ws' evs, InvNodup ws → runMany step ws l = .ok (ws', evs) → InvNodup ws' := by
  induction l with
  | nil =>
    intro ws ws' evs hInv h
    unfold runMany at h
    injection h with h'
    injection h' with h1 h2
    rw [← h1]
    exact hInv
  | cons a rest ih =>
    intro ws ws' evs hInv h
    obtain ⟨d0, c0⟩ := a
    unfold runMany at h
    cases hs : step ws d0 c0 with
    | error err =>
      rw [hs] at h
      exact Except.noConfusion h
    | ok pr =>
      obtain ⟨ws1, evs1⟩ := pr
      rw [hs] at h
      dsimp only at h
      cases hm : runMany step ws1 rest with
      | error err =>
        rw [hm] at h
        exact Except.noConfusion h
      | ok pr2 =>
        obtain ⟨ws2, evs2⟩ := pr2
        rw [hm] at h
        dsimp only at h
        injection h with h'
        injection h' with h1 h2
        rw [← h1]
        exact ih ws1 ws2 evs2 (hstep ws d0 c0 ws1 evs1 hInv hs) hm

theorem invNodup_finishTaskCleanup (ws : WorldState) (ctx : Context) (task : Task)
    (evs0 : List Event) (ws' : WorldState) (evs : List Event)
    (h : finishTaskCleanup ws ctx task evs0 = (ws', evs)) (hInv : InvNodup ws) :
    InvNodup ws' := by
  unfold finishTaskCleanup at h
  dsimp only at h
  injection h with h1 h2
  rw [← h1]
  refine invNodup_unregister _ _ ?_
  split
  · exact hInv
  · split
    · refine invNodup_updateEntity _ _ _ hInv ?_
      intro e he
      split
      · exact slotsNodupB_setComponent _ _ _ he (fun cc hcon => Component.noConfusion hcon)
      · exact he
    · exact hInv

theorem invNodup_execCreateTask (ws : WorldState) (d : EffectData) (ctx : Context)
    (ws' : WorldState) (evs : List Event)
    (h : execCreateTask ws d ctx = .ok (ws', evs)) (hInv : InvNodup ws) :
    InvNodup ws' := by
  unfold execCreateTask at h
  cases hr : resolveEntityFromCtx ws ctx "target" with
  | none =>
    rw [hr] at h
    dsimp only at h
    injection h with h'
    injection h' with h1 h2
    rw [← h1]
    exact hInv
  | some target =>
    rw [hr] at h
    dsimp only at h
    cases hrec : ctx.recipe with
    | none =>
      rw [hrec] at h
      dsimp only at h
      injection h with h'
      injection h' with h1 h2
      rw [← h1]
      exact hInv
    | some recipe =>
      rw [hrec] at h
      dsimp only at h
      split at h
      case h_1 =>
        injection h with h'
        injection h' with h1 h2
        rw [← h1]
        exact hInv
      case h_2 wsH hk heq =>
        have hW : InvNodup wsH := by
          repeat' split at heq
          all_goals try exact Option.noConfusion heq
          all_goals injection heq with heq'
          all_goals injection heq' with e1 e2
          all_goals rw [← e1]
          all_goals first
            | exact hInv
            | exact invNodup_addTaskHostComp _ _ hInv
        repeat' split at h
        all_goals try exact Except.noConfusion h
        all_goals injection h with h'
        all_goals injection h' with h1 h2
        all_goals rw [← h1]
        all_goals first
          | exact hW
          | exact invNodup_setComponent_nc _ _ _ _ hW (fun cc hcon => Component.noConfusion hcon)
          | exact invNodup_setComponent_nc _ _ _ _
              (invNodup_setComponent_nc _ _ _ _ hW (fun cc hcon => Component.noConfusion hcon))
              (fun cc hcon => Component.noConfusion hcon)

/-- Every successful effect execution preserves duplicate-freedom of all
location membership lists and container slot item lists. -/
theorem exec_preserves_invNodup (templates : Option Templates) :
    ∀ (fuel : Nat) (ws : WorldState) (d : EffectData) (ctx : Context)
      (ws' : WorldState) (evs : List Event), InvNodup ws →
      exec templates fuel ws d ctx = .ok (ws', evs) → InvNodup ws' := by
  intro fuel
  induction fuel with
  | zero =>
    intro ws d ctx ws' evs hInv h
    exact Except.noConfusion h
  | succ f ih =>
    intro ws d ctx ws' evs hInv h
    rw [show (f + 1) = Nat.succ f from rfl, exec] at h
    by_cases h0 : d.effect = ""
    · rw [if_pos h0] at h
      injection h with h'
      injection h' with h1 h2
      rw [← h1]
      exact hInv
    rw [if_neg h0] at h
    by_cases h1 : d.effect = "ModifyProperty"
    · rw [if_pos h1] at h
      injection h with h'
      exact invNodup_execModifyProperty _ _ _ _ _ h' hInv
    rw [if_neg h1] at h
    by_cases h2 : d.effect = "CreateEntity"
    · rw [if_pos h2] at h
      exact invNodup_execCreateEntity _ _ _ _ _ _ h hInv
    rw [if_neg h2] at h
    by_cases h3 : d.effect = "DestroyEntity"
    · rw [if_pos h3] at h
      split at h
      · injection h with h'
        injection h' with ha hb
        rw [← ha]
        exact hInv
      · rename_i ent hres
        dsimp only at h
        split at h
        · exact Except.noConfusion h
        · rename_i ws1 evs1 heq
          injection h with h'
          injection h' with ha hb
          rw [← ha]
          exact invNodup_destroyStrip _ _ (invNodup_runMany _ ih _ _ _ _ hInv heq)
    rw [if_neg h3] at h
    by_cases h4 : d.effect = "TransferEntity"
    · rw [if_pos h4] at h
      exact invNodup_execTransferEntity _ _ _ _ _ h hInv
    rw [if_neg h4] at h
    by_cases h5 : d.effect = "AddCondition"
    · rw [if_pos h5] at h
      injection h with h'
      exact invNodup_execAddCondition _ _ _ _ _ h' hInv
    rw [if_neg h5] at h
    by_cases h6 : d.effect = "RemoveCondition"
    · rw [if_pos h6] at h
      injection h with h'
      exact invNodup_execRemoveCondition _ _ _ _ _ h' hInv
    rw [if_neg h6] at h
    by_cases h7 : d.effect = "ConsumeInputs"
    · rw [if_pos h7] at h
      exact invNodup_runMany _ ih _ _ _ _ hInv h
    rw [if_neg h7] at h
    by_cases h8 : d.effect = "CreateTask"
    · rw [if_pos h8] at h
      exact invNodup_execCreateTask _ _ _ _ _ h hInv
    rw [if_neg h8] at h
    by_cases h9 : d.effect = "ProgressTask"
    · rw [if_pos h9] at h
      injection h with h'
      exact invNodup_execProgressTask _ _ _ _ _ h' hInv
    rw [if_neg h9] at h
    by_cases h10 : d.effect = "UpdateTaskStatus"
    · rw [if_pos h10] at h
      injection h with h'
      exact invNodup_execUpdateTaskStatus _ _ _ _ _ h' hInv
    rw [if_neg h10] at h
    by_cases h11 : d.effect = "FinishTask"
    · rw [if_pos h11] at h
      split at h
      · injection h with h'
        injection h' with ha hb
        rw [← ha]
        exact hInv
      · rename_i task htask
        dsimp only at h
        split at h
        · exact Except.noConfusion h
        · rename_i ws1 evs1 heq
          injection h with h'
          exact invNodup_finishTaskCleanup _ _ _ _ _ _ h'
            (invNodup_runMany _ ih _ _ _ _ hInv heq)
    · rw [if_neg h11] at h
      injection h with h'
      injection h' with ha hb
      rw [← ha]
      exact hInv

/-- C1 counterexample: in the world the builder constructs from
`bundleA`, the apple is held in the chest's slot AND simultaneously
indexed in the room's membership list, refuting the claimed mutual
exclusivity of location membership and slot containment — and this is a
rest state, not an in-progress transfer. -/
theorem C1_counterexample_contained_also_location_indexed :
    buildWorldState bundleA tdb = .ok wsBuilt ∧
    ((wsBuilt.get_entity_by_id "chest_1").bind Entity.containerComp).map
      (fun cc => cc.has_item_id "apple_1") = some true ∧
    (wsBuilt.get_location_by_id "room").map
      (fun l => decide ("apple_1" ∈ l.entities_in_location)) = some true :=
  ⟨rfl, rfl, rfl⟩

/-- C1 (amended): the index discipline the code actually enforces is
duplicate-freedom of every index list — every location membership list
and every container slot item list stays duplicate-free across every
successful effect execution; entity ids held in a container slot may
deliberately also appear in the containing location's membership list. -/
theorem C1_amended_index_discipline (templates : Option Templates) (fuel : Nat)
    (ws : WorldState) (d : EffectData) (ctx : Context) (ws' : WorldState)
    (evs : List Event) (hInv : InvNodup ws)
    (h : exec templates fuel ws d ctx = .ok (ws', evs)) : InvNodup ws' :=
  exec_preserves_invNodup templates fuel ws d ctx ws' evs hInv h

/-- Witness for the amended C1 theorem: the fixture world satisfies the
discipline and a successful `CreateEntity` into the chest preserves it. -/
theorem C1_amended_witness : InvNodup wsC1 :=
  C1_amended_index_discipline (some tdb) 10 ws0 createEff ctx0 wsC1
    [.entityCreated "apple_1" "apple" true] ⟨by decide, by decide⟩ rfl

/-! ### C6 — cross-location transfer moves the entity and its descendants -/

theorem find?_map_locid_preserved (l : List Location) (g : Location → Location)
    (hg : ∀ x, (g x).location_id = x.location_id) (key : String) :
    (l.map g).find? (fun x => decide (x.location_id = key)) =
    (l.find? (fun x => decide (x.location_id = key))).map g := by
  induction l with
  | nil => rfl
  | cons a t ih =>
    simp only [List.map_cons]
    by_cases ha : a.location_id = key
    · rw [List.find?_cons_of_pos _ (by simp [hg, ha]), List.find?_cons_of_pos _ (by simp [ha])]
      rfl
    · rw [List.find?_cons_of_neg _ (by simp [hg, ha]), List.find?_cons_of_neg _ (by simp [ha])]
      exact ih

theorem get_location_by_id_updateLocation (ws : WorldState) (lid : String)
    (f : Location → Location)
    (hf : ∀ l, l.location_id = lid → (f l).location_id = l.location_id) (lid' : String) :
    (ws.updateLocation lid f).get_location_by_id lid' =
    (ws.get_location_by_id lid').map (fun l => if l.location_id = lid then f l else l) := by
  unfold WorldState.updateLocation WorldState.get_location_by_id
  exact find?_map_locid_preserved ws.locations _
    (fun x => by
      by_cases hx : x.location_id = lid
      · rw [if_pos hx]
        rw [hf x hx]
      · rw [if_neg hx]) lid'

theorem get_location_by_id_self (ws : WorldState) (lid : String) (l : Location)
    (h : ws.get_location_by_id lid = some l) : ws.get_location_by_id l.location_id = some l := by
  have hk : l.location_id = lid := by simpa using List.find?_some h
  rw [hk]
  exact h

theorem add_entity_id_lid (l : Location) (eid : String) (l2 : Location)
    (h : l.add_entity_id eid = some l2) : l2.location_id = l.location_id := by
  unfold Location.add_entity_id at h
  by_cases hm : eid ∈ l.entities_in_location
  · rw [if_pos hm] at h
    exact absurd h (by simp)
  · rw [if_neg hm] at h
    rw [← Option.some.inj h]

theorem resolveCoL_loc_lookup (ws : WorldState) (ctx : Context) (k : String) (L : Location)
    (h : resolveContainerOrLocationFromCtx ws ctx k = some (.loc L)) :
    ws.get_location_by_id L.location_id = some L := by
  unfold resolveContainerOrLocationFromCtx at h
  dsimp only at h
  cases hg : ws.get_entity_by_id (ctx.getStr (idKeyOf k)) with
  | none =>
    rw [hg] at h
    cases hl : ws.get_location_by_id (ctx.getStr (idKeyOf k)) with
    | none => rw [hl] at h; exact Option.noConfusion h
    | some l0 =>
      rw [hl] at h
      simp only [Option.map_some', Option.some.injEq] at h
      have hll : l0 = L := by injection h with h'
      exact get_location_by_id_self _ _ _ (hll ▸ hl)
  | some e0 =>
    rw [hg] at h
    dsimp only at h
    by_cases hic : e0.containerComp.isSome = true
    · rw [if_pos hic] at h
      injection h with h'
      exact RefNode.noConfusion h'
    · rw [if_neg hic] at h
      cases hl : ws.get_location_by_id (ctx.getStr (idKeyOf k)) with
      | none => rw [hl] at h; exact Option.noConfusion h
      | some l0 =>
        rw [hl] at h
        simp only [Option.map_some', Option.some.injEq] at h
        have hll : l0 = L := by injection h with h'
        exact get_location_by_id_self _ _ _ (hll ▸ hl)


theorem get_location_by_id_ensure_removed_ne (ws : WorldState) (j fl lid : String)
    (hne : lid ≠ fl) :
    (ws.ensure_entity_removed_from_location j fl).get_location_by_id lid =
    ws.get_location_by_id lid := by
  unfold WorldState.ensure_entity_removed_from_location
  cases hg : ws.get_location_by_id fl with
  | none => rfl
  | some l0 =>
    dsimp only
    rw [get_location_by_id_updateLocation ws fl
      (fun l => { l with entities_in_location := l.entities_in_location.erase j })
      (fun l _ => rfl) lid]
    cases hl : ws.get_location_by_id lid with
    | none => rfl
    | some l1 =>
      have hk : l1.location_id = lid := by simpa using List.find?_some hl
      simp only [Option.map_some']
      rw [if_neg (by rw [hk]; exact hne)]

theorem get_location_by_id_ensure_in_ne (ws : WorldState) (j tl lid : String)
    (hne : lid ≠ tl) :
    (ws.ensure_entity_in_location j tl).get_location_by_id lid =
    ws.get_location_by_id lid := by
  unfold WorldState.ensure_entity_in_location
  cases hg : ws.get_location_by_id tl with
  | none => rfl
  | some l0 =>
    dsimp only
    rw [get_location_by_id_updateLocation ws tl
      (fun l => if j ∈ l.entities_in_location then l
        else { l with entities_in_location := l.entities_in_location ++ [j] })
      (fun l _ => by dsimp only; split <;> rfl) lid]
    cases hl : ws.get_location_by_id lid with
    | none => rfl
    | some l1 =>
      have hk : l1.location_id = lid := by simpa using List.find?_some hl
      simp only [Option.map_some']
      rw [if_neg (by rw [hk]; exact hne)]

theorem isSome_ensure_removed (ws : WorldState) (j fl lid : String) :
    ((ws.ensure_entity_removed_from_location j fl).get_location_by_id lid).isSome =
    (ws.get_location_by_id lid).isSome := by
  unfold WorldState.ensure_entity_removed_from_location
  cases hg : ws.get_location_by_id fl with
  | none => rfl
  | some l0 =>
    dsimp only
    rw [get_location_by_id_updateLocation ws fl
      (fun l => { l with entities_in_location := l.entities_in_location.erase j })
      (fun l _ => rfl) lid]
    cases ws.get_location_by_id lid <;> rfl

theorem isSome_ensure_in (ws : WorldState) (j tl lid : String) :
    ((ws.ensure_entity_in_location j tl).get_location_by_id lid).isSome =
    (ws.get_location_by_id lid).isSome := by
  unfold WorldState.ensure_entity_in_location
  cases hg : ws.get_location_by_id tl with
  | none => rfl
  | some l0 =>
    dsimp only
    rw [get_location_by_id_updateLocation ws tl
      (fun l => if j ∈ l.entities_in_location then l
        else { l with entities_in_location := l.entities_in_location ++ [j] })
      (fun l _ => by dsimp only; split <;> rfl) lid]
    cases ws.get_location_by_id lid <;> rfl

theorem locMemTrue_ensure_in_self (ws : WorldState) (i tl : String)
    (h : (ws.get_location_by_id tl).isSome = true) :
    ((ws.ensure_entity_in_location i tl).get_location_by_id tl).map
      (fun l => decide (i ∈ l.entities_in_location)) = some true := by
  unfold WorldState.ensure_entity_in_location
  cases hg : ws.get_location_by_id tl with
  | none => rw [hg] at h; exact Bool.noConfusion h
  | some l0 =>
    dsimp only
    rw [get_location_by_id_updateLocation ws tl
      (fun l => if i ∈ l.entities_in_location then l
        else { l with entities_in_location := l.entities_in_location ++ [i] })
      (fun l _ => by dsimp only; split <;> rfl) tl, hg]
    have hk : l0.location_id = tl := by simpa using List.find?_some hg
    simp only [Option.map_some']
    rw [if_pos hk]
    by_cases hm : i ∈ l0.entities_in_location
    · rw [if_pos hm]
      simp [hm]
    · rw [if_neg hm]
      simp

theorem locMemTrue_ensure_in_pres (ws : WorldState) (i j tl : String)
    (h : (ws.get_location_by_id tl).map
      (fun l => decide (i ∈ l.entities_in_location)) = some true) :
    ((ws.ensure_entity_in_location j tl).get_location_by_id tl).map
      (fun l => decide (i ∈ l.entities_in_location)) = some true := by
  unfold WorldState.ensure_entity_in_location
  cases hg : ws.get_location_by_id tl with
  | none => rw [hg] at h; exact Option.noConfusion h
  | some l0 =>
    rw [hg] at h
    simp only [Option.map_some', Option.some.injEq, decide_eq_true_eq] at h
    dsimp only
    rw [get_location_by_id_updateLocation ws tl
      (fun l => if j ∈ l.entities_in_location then l
        else { l with entities_in_location := l.entities_in_location ++ [j] })
      (fun l _ => by dsimp only; split <;> rfl) tl, hg]
    have hk : l0.location_id = tl := by simpa using List.find?_some hg
    simp only [Option.map_some']
    rw [if_pos hk]
    by_cases hm : j ∈ l0.entities_in_location
    · rw [if_pos hm]
      simp [h]
    · rw [if_neg hm]
      simp [h]

theorem locMemFalse_ensure_removed_self (ws : WorldState) (i fl : String)
    (hS : (ws.get_location_by_id fl).isSome = true)
    (hInv : InvNodup ws) :
    ((ws.ensure_entity_removed_from_location i fl).get_location_by_id fl).map
      (fun l => decide (i ∈ l.entities_in_location)) = some false := by
  unfold WorldState.ensure_entity_removed_from_location
  cases hg : ws.get_location_by_id fl with
  | none => rw [hg] at hS; exact Bool.noConfusion hS
  | some l0 =>
    dsimp only
    rw [get_location_by_id_updateLocation ws fl
      (fun l => { l with entities_in_location := l.entities_in_location.erase i })
      (fun l _ => rfl) fl, hg]
    have hk : l0.location_id = fl := by simpa using List.find?_some hg
    simp only [Option.map_some']
    rw [if_pos hk]
    have hnd := hInv.1 l0 (get_location_by_id_mem _ _ _ hg)
    simp [List.Nodup.not_mem_erase hnd]

theorem locMemFalse_ensure_removed_pres (ws : WorldState) (i j fl : String)
    (h : (ws.get_location_by_id fl).map
      (fun l => decide (i ∈ l.entities_in_location)) = some false) :
    ((ws.ensure_entity_removed_from_location j fl).get_location_by_id fl).map
      (fun l => decide (i ∈ l.entities_in_location)) = some false := by
  unfold WorldState.ensure_entity_removed_from_location
  cases hg : ws.get_location_by_id fl with
  | none => rw [hg] at h; exact Option.noConfusion h
  | some l0 =>
    rw [hg] at h
    simp only [Option.map_some', Option.some.injEq, decide_eq_false_iff_not] at h
    dsimp only
    rw [get_location_by_id_updateLocation ws fl
      (fun l => { l with entities_in_location := l.entities_in_location.erase j })
      (fun l _ => rfl) fl, hg]
    have hk : l0.location_id = fl := by simpa using List.find?_some hg
    simp only [Option.map_some']
    rw [if_pos hk]
    simp only [Option.some.injEq, decide_eq_false_iff_not]
    intro hmem
    exact h (List.mem_of_mem_erase hmem)

theorem move_pres_true (ids : List String) (fl tl : String) (hne : fl ≠ tl) :
    ∀ (ws : WorldState) (i : String),
      (ws.get_location_by_id tl).map (fun l => decide (i ∈ l.entities_in_location)) =
        some true →
      ((ws.move_ids_between_locations ids fl tl).get_location_by_id tl).map
        (fun l => decide (i ∈ l.entities_in_location)) = some true := by
  induction ids with
  | nil => intro ws i h; exact h
  | cons a rest ih =>
    intro ws i h
    refine ih ((ws.ensure_entity_removed_from_location a fl).ensure_entity_in_location a tl)
      i ?_
    refine locMemTrue_ensure_in_pres _ i a tl ?_
    rw [get_location_by_id_ensure_removed_ne _ a fl tl (Ne.symm hne)]
    exact h

theorem move_pres_false (ids : List String) (fl tl : String) (hne : fl ≠ tl) :
    ∀ (ws : WorldState) (i : String),
      (ws.get_location_by_id fl).map (fun l => decide (i ∈ l.entities_in_location)) =
        some false →
      ((ws.move_ids_between_locations ids fl tl).get_location_by_id fl).map
        (fun l => decide (i ∈ l.entities_in_location)) = some false := by
  induction ids with
  | nil => intro ws i h; exact h
  | cons a rest ih =>
    intro ws i h
    refine ih ((ws.ensure_entity_removed_from_location a fl).ensure_entity_in_location a tl)
      i ?_
    rw [get_location_by_id_ensure_in_ne _ a tl fl hne]
    exact locMemFalse_ensure_removed_pres ws i a fl h

/-- `move_ids_between_locations` between two distinct existing locations
leaves every moved id present in the destination list and absent from the
source list. -/
theorem move_ids_mem_spec (ids : List String) (fl tl : String) (hne : fl ≠ tl) :
    ∀ (ws : WorldState), InvNodup ws →
      (ws.get_location_by_id fl).isSome = true →
      (ws.get_location_by_id tl).isSome = true →
      ∀ i ∈ ids,
        ((ws.move_ids_between_locations ids fl tl).get_location_by_id tl).map
          (fun l => decide (i ∈ l.entities_in_location)) = some true ∧
        ((ws.move_ids_between_locations ids fl tl).get_location_by_id fl).map
          (fun l => decide (i ∈ l.entities_in_location)) = some false := by
  induction ids with
  | nil =>
    intro ws _ _ _ i hi
    exact absurd hi (by simp)
  | cons a rest ih =>
    intro ws hInv hfl htl i hi
    have hInv1 : InvNodup
        ((ws.ensure_entity_removed_from_location a fl).ensure_entity_in_location a tl) :=
      invNodup_ensure_in _ _ _ (invNodup_ensure_removed _ _ _ hInv)
    have hfl1 : (((ws.ensure_entity_removed_from_location a fl).ensure_entity_in_location
        a tl).get_location_by_id fl).isSome = true := by
      rw [isSome_ensure_in, isSome_ensure_removed]
      exact hfl
    have htl1 : (((ws.ensure_entity_removed_from_location a fl).ensure_entity_in_location
        a tl).get_location_by_id tl).isSome = true := by
      rw [isSome_ensure_in, isSome_ensure_removed]
      exact htl
    rcases List.mem_cons.mp hi with hia | hrest
    · constructor
      · refine move_pres_true rest fl tl hne _ i ?_
        rw [hia]
        refine locMemTrue_ensure_in_self _ a tl ?_
        rw [isSome_ensure_removed]
        exact htl
      · refine move_pres_false rest fl tl hne _ i ?_
        rw [hia, get_location_by_id_ensure_in_ne _ a tl fl hne]
        exact locMemFalse_ensure_removed_self ws a fl hfl hInv
    · exact ih _ hInv1 hfl1 htl1 i hrest

/-- C6: a successful cross-location `TransferEntity` from location LS to
location LD moves the entity and every recursively contained descendant
into LD's membership list and out of LS's. -/
theorem C6_cross_location_transfer_moves_descendants (templates : Option Templates)
    (f : Nat) (ws ws1 ws2 : WorldState) (d : EffectData) (ctx : Context) (etm : Entity)
    (LS LD LDcur LD2 : Location) (cc : ContainerComponent) (ds : List String)
    (hInv : InvNodup ws)
    (hTag : d.effect = "TransferEntity")
    (hE : resolveEntityFromCtx ws ctx "entity_id" = some etm)
    (hS : resolveContainerOrLocationFromCtx ws ctx "source_id" = some (.loc LS))
    (hD : resolveContainerOrLocationFromCtx ws ctx "destination_id" = some (.loc LD))
    (hneq : LS.location_id ≠ LD.location_id)
    (hws1 : ws1 = ws.updateLocation LS.location_id
      (fun l0 => l0.remove_entity_id etm.entity_id))
    (hLDcur : ws1.get_location_by_id LD.location_id = some LDcur)
    (hAdd : LDcur.add_entity_id etm.entity_id = some LD2)
    (hws2 : ws2 = ws1.updateLocation LD.location_id (fun _ => LD2))
    (hCC : (ws2.get_entity_by_id etm.entity_id).bind Entity.containerComp = some cc)
    (hColl : ws2.collect_descendant_item_ids etm.entity_id = some ds) :
    exec templates (f + 1) ws d ctx =
      .ok (ws2.move_ids_between_locations ([etm.entity_id] ++ ds) LS.location_id
        LD.location_id, [.entityTransferred etm.entity_id]) ∧
    ∀ i ∈ [etm.entity_id] ++ ds,
      ((ws2.move_ids_between_locations ([etm.entity_id] ++ ds) LS.location_id
        LD.location_id).get_location_by_id LD.location_id).map
        (fun l => decide (i ∈ l.entities_in_location)) = some true ∧
      ((ws2.move_ids_between_locations ([etm.entity_id] ++ ds) LS.location_id
        LD.location_id).get_location_by_id LS.location_id).map
        (fun l => decide (i ∈ l.entities_in_location)) = some false := by
  have hLDcurId : LDcur.location_id = LD.location_id := by
    simpa using List.find?_some hLDcur
  have hLD2Id : LD2.location_id = LD.location_id := by
    rw [add_entity_id_lid LDcur _ LD2 hAdd, hLDcurId]
  have hfLD : ∀ l : Location, l.location_id = LD.location_id →
      ((fun _ : Location => LD2) l).location_id = l.location_id := by
    intro l hl
    dsimp only
    rw [hLD2Id, hl]
  refine ⟨?_, ?_⟩
  · rw [show (f + 1) = Nat.succ f from rfl, exec, hTag]
    simp only [String.reduceEq, reduceIte]
    unfold execTransferEntity
    rw [hE, hS, hD]
    dsimp only
    rw [show refNodeLoc ws (RefNode.loc LS) = some LS from rfl,
        show refNodeLoc ws (RefNode.loc LD) = some LD from rfl]
    dsimp only
    rw [show (LS.location_id != LD.location_id) = true from bne_iff_ne.mpr hneq]
    rw [if_pos rfl]
    dsimp only
    rw [← hws1]
    have hAddD : transferAddToDest ws1 (RefNode.loc LD) etm (some LD) = (ws2, true) := by
      unfold transferAddToDest
      dsimp only
      rw [hLDcur]
      dsimp only
      rw [hAdd]
      dsimp only
      rw [hws2]
    rw [hAddD]
    dsimp only
    rw [if_neg (by decide)]
    have hCas : transferCascade ws2 etm.entity_id true (some LS) (some LD) =
        .ok (ws2.move_ids_between_locations ([etm.entity_id] ++ ds) LS.location_id
          LD.location_id) := by
      unfold transferCascade
      rw [if_pos rfl]
      dsimp only
      rw [hCC]
      dsimp only
      rw [hColl]
    rw [hCas]
  · have hLS0 : ws.get_location_by_id LS.location_id = some LS :=
      resolveCoL_loc_lookup _ _ _ _ hS
    have hInv1 : InvNodup ws1 := by
      rw [hws1]
      exact invNodup_updateLocation _ _ _ hInv (fun l0 hl0 => hl0.erase _)
    have hInv2 : InvNodup ws2 := by
      rw [hws2]
      refine invNodup_updateLocation _ _ _ hInv1 ?_
      intro l0 hl0
      exact add_entity_id_nodup LDcur _ LD2 hAdd
        (hInv1.1 LDcur (get_location_by_id_mem _ _ _ hLDcur))
    have hfl2 : (ws2.get_location_by_id LS.location_id).isSome = true := by
      rw [hws2, get_location_by_id_updateLocation ws1 LD.location_id (fun _ => LD2)
        hfLD LS.location_id]
      rw [hws1, get_location_by_id_updateLocation ws LS.location_id
        (fun l0 => l0.remove_entity_id etm.entity_id) (fun l _ => rfl) LS.location_id, hLS0]
      simp
    have htl2 : (ws2.get_location_by_id LD.location_id).isSome = true := by
      rw [hws2, get_location_by_id_updateLocation ws1 LD.location_id (fun _ => LD2)
        hfLD LD.location_id, hLDcur]
      simp
    exact fun i hi => move_ids_mem_spec _ _ _ hneq ws2 hInv2 hfl2 htl2 i hi

/-- Witness for the C6 theorem: moving the box (holding the apple) from
roomX to roomY places both ids in roomY's list and removes them from
roomX's. -/
theorem C6_witness :
    exec (some tdb) 10 wsM transferEff ctxM = .ok (wsM3, [.entityTransferred "box_1"]) ∧
    (wsM3.get_location_by_id "roomY").map
      (fun l => decide ("apple_1" ∈ l.entities_in_location)) = some true ∧
    (wsM3.get_location_by_id "roomX").map
      (fun l => decide ("apple_1" ∈ l.entities_in_location)) = some false := by
  have h := C6_cross_location_transfer_moves_descendants (some tdb) 9 wsM wsM1 wsM2
    transferEff ctxM boxE roomX roomY roomY roomY2 boxCC ["apple_1"]
    ⟨by decide, by decide⟩ rfl rfl rfl rfl (by decide) rfl rfl rfl rfl rfl rfl
  exact ⟨h.1, (h.2 "apple_1" (by simp)).1, (h.2 "apple_1" (by simp)).2⟩

/-! ### C7 — first-match recipe lookup and task deferral -/

theorem find?_first {α} (p : α → Bool) : ∀ (l : List α) (a : α), l.find? p = some a →
    ∃ pre post, l = pre ++ a :: post ∧ p a = true ∧ ∀ x ∈ pre, p x = false := by
  intro l
  induction l with
  | nil =>
    intro a h
    exact absurd h (by simp)
  | cons b t ih =>
    intro a h
    by_cases hb : p b
    · rw [List.find?_cons_of_pos _ hb] at h
      injection h with h'
      exact ⟨[], t, by rw [h']; rfl, by rw [← h']; exact hb, by simp⟩
    · rw [List.find?_cons_of_neg _ hb] at h
      rcases ih a h with ⟨pre, post, hl, hpa, hpre⟩
      refine ⟨b :: pre, post, by rw [hl]; rfl, hpa, ?_⟩
      intro x hx
      rcases List.mem_cons.mp hx with hxb | hx2
      · rw [hxb]
        simpa using hb
      · exact hpre x hx2

/-- Under the spec's presumption that a recipe declares at most one
`parameter_match` key, the source's loop condition and the spec predicate
agree. -/
theorem recipeMatches_iff_spec (verb : String) (target : Entity)
    (params : List (String × String)) (r : Recipe)
    (hSingle : ∀ l, r.parameter_match = some l → l.length ≤ 1) :
    recipeMatches verb target params r = true ↔
      specRecipeMatches verb target params r := by
  unfold recipeMatches specRecipeMatches
  constructor
  · intro h
    simp only [Bool.and_eq_true, beq_iff_eq, List.all_eq_true] at h
    obtain ⟨⟨hv, ht⟩, hp⟩ := h
    refine ⟨hv, fun t ht2 => ht t ht2, ?_⟩
    intro k v hkv
    rw [hkv] at hp
    simpa using hp
  · intro h
    obtain ⟨hv, ht, hp⟩ := h
    simp only [Bool.and_eq_true, beq_iff_eq, List.all_eq_true]
    refine ⟨⟨hv, fun t ht2 => ht t ht2⟩, ?_⟩
    cases hpm : r.parameter_match with
    | none => rfl
    | some l =>
      cases l with
      | nil => rfl
      | cons kv rest =>
        obtain ⟨k, v⟩ := kv
        cases rest with
        | cons kv2 rest2 =>
          have := hSingle ((k, v) :: kv2 :: rest2) hpm
          simp at this
        | nil =>
          dsimp only
          have := hp k v hpm
          simpa using this

/-- C7: the matcher returns the first recipe of the table (insertion
order) satisfying the spec's matching conditions, and a matched recipe
with nonzero `required_progress` makes `process_command` emit exactly one
`CreateTask` effect instead of expanding the outputs. -/
theorem C7_first_match_and_task_deferral (db : RecipeDb) (ws : WorldState)
    (agent_id : String) (cmd : Action) (target : Entity) (r : Recipe)
    (hSingle : ∀ pr ∈ db, ∀ l, (pr : String × Recipe).2.parameter_match = some l →
      l.length ≤ 1)
    (hT : ws.get_entity_by_id cmd.target_id = some target)
    (hF : findMatchingRecipe db cmd.verb target cmd.parameters = some r) :
    (∃ pre pr post, db = pre ++ pr :: post ∧ r = { pr.2 with id := pr.1 } ∧
      specRecipeMatches cmd.verb target cmd.parameters pr.2 ∧
      ∀ q ∈ pre, ¬ specRecipeMatches cmd.verb target cmd.parameters q.2) ∧
    ((r.process.bind ProcessData.required_progress).getD 0 ≠ 0 →
      processCommand db ws agent_id cmd =
        { status := "success", effects := [{ effect := "CreateTask" }],
          context := some { strs := [("agent_id", agent_id), ("target_id", cmd.target_id)],
                            recipe := some r } }) := by
  constructor
  · unfold findMatchingRecipe at hF
    cases hfd : db.find? (fun p => recipeMatches cmd.verb target cmd.parameters p.2) with
    | none =>
      rw [hfd] at hF
      exact Option.noConfusion hF
    | some pr =>
      rw [hfd] at hF
      simp only [Option.map_some', Option.some.injEq] at hF
      rcases find?_first _ db pr hfd with ⟨pre, post, hdb, hpr, hpre⟩
      refine ⟨pre, pr, post, hdb, hF.symm, ?_, ?_⟩
      · exact (recipeMatches_iff_spec _ _ _ _
          (fun l hl => hSingle pr (by rw [hdb]; simp) l hl)).mp hpr
      · intro q hq hspec
        have hq2 : q ∈ db := by
          rw [hdb]
          exact List.mem_append.mpr (Or.inl hq)
        have := (recipeMatches_iff_spec _ _ _ _
          (fun l hl => hSingle q hq2 l hl)).mpr hspec
        rw [hpre q hq] at this
        exact Bool.noConfusion this
  · intro hrp
    unfold processCommand
    rw [hT]
    dsimp only
    rw [hF]
    dsimp only
    rw [if_pos hrp]

/-- Witness for the C7 theorem: the "eat" command on the apple skips the
non-matching first recipe, matches the second, and defers to a
`CreateTask` effect because its required progress is 5. -/
theorem C7_witness :
    findMatchingRecipe rdbW "eat" appleF [] = some { recEat with id := "r2" } ∧
    processCommand rdbW wsT "bob" cmdEat =
      { status := "success", effects := [{ effect := "CreateTask" }],
        context := some { strs := [("agent_id", "bob"), ("target_id", "apple_1")],
                          recipe := some { recEat with id := "r2" } } } := by
  refine ⟨rfl, ?_⟩
  have h := C7_first_match_and_task_deferral rdbW wsT "bob" cmdEat appleF
    { recEat with id := "r2" }
    (by intro pr hpr l hl
        rcases List.mem_cons.mp hpr with h1 | h2
        · rw [h1] at hl
          exact Option.noConfusion hl
        · rcases List.mem_cons.mp h2 with h3 | h4
          · rw [h3] at hl
            exact Option.noConfusion hl
          · simp at h4)
    rfl rfl
  exact h.2 (by decide)

/-! ### C8 — pause before decide -/

theorem find?_map_taskid_preserved (l : List Task) (g : Task → Task)
    (hg : ∀ x, (g x).task_id = x.task_id) (key : String) :
    (l.map g).find? (fun x => decide (x.task_id = key)) =
    (l.find? (fun x => decide (x.task_id = key))).map g := by
  induction l with
  | nil => rfl
  | cons a t ih =>
    simp only [List.map_cons]
    by_cases ha : a.task_id = key
    · rw [List.find?_cons_of_pos _ (by simp [hg, ha]), List.find?_cons_of_pos _ (by simp [ha])]
      rfl
    · rw [List.find?_cons_of_neg _ (by simp [hg, ha]), List.find?_cons_of_neg _ (by simp [ha])]
      exact ih

theorem get_task_by_id_updateTask_self (ws : WorldState) (tid : String) (f : Task → Task)
    (hf : ∀ t, (f t).task_id = t.task_id) :
    (ws.updateTask tid f).get_task_by_id tid = (ws.get_task_by_id tid).map f := by
  unfold WorldState.updateTask WorldState.get_task_by_id
  rw [find?_map_taskid_preserved ws.tasks
    (fun t => if t.task_id = tid then f t else t)
    (fun t => by
      dsimp only
      by_cases ht : t.task_id = tid
      · rw [if_pos ht]
        exact hf t
      · rw [if_neg ht]) tid]
  cases hfd : ws.tasks.find? (fun x => decide (x.task_id = tid)) with
  | none => rfl
  | some t0 =>
    have hk : t0.task_id = tid := by simpa using List.find?_some hfd
    simp only [Option.map_some']
    rw [if_pos hk]

/-- Every provider observation recorded by the action loop sees a world
in which the agent's worker holds no current task (the loop only invokes
the provider under that guard). -/
theorem agentActionsLoop_trace_no_task (svc : SimServices) (fuel : Nat)
    (provider : ActionProvider) (ruleset : List InterruptRule) (aid : String) :
    ∀ (ofuel : Nat) (ws : WorldState) (events : List Event) (trace : List ProviderCall)
      (n : Nat),
      (∀ c ∈ trace, workerCurrentTaskId c.ws aid = "") →
      ∀ c ∈ (agentActionsLoop svc fuel provider ruleset aid ofuel ws events trace n).1,
        workerCurrentTaskId c.ws aid = "" := by
  intro ofuel
  induction ofuel with
  | zero =>
    intro ws events trace n htr c hc
    exact htr c hc
  | succ o ih =>
    intro ws events trace n htr c hc
    rw [show (o + 1) = Nat.succ o from rfl, agentActionsLoop] at hc
    by_cases hwt : workerCurrentTaskId ws aid ≠ ""
    · rw [if_pos hwt] at hc
      exact htr c hc
    · rw [if_neg hwt] at hc
      have hw0 : workerCurrentTaskId ws aid = "" := not_ne_iff.mp hwt
      try dsimp only at hc
      by_cases hib : (!(checkIfInterruptIsNeeded ruleset ws aid).interrupt) = true
      · rw [if_pos hib] at hc
        exact htr c hc
      · rw [if_neg hib] at hc
        try dsimp only at hc
        split at hc
        · try dsimp only at hc
          rcases List.mem_append.mp hc with h1 | h2
          · exact htr c h1
          · rw [List.mem_singleton.mp h2]
            exact hw0
        · rename_i actions hcp
          by_cases hae : actions = []
          · rw [if_pos hae] at hc
            try dsimp only at hc
            rcases List.mem_append.mp hc with h1 | h2
            · exact htr c h1
            · rw [List.mem_singleton.mp h2]
              exact hw0
          · rw [if_neg hae] at hc
            try dsimp only at hc
            split at hc
            · try dsimp only at hc
              rcases List.mem_append.mp hc with h1 | h2
              · exact htr c h1
              · rw [List.mem_singleton.mp h2]
                exact hw0
            · try dsimp only at hc
              rcases List.mem_append.mp hc with h1 | h2
              · exact htr c h1
              · rw [List.mem_singleton.mp h2]
                exact hw0
            · rename_i ws2 events2 n2 heq2
              refine ih ws2 events2 _ n2 ?_ c hc
              intro c' hc'
              rcases List.mem_append.mp hc' with h1 | h2
              · exact htr c' h1
              · rw [List.mem_singleton.mp h2]
                exact hw0

/-- The first observation the loop ever records is made in the state the
loop was entered with. -/
theorem agentActionsLoop_first_obs (svc : SimServices) (fuel : Nat)
    (provider : ActionProvider) (ruleset : List InterruptRule) (aid : String) :
    ∀ (ofuel : Nat) (ws : WorldState) (events : List Event) (trace : List ProviderCall)
      (n : Nat) (c0 : ProviderCall),
      (agentActionsLoop svc fuel provider ruleset aid ofuel ws events trace n).1.head? =
        some c0 →
      trace.head? = some c0 ∨ (trace = [] ∧ c0.ws = ws) := by
  intro ofuel
  induction ofuel with
  | zero =>
    intro ws events trace n c0 hc
    exact Or.inl hc
  | succ o ih =>
    intro ws events trace n c0 hc
    rw [show (o + 1) = Nat.succ o from rfl, agentActionsLoop] at hc
    by_cases hwt : workerCurrentTaskId ws aid ≠ ""
    · rw [if_pos hwt] at hc
      exact Or.inl hc
    · rw [if_neg hwt] at hc
      try dsimp only at hc
      by_cases hib : (!(checkIfInterruptIsNeeded ruleset ws aid).interrupt) = true
      · rw [if_pos hib] at hc
        exact Or.inl hc
      · rw [if_neg hib] at hc
        try dsimp only at hc
        split at hc
        · try dsimp only at hc
          cases trace with
          | nil =>
            simp only [List.nil_append, List.head?_cons, Option.some.injEq] at hc
            exact Or.inr ⟨rfl, by rw [← hc]⟩
          | cons t0 ts =>
            simp only [List.cons_append, List.head?_cons] at hc
            exact Or.inl (by simpa using hc)
        · rename_i actions hcp
          by_cases hae : actions = []
          · rw [if_pos hae] at hc
            try dsimp only at hc
            cases trace with
            | nil =>
              simp only [List.nil_append, List.head?_cons, Option.some.injEq] at hc
              exact Or.inr ⟨rfl, by rw [← hc]⟩
            | cons t0 ts =>
              simp only [List.cons_append, List.head?_cons] at hc
              exact Or.inl (by simpa using hc)
          · rw [if_neg hae] at hc
            try dsimp only at hc
            split at hc
            · try dsimp only at hc
              cases trace with
              | nil =>
                simp only [List.nil_append, List.head?_cons, Option.some.injEq] at hc
                exact Or.inr ⟨rfl, by rw [← hc]⟩
              | cons t0 ts =>
                simp only [List.cons_append, List.head?_cons] at hc
                exact Or.inl (by simpa using hc)
            · try dsimp only at hc
              cases trace with
              | nil =>
                simp only [List.nil_append, List.head?_cons, Option.some.injEq] at hc
                exact Or.inr ⟨rfl, by rw [← hc]⟩
              | cons t0 ts =>
                simp only [List.cons_append, List.head?_cons] at hc
                exact Or.inl (by simpa using hc)
            · rename_i ws2 events2 n2 heq2
              rcases ih ws2 events2 _ n2 c0 hc with h1 | h2
              · cases trace with
                | nil =>
                  simp only [List.nil_append, List.head?_cons, Option.some.injEq] at h1
                  exact Or.inr ⟨rfl, by rw [← h1]⟩
                | cons t0 ts =>
                  simp only [List.cons_append, List.head?_cons] at h1
                  exact Or.inl (by simpa using h1)
              · exact absurd h2.1 (by simp)

/-- C8: when the arbiter fires for an agent whose worker holds an active,
registered task, the task is set to Paused and the worker pointer cleared
strictly before any provider decide call: every recorded provider
observation sees an empty current task, and the first observation is made
in the prologue's post-pause state, where the task's status is Paused. -/
theorem C8_pause_before_decide (svc : SimServices) (f : Nat) (ws wsP : WorldState)
    (events : List Event) (eid tid provider_id : String) (t : Task) (agent : Entity)
    (ruleset : List InterruptRule) (provider : ActionProvider)
    (hA : ws.get_entity_by_id eid = some agent)
    (hArb : agent.get_component "DecisionArbiterComponent" = some (.arbiter ruleset))
    (hInt : (checkIfInterruptIsNeeded ruleset ws eid).interrupt = true)
    (hW : agent.get_component "WorkerComponent" = some (.worker tid))
    (htid : tid ≠ "")
    (hTask : ws.get_task_by_id tid = some t)
    (hpid : pyStrip provider_id = "")
    (hdp : svc.default_provider = some provider)
    (hwsP : wsP = (setWorkerTask
        ((ws.updateTask tid (fun t0 => { t0 with task_status := "Paused" })).record_event
          (.taskStatusChanged t.task_id t.task_status "Paused")
          { strs := [("agent_id", eid), ("task_id", tid)] }) eid "").record_event
        (.taskInterrupted tid (checkIfInterruptIsNeeded ruleset ws eid).reason)
        { strs := [("actor_id", eid)] }) :
    (∀ c ∈ (agentControlPerTick svc (f + 1) true provider_id ws events eid).1,
      workerCurrentTaskId c.ws eid = "") ∧
    (∀ c0 rest,
      (agentControlPerTick svc (f + 1) true provider_id ws events eid).1 = c0 :: rest →
      c0.ws = wsP ∧ (c0.ws.get_task_by_id tid).map Task.task_status = some "Paused") := by
  have hexec : exec svc.templates (f + 1) ws
      { effect := "UpdateTaskStatus", task_id := tid, status := "Paused" }
      { strs := [("agent_id", eid), ("task_id", tid)] } =
      .ok (ws.updateTask tid (fun t0 => { t0 with task_status := "Paused" }),
        [.taskStatusChanged t.task_id t.task_status "Paused"]) := by
    rw [show (f + 1) = Nat.succ f from rfl, exec]
    try dsimp only
    simp only [String.reduceEq, reduceIte]
    unfold execUpdateTaskStatus
    try dsimp only
    rw [if_pos htid]
    rw [show pyStrip "Paused" = "Paused" from rfl]
    rw [hTask]
  have hwrap : executeWrapper svc.templates (f + 1) ws events
      { effect := "UpdateTaskStatus", task_id := tid, status := "Paused" }
      { strs := [("agent_id", eid), ("task_id", tid)] } =
      .ok ((ws.updateTask tid (fun t0 => { t0 with task_status := "Paused" })).record_event
        (.taskStatusChanged t.task_id t.task_status "Paused")
        { strs := [("agent_id", eid), ("task_id", tid)] },
        events ++ [.taskStatusChanged t.task_id t.task_status "Paused"]) := by
    unfold executeWrapper
    rw [hexec]
    rfl
  have hred : agentControlPerTick svc (f + 1) true provider_id ws events eid =
      agentActionsLoop svc (f + 1) provider ruleset eid (maxActionsInTick + 2) wsP
        (events ++ [.taskStatusChanged t.task_id t.task_status "Paused"]) [] 0 := by
    unfold agentControlPerTick
    rw [if_neg (by decide)]
    rw [hA]
    try dsimp only
    rw [hArb]
    try dsimp only
    rw [hInt]
    rw [if_neg (by decide)]
    try dsimp only
    rw [hW]
    try dsimp only
    rw [if_pos ⟨rfl, htid⟩]
    try dsimp only
    rw [hTask]
    try dsimp only
    rw [hwrap]
    try dsimp only
    rw [hpid]
    rw [if_pos rfl]
    rw [hdp]
    simp only [bind, Except.bind, pure, Except.pure]
    try dsimp only
    rw [← hwsP]
  constructor
  · intro c hc
    rw [hred] at hc
    exact agentActionsLoop_trace_no_task svc (f + 1) provider ruleset eid
      (maxActionsInTick + 2) wsP _ [] 0 (by intro c' hc'; simp at hc') c hc
  · intro c0 rest hc
    rw [hred] at hc
    have hh : (agentActionsLoop svc (f + 1) provider ruleset eid (maxActionsInTick + 2) wsP
        (events ++ [.taskStatusChanged t.task_id t.task_status "Paused"]) [] 0).1.head? =
        some c0 := by
      rw [hc]
      rfl
    rcases agentActionsLoop_first_obs svc (f + 1) provider ruleset eid
      (maxActionsInTick + 2) wsP _ [] 0 c0 hh with h1 | h2
    · exact absurd h1 (by simp)
    · refine ⟨h2.2, ?_⟩
      rw [h2.2, hwsP]
      show ((ws.updateTask tid (fun t0 => { t0 with task_status := "Paused" })).get_task_by_id
        tid).map Task.task_status = some "Paused"
      rw [get_task_by_id_updateTask_self ws tid
        (fun t0 => { t0 with task_status := "Paused" }) (fun t0 => rfl), hTask]
      rfl

/-- Witness for the C8 theorem: the nutrition-40 agent with an in-progress
task yields exactly one provider observation, made with an empty worker
pointer and the task already Paused. -/
theorem C8_witness :
    c0C8.ws.get_task_by_id "t1" = some { taskT1 with task_status := "Paused" } ∧
    (c0C8.ws.get_task_by_id "t1").map Task.task_status = some "Paused" ∧
    workerCurrentTaskId c0C8.ws "bob" = "" := by
  have h := C8_pause_before_decide (svcS emptyProvider) 19 wsS
    ((setWorkerTask
      ((wsS.updateTask "t1" (fun t0 => { t0 with task_status := "Paused" })).record_event
        (.taskStatusChanged "t1" "InProgress" "Paused")
        { strs := [("agent_id", "bob"), ("task_id", "t1")] }) "bob" "").record_event
      (.taskInterrupted "t1"
        (checkIfInterruptIsNeeded [.lowNutrition 10 50, .idle 999] wsS "bob").reason)
      { strs := [("actor_id", "bob")] })
    [] "bob" "t1" "" taskT1 agentE [.lowNutrition 10 50, .idle 999] emptyProvider
    rfl rfl rfl rfl (by decide) rfl rfl rfl rfl
  have h2 := h.2 c0C8 [] rfl
  refine ⟨?_, h2.2, h.1 c0C8 ?_⟩
  · rw [h2.1]
    rfl
  · rw [show (agentControlPerTick (svcS emptyProvider) (19 + 1) true "" wsS [] "bob").1 =
      [c0C8] from rfl]
    exact List.mem_singleton.mpr rfl

/-! ### C4 — provider exceptions and the tick -/

/-- C4 counterexample: with two agents pending and a provider that raises
a non-TypeError exception, bob's decide call aborts the whole step — the
trace shows only bob's call, the step returns the provider error, and eve
(also present in the world) is never asked to decide. -/
theorem C4_counterexample_provider_exception_aborts_tick :
    (step (svcS raisingProvider) 20 1 wsS2).1.map ProviderCall.agent_id = ["bob"] ∧
    (step (svcS raisingProvider) 20 1 wsS2).2 = .error (.providerErr .otherExc) ∧
    "eve" ∈ wsS2.entities.map Entity.entity_id := by
  exact ⟨rfl, rfl, by decide⟩

/-- C4 (amended): only a TypeError from the provider's 3-argument decide
is caught (it triggers the 2-argument retry); any other provider
exception propagates out of the actor's action loop as a tick error, and
an erroring per-entity hook aborts the remainder of the scheduler's step:
entities after the failing one are not processed. -/
theorem C4_amended_provider_exception_discipline (svc : SimServices) (fuel : Nat)
    (provider : ActionProvider) (ruleset : List InterruptRule) (aid : String) :
    (∀ (perc : Perception) (r : String) (e : PyExc), e ≠ .typeError →
      provider.decide3 perc r aid = .error e →
      callProvider provider perc r aid = .error e) ∧
    (∀ (perc : Perception) (r : String),
      provider.decide3 perc r aid = .error .typeError →
      callProvider provider perc r aid = provider.decide2 perc r) ∧
    (∀ (ofuel : Nat) (ws : WorldState) (events : List Event) (trace : List ProviderCall)
      (n : Nat) (e : PyExc),
      workerCurrentTaskId ws aid = "" →
      (checkIfInterruptIsNeeded ruleset ws aid).interrupt = true →
      callProvider provider
        { perceive ws svc.recipe_db aid false true with recipe_db := some svc.recipe_db }
        (checkIfInterruptIsNeeded ruleset ws aid).reason aid = .error e →
      (agentActionsLoop svc fuel provider ruleset aid (ofuel + 1) ws events trace n).2 =
        .error (.providerErr e)) ∧
    (∀ (ticks : Int) (eid : String) (rest : List String) (ws : WorldState)
      (events : List Event) (trace tr' : List ProviderCall) (e : TickErr),
      stepComponents svc fuel ticks eid
        (match ws.get_entity_by_id eid with
         | some en => en.components.map (·.1)
         | none => []) ws events trace = (tr', .error e) →
      stepEntities svc fuel ticks (eid :: rest) ws events trace = (tr', .error e)) := by
  refine ⟨?_, ?_, ?_, ?_⟩
  · intro perc r e h1 h2
    unfold callProvider
    rw [h2]
    cases e with
    | typeError => exact absurd rfl h1
    | otherExc => rfl
  · intro perc r h
    unfold callProvider
    rw [h]
  · intro ofuel ws events trace n e h1 h2 h3
    rw [show (ofuel + 1) = Nat.succ ofuel from rfl, agentActionsLoop]
    rw [if_neg (by simp [h1])]
    try dsimp only
    rw [if_neg (by rw [h2]; decide)]
    try dsimp only
    rw [h3]
  · intro ticks eid rest ws events trace tr' e h
    rw [stepEntities]
    try dsimp only
    rw [h]

/-- Witness for the amended C4 theorem: the raising provider's error
passes through uncaught, the TypeError provider is retried, eve's action
loop surfaces the provider error as a tick error, and bob's failing hook
aborts the remainder of the entity sweep. -/
theorem C4_amended_witness :
    callProvider raisingProvider {} "r" "eve" = .error .otherExc ∧
    callProvider retryProvider {} "r" "eve" = retryProvider.decide2 {} "r" ∧
    (agentActionsLoop (svcS raisingProvider) 20 raisingProvider
      [.lowNutrition 10 50, .idle 999] "eve" (5 + 1) wsS2 [] [] 0).2 =
      .error (.providerErr .otherExc) ∧
    stepEntities (svcS raisingProvider) 20 1 ("bob" :: ["eve", "chest_1", "gem_1"]) wsS2 [] [] =
      (trB, .error (.providerErr .otherExc)) := by
  have hR := C4_amended_provider_exception_discipline (svcS raisingProvider) 20
    raisingProvider [.lowNutrition 10 50, .idle 999] "eve"
  have hT := C4_amended_provider_exception_discipline (svcS raisingProvider) 20
    retryProvider [.lowNutrition 10 50, .idle 999] "eve"
  refine ⟨hR.1 {} "r" .otherExc (by decide) rfl, hT.2.1 {} "r" rfl, ?_, ?_⟩
  · exact hR.2.2.1 5 wsS2 [] [] 0 .otherExc rfl rfl rfl
  · exact hR.2.2.2 1 "bob" ["eve", "chest_1", "gem_1"] wsS2 [] [] trB
      (.providerErr .otherExc) rfl

/-! ### C2: perception soundness / completeness infrastructure -/

theorem foldl_mem_mono {α β : Type} (s : List α → β → List α)
    (hmono : ∀ a b, ∀ y ∈ a, y ∈ s a b) :
    ∀ (l : List β) (acc : List α) (x : α), x ∈ acc → x ∈ l.foldl s acc := by
  intro l
  induction l with
  | nil => intro acc x hx; exact hx
  | cons b t ih => intro acc x hx; exact ih (s acc b) x (hmono acc b x hx)

theorem foldl_mem_of_mem {α β : Type} (s : List α → β → List α)
    (hmono : ∀ a b, ∀ y ∈ a, y ∈ s a b) :
    ∀ (l : List β) (acc : List α) (b0 : β) (x : α), b0 ∈ l → (∀ a, x ∈ s a b0) →
      x ∈ l.foldl s acc := by
  intro l
  induction l with
  | nil => intro acc b0 x hb _; exact absurd hb (List.not_mem_nil b0)
  | cons b t ih =>
    intro acc b0 x hb hx
    rcases List.mem_cons.mp hb with h | h
    · exact foldl_mem_mono s hmono t (s acc b) x (h ▸ hx acc)
    · exact ih (s acc b) b0 x h hx

theorem foldl_mem_elim {α β : Type} (s : List α → β → List α) (Q : β → α → Prop)
    (hsub : ∀ a b, ∀ y ∈ s a b, y ∈ a ∨ Q b y) :
    ∀ (l : List β) (acc : List α) (x : α), x ∈ l.foldl s acc →
      x ∈ acc ∨ ∃ b ∈ l, Q b x := by
  intro l
  induction l with
  | nil => intro acc x hx; exact Or.inl hx
  | cons b t ih =>
    intro acc x hx
    rcases ih (s acc b) x hx with h | h
    · rcases hsub acc b x h with h' | hq
      · exact Or.inl h'
      · exact Or.inr ⟨b, List.mem_cons_self b t, hq⟩
    · rcases h with ⟨b', hb', hq⟩
      exact Or.inr ⟨b', List.mem_cons_of_mem b hb', hq⟩

theorem bfsEnqueue_seen_sub :
    ∀ (l seen queue : List String), ∀ y ∈ seen, y ∈ (bfsEnqueue seen queue l).1 := by
  intro l
  induction l with
  | nil => intro seen queue y hy; exact hy
  | cons i rest ih =>
    intro seen queue y hy
    rw [bfsEnqueue]
    split
    · exact ih _ _ y (List.mem_append_left _ hy)
    · exact ih _ _ y hy

theorem bfsEnqueue_queue_sub :
    ∀ (l seen queue : List String), ∀ y ∈ queue, y ∈ (bfsEnqueue seen queue l).2 := by
  intro l
  induction l with
  | nil => intro seen queue y hy; exact hy
  | cons i rest ih =>
    intro seen queue y hy
    rw [bfsEnqueue]
    split
    · exact ih _ _ y (List.mem_append_left _ hy)
    · exact ih _ _ y hy

theorem bfsEnqueue_mem_seen :
    ∀ (l seen queue : List String), ∀ x ∈ l, x ≠ "" → x ∈ (bfsEnqueue seen queue l).1 := by
  intro l
  induction l with
  | nil => intro seen queue x hx _; exact absurd hx (List.not_mem_nil x)
  | cons i rest ih =>
    intro seen queue x hx hne
    rcases List.mem_cons.mp hx with h | h
    · subst h
      rw [bfsEnqueue]
      by_cases hs : x ∈ seen
      · rw [if_neg (by simp [hs])]
        exact bfsEnqueue_seen_sub rest seen queue x hs
      · rw [if_pos ⟨hne, hs⟩]
        exact bfsEnqueue_seen_sub rest _ _ x
          (List.mem_append_right _ (List.mem_singleton_self x))
    · rw [bfsEnqueue]
      split
      · exact ih _ _ x h hne
      · exact ih _ _ x h hne

theorem bfsEnqueue_seen_elim :
    ∀ (l seen queue : List String), ∀ y ∈ (bfsEnqueue seen queue l).1,
      y ∈ seen ∨ y ∈ l := by
  intro l
  induction l with
  | nil => intro seen queue y hy; exact Or.inl hy
  | cons i rest ih =>
    intro seen queue y hy
    rw [bfsEnqueue] at hy
    split at hy
    · rcases ih _ _ y hy with h | h
      · rcases List.mem_append.mp h with h' | h'
        · exact Or.inl h'
        · exact Or.inr (List.mem_cons.mpr (Or.inl (List.mem_singleton.mp h')))
      · exact Or.inr (List.mem_cons_of_mem i h)
    · rcases ih _ _ y hy with h | h
      · exact Or.inl h
      · exact Or.inr (List.mem_cons_of_mem i h)

theorem bfsEnqueue_queue_elim :
    ∀ (l seen queue : List String), ∀ y ∈ (bfsEnqueue seen queue l).2,
      y ∈ queue ∨ y ∈ l := by
  intro l
  induction l with
  | nil => intro seen queue y hy; exact Or.inl hy
  | cons i rest ih =>
    intro seen queue y hy
    rw [bfsEnqueue] at hy
    split at hy
    · rcases ih _ _ y hy with h | h
      · rcases List.mem_append.mp h with h' | h'
        · exact Or.inl h'
        · exact Or.inr (List.mem_cons.mpr (Or.inl (List.mem_singleton.mp h')))
      · exact Or.inr (List.mem_cons_of_mem i h)
    · rcases ih _ _ y hy with h | h
      · exact Or.inl h
      · exact Or.inr (List.mem_cons_of_mem i h)

theorem bfsEnqueue_inv (v : List String) :
    ∀ (l seen queue : List String),
      (∀ y, y ∈ seen ↔ (y ∈ v ∨ y ∈ queue)) →
      ∀ y, y ∈ (bfsEnqueue seen queue l).1 ↔
        (y ∈ v ∨ y ∈ (bfsEnqueue seen queue l).2) := by
  intro l
  induction l with
  | nil => intro seen queue h y; exact h y
  | cons i rest ih =>
    intro seen queue h y
    rw [bfsEnqueue]
    split
    · refine ih _ _ ?_ y
      intro z
      constructor
      · intro hz
        rcases List.mem_append.mp hz with h' | h'
        · rcases (h z).mp h' with h'' | h''
          · exact Or.inl h''
          · exact Or.inr (List.mem_append_left _ h'')
        · exact Or.inr (List.mem_append_right _ h')
      · intro hz
        rcases hz with h' | h'
        · exact List.mem_append_left _ ((h z).mpr (Or.inl h'))
        · rcases List.mem_append.mp h' with h'' | h''
          · exact List.mem_append_left _ ((h z).mpr (Or.inr h''))
          · exact List.mem_append_right _ h''
    · exact ih _ _ h y

theorem bfsEnqueue_nodup :
    ∀ (l seen queue : List String), seen.Nodup → (bfsEnqueue seen queue l).1.Nodup := by
  intro l
  induction l with
  | nil => intro seen queue h; exact h
  | cons i rest ih =>
    intro seen queue h
    rw [bfsEnqueue]
    split
    · rename_i hc
      refine ih _ _ (List.Nodup.append h (List.nodup_singleton i) ?_)
      intro a ha hb
      exact hc.2 ((List.mem_singleton.mp hb) ▸ ha)
    · exact ih _ _ h

theorem bfsEnqueue_length :
    ∀ (l seen queue : List String),
      (bfsEnqueue seen queue l).1.length + queue.length =
        (bfsEnqueue seen queue l).2.length + seen.length := by
  intro l
  induction l with
  | nil =>
    intro seen queue
    rw [bfsEnqueue]
    exact Nat.add_comm _ _
  | cons i rest ih =>
    intro seen queue
    rw [bfsEnqueue]
    split
    · have h := ih (seen ++ [i]) (queue ++ [i])
      simp only [List.length_append, List.length_singleton] at h
      omega
    · exact ih seen queue

theorem nodup_subset_length {α : Type} [DecidableEq α] (l1 l2 : List α)
    (h1 : l1.Nodup) (hs : ∀ y ∈ l1, y ∈ l2) : l1.length ≤ l2.length := by
  have h2 : l1.toFinset.card = l1.length := List.toFinset_card_of_nodup h1
  have h3 : l1.toFinset ⊆ l2.toFinset := by
    intro a ha
    rw [List.mem_toFinset] at ha ⊢
    exact hs a ha
  calc l1.length = l1.toFinset.card := h2.symm
    _ ≤ l2.toFinset.card := Finset.card_le_card h3
    _ ≤ l2.length := l2.toFinset_card_le

theorem mem_get_all_item_ids (cc : ContainerComponent) (p : String × ContainerSlot)
    (x : String) (hp : p ∈ cc.slots) (hx : x ∈ p.2.items) :
    x ∈ cc.get_all_item_ids := by
  unfold ContainerComponent.get_all_item_ids
  exact foldl_mem_of_mem _ (fun a b y hy => List.mem_append_left _ hy)
    cc.slots [] p x hp (fun a => List.mem_append_right a hx)

theorem get_all_item_ids_elim (cc : ContainerComponent) (x : String)
    (h : x ∈ cc.get_all_item_ids) : ∃ p ∈ cc.slots, x ∈ p.2.items := by
  unfold ContainerComponent.get_all_item_ids at h
  rcases foldl_mem_elim _ (fun p y => y ∈ p.2.items)
      (fun a p y hy => List.mem_append.mp hy) cc.slots [] x h with h' | h'
  · exact absurd h' (List.not_mem_nil x)
  · exact h'

theorem transparentItemsOf_elim (ws : WorldState) (eid x : String)
    (h : x ∈ transparentItemsOf ws eid) :
    ∃ cc, (ws.get_entity_by_id eid).bind Entity.containerComp = some cc ∧
      ∃ p ∈ cc.slots, p.2.config.transparent = true ∧ x ∈ p.2.items := by
  unfold transparentItemsOf at h
  cases hb : (ws.get_entity_by_id eid).bind Entity.containerComp with
  | none =>
    rw [hb] at h
    try dsimp only at h
    exact absurd h (List.not_mem_nil x)
  | some cc =>
    rw [hb] at h
    try dsimp only at h
    refine ⟨cc, rfl, ?_⟩
    have hsub : ∀ (a : List String) (p : String × ContainerSlot), ∀ y ∈
        (if p.2.config.transparent then a ++ p.2.items else a),
        y ∈ a ∨ (p.2.config.transparent = true ∧ y ∈ p.2.items) := by
      intro a p y hy
      by_cases ht : p.2.config.transparent = true
      · rw [if_pos ht] at hy
        rcases List.mem_append.mp hy with h'' | h''
        · exact Or.inl h''
        · exact Or.inr ⟨ht, h''⟩
      · rw [if_neg ht] at hy
        exact Or.inl hy
    rcases foldl_mem_elim _ (fun p y => p.2.config.transparent = true ∧ y ∈ p.2.items)
        hsub cc.slots [] x h with h' | h'
    · exact absurd h' (List.not_mem_nil x)
    · exact h'

theorem transparentItemsOf_mem (ws : WorldState) (eid : String) (cc : ContainerComponent)
    (p : String × ContainerSlot) (x : String)
    (hb : (ws.get_entity_by_id eid).bind Entity.containerComp = some cc)
    (hp : p ∈ cc.slots) (ht : p.2.config.transparent = true) (hx : x ∈ p.2.items) :
    x ∈ transparentItemsOf ws eid := by
  unfold transparentItemsOf
  rw [hb]
  try dsimp only
  refine foldl_mem_of_mem _ ?_ cc.slots [] p x hp ?_
  · intro a b y hy
    by_cases hb' : b.2.config.transparent = true
    · rw [if_pos hb']
      exact List.mem_append_left _ hy
    · rw [if_neg hb']
      exact hy
  · intro a
    rw [if_pos ht]
    exact List.mem_append_right a hx

theorem mem_allSlotItemsList (ws : WorldState) (e : Entity) (cc : ContainerComponent)
    (x : String) (he : e ∈ ws.entities) (hcc : e.containerComp = some cc)
    (hx : x ∈ cc.get_all_item_ids) : x ∈ allSlotItemsList ws := by
  unfold allSlotItemsList
  refine foldl_mem_of_mem _ ?_ ws.entities [] e x he ?_
  · intro a b y hy
    cases hcb : b.containerComp
    · try dsimp only
      exact hy
    · try dsimp only
      exact List.mem_append_left _ hy
  · intro a
    rw [hcc]
    try dsimp only
    exact List.mem_append_right a hx

theorem transparentItemsOf_sub_all (ws : WorldState) (c x : String)
    (h : x ∈ transparentItemsOf ws c) : x ∈ allSlotItemsList ws := by
  rcases transparentItemsOf_elim ws c x h with ⟨cc, hb, p, hp, ht, hx⟩
  rcases bind_containerComp_mem ws c cc hb with ⟨e, he, hcc⟩
  exact mem_allSlotItemsList ws e cc x he hcc (mem_get_all_item_ids cc p x hp hx)

theorem totalSlot_go (l : List Entity) :
    ∀ (n : Nat) (acc : List String), n = acc.length →
      l.foldl (fun n e => match e.containerComp with
        | some cc => n + cc.get_all_item_ids.length
        | none => n) n =
      (l.foldl (fun acc e => match e.containerComp with
        | some cc => acc ++ cc.get_all_item_ids
        | none => acc) acc).length := by
  induction l with
  | nil => intro n acc h; exact h
  | cons e t ih =>
    intro n acc h
    rw [List.foldl_cons, List.foldl_cons]
    cases hcb : e.containerComp
    · try dsimp only
      exact ih n acc h
    · try dsimp only
      exact ih _ _ (by rw [List.length_append, h])

theorem totalSlotItems_eq_length (ws : WorldState) :
    totalSlotItems ws = (allSlotItemsList ws).length := by
  unfold totalSlotItems allSlotItemsList
  exact totalSlot_go ws.entities 0 [] rfl

theorem mem_collectContained (ws : WorldState) (lid : String) (C : Entity)
    (lc : Location) (cc : ContainerComponent) (x : String)
    (hC : C ∈ ws.entities) (hloc : ws.get_location_of_entity C.entity_id = some lc)
    (hlid : lc.location_id = lid) (hcc : C.containerComp = some cc)
    (hx : x ∈ cc.get_all_item_ids) : x ∈ collectContainedIdsInLocation ws lid := by
  unfold collectContainedIdsInLocation
  refine foldl_mem_of_mem _ ?_ ws.entities [] C x hC ?_
  · intro a e y hy
    cases hge : ws.get_location_of_entity e.entity_id
    · try dsimp only
      exact hy
    · try dsimp only
      split
      · cases hcb : e.containerComp
        · try dsimp only
          exact hy
        · try dsimp only
          exact List.mem_append_left _ hy
      · exact hy
  · intro a
    rw [hloc]
    try dsimp only
    rw [if_pos hlid, hcc]
    try dsimp only
    exact List.mem_append_right a hx

theorem perceive_views_elim (ws : WorldState) (ids : List String)
    (acc : List EntityView) (v : EntityView)
    (hv : v ∈ ids.foldl (fun acc eid =>
      match ws.get_entity_by_id eid with
      | none => acc
      | some ent => acc ++ [{ id := ent.entity_id, name := ent.entity_name,
                              tags := ent.get_all_tags }]) acc) :
    v ∈ acc ∨ ∃ eid ∈ ids, v.id = eid := by
  refine foldl_mem_elim _ (fun eid w => w.id = eid) ?_ ids acc v hv
  intro a eid y hy
  cases hg : ws.get_entity_by_id eid with
  | none =>
    rw [hg] at hy
    try dsimp only at hy
    exact Or.inl hy
  | some ent =>
    rw [hg] at hy
    try dsimp only at hy
    rcases List.mem_append.mp hy with h' | h'
    · exact Or.inl h'
    · have hpe : ent.entity_id = eid := by
        have h2 := List.find?_some hg
        simpa using h2
      rw [List.mem_singleton.mp h']
      exact Or.inr hpe

theorem perceive_views_mem (ws : WorldState) (ids : List String) (acc : List EntityView)
    (eid : String) (ent : Entity) (hmem : eid ∈ ids)
    (hg : ws.get_entity_by_id eid = some ent) :
    ({ id := ent.entity_id, name := ent.entity_name, tags := ent.get_all_tags } :
        EntityView) ∈
      ids.foldl (fun acc eid => match ws.get_entity_by_id eid with
        | none => acc
        | some ent => acc ++ [{ id := ent.entity_id, name := ent.entity_name,
                                tags := ent.get_all_tags }]) acc := by
  refine foldl_mem_of_mem _ ?_ ids acc eid _ hmem ?_
  · intro a b y hy
    cases hgb : ws.get_entity_by_id b
    · try dsimp only
      exact hy
    · try dsimp only
      exact List.mem_append_left _ hy
  · intro a
    rw [hg]
    try dsimp only
    exact List.mem_append_right a (List.mem_singleton_self _)

theorem expand_sound (ws : WorldState) (P : String → Prop)
    (hP : ∀ c x, x ∈ transparentItemsOf ws c → P x) :
    ∀ (fuel : Nat) (q s v : List String),
      (∀ y ∈ v, P y) → (∀ y ∈ q, P y) →
      ∀ y ∈ (expandTransparentAux ws fuel q s v).1, P y := by
  intro fuel
  induction fuel with
  | zero =>
    intro q s v hv hq y hy
    rw [expandTransparentAux] at hy
    exact hv y hy
  | succ f ih =>
    intro q s v hv hq y hy
    cases q with
    | nil =>
      rw [expandTransparentAux] at hy
      exact hv y hy
    | cons c qrest =>
      rw [expandTransparentAux] at hy
      try dsimp only at hy
      refine ih _ _ _ ?_ ?_ y hy
      · intro z hz
        rcases List.mem_append.mp hz with h' | h'
        · exact hv z h'
        · rw [List.mem_singleton.mp h']
          exact hq c (List.mem_cons_self c qrest)
      · intro z hz
        rcases bfsEnqueue_queue_elim _ _ _ z hz with h' | h'
        · exact hq z (List.mem_cons_of_mem c h')
        · exact hP c z h'

theorem expand_drain (ws : WorldState) (big : List String)
    (hbig : ∀ c x, x ∈ transparentItemsOf ws c → x ∈ big) :
    ∀ (fuel : Nat) (q s v : List String), s.Nodup → (∀ y ∈ s, y ∈ big) →
      q.length + (big.length - s.length) ≤ fuel →
      (expandTransparentAux ws fuel q s v).2.2 = [] := by
  intro fuel
  induction fuel with
  | zero =>
    intro q s v _ _ hf
    have hq : q.length = 0 := by omega
    rw [expandTransparentAux]
    exact List.length_eq_zero.mp hq
  | succ f ih =>
    intro q s v hnd hsb hf
    cases q with
    | nil =>
      rw [expandTransparentAux]
    | cons c qrest =>
      rw [expandTransparentAux]
      have hnd2 := bfsEnqueue_nodup (transparentItemsOf ws c) s qrest hnd
      have hsub2 : ∀ y ∈ (bfsEnqueue s qrest (transparentItemsOf ws c)).1, y ∈ big := by
        intro y hy
        rcases bfsEnqueue_seen_elim _ _ _ y hy with h' | h'
        · exact hsb y h'
        · exact hbig c y h'
      have hlen := bfsEnqueue_length (transparentItemsOf ws c) s qrest
      have hb2 : (bfsEnqueue s qrest (transparentItemsOf ws c)).1.length ≤ big.length :=
        nodup_subset_length _ _ hnd2 hsub2
      have hs1 : s.length ≤ big.length := nodup_subset_length _ _ hnd hsb
      try dsimp only
      refine ih _ _ _ hnd2 hsub2 ?_
      simp only [List.length_cons] at hf
      omega

theorem expand_seen_mono (ws : WorldState) :
    ∀ (fuel : Nat) (q s v : List String), ∀ y ∈ s,
      y ∈ (expandTransparentAux ws fuel q s v).2.1 := by
  intro fuel
  induction fuel with
  | zero =>
    intro q s v y hy
    rw [expandTransparentAux]
    exact hy
  | succ f ih =>
    intro q s v y hy
    cases q with
    | nil =>
      rw [expandTransparentAux]
      exact hy
    | cons c qrest =>
      rw [expandTransparentAux]
      try dsimp only
      exact ih _ _ _ y (bfsEnqueue_seen_sub _ _ _ y hy)

theorem seen_inv_step (s v qrest : List String) (c : String)
    (h : ∀ y, y ∈ s ↔ (y ∈ v ∨ y ∈ c :: qrest)) :
    ∀ z, z ∈ s ↔ (z ∈ v ++ [c] ∨ z ∈ qrest) := by
  intro z
  constructor
  · intro hz
    rcases (h z).mp hz with h' | h'
    · exact Or.inl (List.mem_append_left _ h')
    · rcases List.mem_cons.mp h' with h'' | h''
      · refine Or.inl (List.mem_append_right _ ?_)
        rw [h'']
        exact List.mem_singleton_self c
      · exact Or.inr h''
  · intro hz
    rcases hz with h' | h'
    · rcases List.mem_append.mp h' with h'' | h''
      · exact (h z).mpr (Or.inl h'')
      · exact (h z).mpr (Or.inr (List.mem_cons.mpr (Or.inl (List.mem_singleton.mp h''))))
    · exact (h z).mpr (Or.inr (List.mem_cons_of_mem c h'))

theorem expand_inv (ws : WorldState) :
    ∀ (fuel : Nat) (q s v : List String),
      (∀ y, y ∈ s ↔ (y ∈ v ∨ y ∈ q)) →
      ∀ y, y ∈ (expandTransparentAux ws fuel q s v).2.1 ↔
        (y ∈ (expandTransparentAux ws fuel q s v).1 ∨
         y ∈ (expandTransparentAux ws fuel q s v).2.2) := by
  intro fuel
  induction fuel with
  | zero =>
    intro q s v h y
    rw [expandTransparentAux]
    exact h y
  | succ f ih =>
    intro q s v h y
    cases q with
    | nil =>
      rw [expandTransparentAux]
      try dsimp only
      constructor
      · intro hy
        rcases (h y).mp hy with h' | h'
        · exact Or.inl h'
        · exact absurd h' (List.not_mem_nil y)
      · intro hy
        rcases hy with h' | h'
        · exact (h y).mpr (Or.inl h')
        · exact absurd h' (List.not_mem_nil y)
    | cons c qrest =>
      rw [expandTransparentAux]
      try dsimp only
      refine ih _ _ _ ?_ y
      exact bfsEnqueue_inv (v ++ [c]) (transparentItemsOf ws c) s qrest
        (seen_inv_step s v qrest c h)

theorem expand_complete (ws : WorldState) :
    ∀ (fuel : Nat) (q s v : List String),
      (∀ y, y ∈ s ↔ (y ∈ v ∨ y ∈ q)) →
      (expandTransparentAux ws fuel q s v).2.2 = [] →
      ∀ c ∈ (expandTransparentAux ws fuel q s v).1, c ∉ v →
      ∀ x ∈ transparentItemsOf ws c, x ≠ "" →
      x ∈ (expandTransparentAux ws fuel q s v).1 := by
  intro fuel
  induction fuel with
  | zero =>
    intro q s v hinv hdrain c hc hcv x hx hne
    rw [expandTransparentAux] at hc
    exact absurd hc hcv
  | succ f ih =>
    intro q s v hinv hdrain c hc hcv x hx hne
    cases q with
    | nil =>
      rw [expandTransparentAux] at hc
      exact absurd hc hcv
    | cons c0 qrest =>
      rw [expandTransparentAux] at hc hdrain ⊢
      try dsimp only at hc hdrain ⊢
      have hinv2 := bfsEnqueue_inv (v ++ [c0]) (transparentItemsOf ws c0) s qrest
        (seen_inv_step s v qrest c0 hinv)
      by_cases hcc0 : c = c0
      · subst hcc0
        have hxseen : x ∈ (bfsEnqueue s qrest (transparentItemsOf ws c)).1 :=
          bfsEnqueue_mem_seen (transparentItemsOf ws c) s qrest x hx hne
        have hxfinal := expand_seen_mono ws f
          (bfsEnqueue s qrest (transparentItemsOf ws c)).2
          (bfsEnqueue s qrest (transparentItemsOf ws c)).1
          (v ++ [c]) x hxseen
        rcases (expand_inv ws f _ _ _ hinv2 x).mp hxfinal with h' | h'
        · exact h'
        · rw [hdrain] at h'
          exact absurd h' (List.not_mem_nil x)
      · refine ih _ _ _ hinv2 hdrain c hc ?_ x hx hne
        intro hmem
        rcases List.mem_append.mp hmem with h' | h'
        · exact hcv h'
        · exact hcc0 (List.mem_singleton.mp h')

theorem expandTransparentContents_elim (ws : WorldState) (seeds : List String)
    (x : String) (hx : x ∈ expandTransparentContents ws seeds) :
    x ∈ seeds ∨ ∃ c, x ∈ transparentItemsOf ws c := by
  unfold expandTransparentContents at hx
  try dsimp only at hx
  refine expand_sound ws (fun y => y ∈ seeds ∨ ∃ c, y ∈ transparentItemsOf ws c)
    (fun c y hy => Or.inr ⟨c, hy⟩) _ _ _ _ ?_ ?_ x hx
  · intro y hy
    exact absurd hy (List.not_mem_nil y)
  · intro y hy
    rcases bfsEnqueue_queue_elim seeds [] [] y hy with h' | h'
    · exact absurd h' (List.not_mem_nil y)
    · exact Or.inl h'

theorem expandTransparentContents_complete (ws : WorldState) (seeds : List String)
    (c : String) (hc : c ∈ expandTransparentContents ws seeds)
    (x : String) (hx : x ∈ transparentItemsOf ws c) (hne : x ≠ "") :
    x ∈ expandTransparentContents ws seeds := by
  unfold expandTransparentContents at hc ⊢
  try dsimp only at hc ⊢
  have hdrain : (expandTransparentAux ws (seeds.length + totalSlotItems ws + 1)
      (bfsEnqueue [] [] seeds).2 (bfsEnqueue [] [] seeds).1 []).2.2 = [] := by
    refine expand_drain ws (seeds ++ allSlotItemsList ws)
      (fun c0 y hy => List.mem_append_right _ (transparentItemsOf_sub_all ws c0 y hy))
      _ _ _ _ (bfsEnqueue_nodup seeds [] [] List.nodup_nil) ?_ ?_
    · intro y hy
      rcases bfsEnqueue_seen_elim seeds [] [] y hy with h' | h'
      · exact absurd h' (List.not_mem_nil y)
      · exact List.mem_append_left _ h'
    · have hlen := bfsEnqueue_length seeds [] []
      simp only [List.length_nil] at hlen
      have hsub : ∀ y ∈ (bfsEnqueue [] [] seeds).1, y ∈ seeds := by
        intro y hy
        rcases bfsEnqueue_seen_elim seeds [] [] y hy with h' | h'
        · exact absurd h' (List.not_mem_nil y)
        · exact h'
      have hsl : (bfsEnqueue [] [] seeds).1.length ≤ seeds.length :=
        nodup_subset_length _ _ (bfsEnqueue_nodup seeds [] [] List.nodup_nil) hsub
      have hts := totalSlotItems_eq_length ws
      simp only [List.length_append]
      omega
  have hinv0 : ∀ y, y ∈ (bfsEnqueue [] [] seeds).1 ↔
      (y ∈ ([] : List String) ∨ y ∈ (bfsEnqueue [] [] seeds).2) := by
    refine bfsEnqueue_inv [] seeds [] [] ?_
    intro z
    simp
  exact expand_complete ws _ _ _ _ hinv0 hdrain c hc (List.not_mem_nil c) x hx hne

theorem perceive_entities_eq (ws : WorldState) (db : RecipeDb) (agent_id : String)
    (ie ii : Bool) (loc : Location)
    (hloc : ws.get_location_of_entity agent_id = some loc) :
    (perceive ws db agent_id ie ii).entities =
      (expandTransparentContents ws (loc.entities_in_location.filter
        (fun eid => eid ∉ collectContainedIdsInLocation ws loc.location_id))).foldl
        (fun acc eid => match ws.get_entity_by_id eid with
          | none => acc
          | some ent => acc ++ [{ id := ent.entity_id, name := ent.entity_name,
                                  tags := ent.get_all_tags }]) [] := by
  unfold perceive
  rw [hloc]

theorem perceive_hidden_eq (ws : WorldState) (db : RecipeDb) (agent_id : String)
    (ie ii : Bool) (loc : Location)
    (hloc : ws.get_location_of_entity agent_id = some loc) :
    (perceive ws db agent_id ie ii).hidden_entity_count =
      loc.entities_in_location.length -
        (expandTransparentContents ws (loc.entities_in_location.filter
          (fun eid => eid ∉ collectContainedIdsInLocation ws loc.location_id))).length := by
  unfold perceive
  rw [hloc]

/-- **C2.** Perception transparency: (i) soundness — an entity sitting in a
non-transparent slot of a container resolving to the actor's location (and
listed in no transparent slot anywhere, the containment discipline) is never
reported in `perceive`'s entities list; (ii) completeness — every existing
entity with a non-empty id held in a transparent slot of a container that is
itself reported gets reported too (the BFS fuel always lets the queue
drain, and an opaque ancestor blocks deeper transparency because only
transparent-slot items are ever enqueued); (iii) the returned
`hidden_entity_count` equals the location membership list's length minus
the number of visible ids. -/
theorem C2_perception_transparency (ws : WorldState) (db : RecipeDb)
    (agent_id : String) (ie ii : Bool) (loc : Location) (vis : List String)
    (hloc : ws.get_location_of_entity agent_id = some loc)
    (hvis : vis = expandTransparentContents ws (loc.entities_in_location.filter
      (fun eid => eid ∉ collectContainedIdsInLocation ws loc.location_id))) :
    (∀ (x : String) (C : Entity) (cc : ContainerComponent) (p : String × ContainerSlot)
        (lc : Location),
      C ∈ ws.entities → ws.get_location_of_entity C.entity_id = some lc →
      lc.location_id = loc.location_id →
      C.containerComp = some cc → p ∈ cc.slots → p.2.config.transparent = false →
      x ∈ p.2.items → (∀ c, x ∉ transparentItemsOf ws c) →
      ∀ v ∈ (perceive ws db agent_id ie ii).entities, v.id ≠ x) ∧
    (∀ (cv : EntityView) (x : String) (ex : Entity),
      cv ∈ (perceive ws db agent_id ie ii).entities →
      x ∈ transparentItemsOf ws cv.id → x ≠ "" →
      ws.get_entity_by_id x = some ex →
      ∃ v ∈ (perceive ws db agent_id ie ii).entities, v.id = x) ∧
    (perceive ws db agent_id ie ii).hidden_entity_count =
      loc.entities_in_location.length - vis.length := by
  subst hvis
  refine ⟨?_, ?_, perceive_hidden_eq ws db agent_id ie ii loc hloc⟩
  · intro x C cc p lc hC hlc hlid hcc hp htr hx hnox v hv hvx
    rw [perceive_entities_eq ws db agent_id ie ii loc hloc] at hv
    rcases perceive_views_elim ws _ [] v hv with h' | ⟨eid, heid, hveq⟩
    · exact absurd h' (List.not_mem_nil v)
    · have hxvis : x ∈ expandTransparentContents ws
          (loc.entities_in_location.filter
            (fun eid => eid ∉ collectContainedIdsInLocation ws loc.location_id)) := by
        rw [← hveq, hvx] at heid
        exact heid
      rcases expandTransparentContents_elim ws _ x hxvis with h1 | h1
      · have hcm : x ∈ collectContainedIdsInLocation ws loc.location_id :=
          mem_collectContained ws loc.location_id C lc cc x hC hlc hlid hcc
            (mem_get_all_item_ids cc p x hp hx)
        have h2 := List.mem_filter.mp h1
        exact absurd hcm (by simpa using h2.2)
      · rcases h1 with ⟨c, h1⟩
        exact hnox c h1
  · intro cv x ex hcv hx hne hex
    rw [perceive_entities_eq ws db agent_id ie ii loc hloc] at hcv ⊢
    rcases perceive_views_elim ws _ [] cv hcv with h' | ⟨eid, heid, hveq⟩
    · exact absurd h' (List.not_mem_nil cv)
    · have hxv : x ∈ expandTransparentContents ws
          (loc.entities_in_location.filter
            (fun eid => eid ∉ collectContainedIdsInLocation ws loc.location_id)) := by
        refine expandTransparentContents_complete ws _ cv.id ?_ x hx hne
        rw [hveq]
        exact heid
      have hid : ex.entity_id = x := by
        have h2 := List.find?_some hex
        simpa using h2
      exact ⟨{ id := ex.entity_id, name := ex.entity_name, tags := ex.get_all_tags },
        perceive_views_mem ws _ [] x ex hxv hex, hid⟩

/-- Witness for C2 on the chest/gem scenario: bob, an opaque chest and the
gem inside it share the room's membership list; the report shows bob and
the chest only, and the hidden count is the membership size 3 minus the 2
visible ids. -/
theorem C2_witness :
    (perceive wsS [] "bob" false false).entities.map EntityView.id =
      ["bob", "chest_1"] ∧
    (perceive wsS [] "bob" false false).hidden_entity_count = 1 := by
  have h := C2_perception_transparency wsS [] "bob" false false roomS
    (expandTransparentContents wsS (roomS.entities_in_location.filter
      (fun eid => eid ∉ collectContainedIdsInLocation wsS roomS.location_id)))
    (by decide) rfl
  refine ⟨by decide, ?_⟩
  rw [h.2.2]
  decide

/-! ### C5: destroy cascade lemmas -/

theorem destroyStrip_locations_mem (ws : WorldState) (j : String) (l' : Location)
    (h : l' ∈ (destroyStrip ws j).locations) :
    ∃ l0 ∈ ws.locations,
      l' = { l0 with entities_in_location := l0.entities_in_location.erase j } := by
  unfold destroyStrip at h
  try dsimp only at h
  rcases List.mem_map.mp h with ⟨l0, hl0, heq⟩
  exact ⟨l0, hl0, heq.symm⟩

theorem destroyStrip_entities_mem (ws : WorldState) (j : String) (e' : Entity)
    (h : e' ∈ (destroyStrip ws j).entities) :
    ∃ e0 ∈ ws.entities, e'.entity_id = e0.entity_id ∧ e'.entity_id ≠ j ∧
      ((e0.containerComp = none ∧ e' = e0) ∨
       ∃ cc, e0.containerComp = some cc ∧
         e'.containerComp = some ⟨cc.slots.map
           (fun p => (p.1, { p.2 with items := p.2.items.erase j }))⟩) := by
  unfold destroyStrip at h
  try dsimp only at h
  have h2 := List.mem_filter.mp h
  rcases List.mem_map.mp h2.1 with ⟨e0, he0, heq⟩
  have hne : e'.entity_id ≠ j := by simpa using h2.2
  try dsimp only at heq
  cases hcc : e0.containerComp with
  | none =>
    rw [hcc] at heq
    try dsimp only at heq
    refine ⟨e0, he0, ?_, hne, Or.inl ⟨hcc, heq.symm⟩⟩
    rw [← heq]
  | some cc =>
    rw [hcc] at heq
    try dsimp only at heq
    refine ⟨e0, he0, ?_, hne, Or.inr ⟨cc, hcc, ?_⟩⟩
    · rw [← heq]
      rfl
    · rw [← heq]
      exact containerComp_setComponent e0 cc _ hcc

theorem notIndexed_destroyStrip_self (ws : WorldState) (j : String)
    (hInv : InvNodup ws) : notIndexed (destroyStrip ws j) j := by
  refine ⟨?_, ?_, ?_⟩
  · intro l' hl'
    rcases destroyStrip_locations_mem ws j l' hl' with ⟨l0, hl0, rfl⟩
    exact (hInv.1 l0 hl0).not_mem_erase
  · intro e' he' cc' hcc' p hp
    rcases destroyStrip_entities_mem ws j e' he' with ⟨e0, he0, hid, hne2, hcase⟩
    rcases hcase with ⟨hnone, heq⟩ | ⟨cc, hcc, hccE⟩
    · rw [heq, hnone] at hcc'
      exact Option.noConfusion hcc'
    · rw [hccE] at hcc'
      injection hcc' with h2
      rw [← h2] at hp
      rcases List.mem_map.mp hp with ⟨q, hq, hqe⟩
      rw [← hqe]
      have hnd : q.2.items.Nodup := by
        have hb := slotsNodupB_of_containerComp e0 cc (hInv.2 e0 he0) hcc
        have h3 := List.all_eq_true.mp hb q hq
        simpa using h3
      exact hnd.not_mem_erase
  · show (destroyStrip ws j).entities.find? (fun e => e.entity_id = j) = none
    refine List.find?_eq_none.mpr ?_
    intro e' he'
    rcases destroyStrip_entities_mem ws j e' he' with ⟨e0, he0, hid, hne2, _⟩
    simpa using hne2

theorem notIndexed_destroyStrip_pres (ws : WorldState) (i j : String)
    (h : notIndexed ws i) : notIndexed (destroyStrip ws j) i := by
  refine ⟨?_, ?_, ?_⟩
  · intro l' hl'
    rcases destroyStrip_locations_mem ws j l' hl' with ⟨l0, hl0, rfl⟩
    intro hmem
    exact h.1 l0 hl0 (List.mem_of_mem_erase hmem)
  · intro e' he' cc' hcc' p hp hmem
    rcases destroyStrip_entities_mem ws j e' he' with ⟨e0, he0, hid, hne2, hcase⟩
    rcases hcase with ⟨hnone, heq⟩ | ⟨cc, hcc, hccE⟩
    · rw [heq] at hcc'
      exact h.2.1 e0 he0 cc' hcc' p hp hmem
    · rw [hccE] at hcc'
      injection hcc' with h2
      rw [← h2] at hp
      rcases List.mem_map.mp hp with ⟨q, hq, hqe⟩
      rw [← hqe] at hmem
      exact h.2.1 e0 he0 cc hcc q hq (List.mem_of_mem_erase hmem)
  · have h4 : ws.entities.find? (fun e => e.entity_id = i) = none := h.2.2
    show (destroyStrip ws j).entities.find? (fun e => e.entity_id = i) = none
    refine List.find?_eq_none.mpr ?_
    intro e' he'
    rcases destroyStrip_entities_mem ws j e' he' with ⟨e0, he0, hid, _, _⟩
    have h5 := List.find?_eq_none.mp h4 e0 he0
    simp only [hid]
    exact h5

theorem invNodup_foldStrip (ids : List String) :
    ∀ ws, InvNodup ws → InvNodup (ids.foldl destroyStrip ws) := by
  induction ids with
  | nil => intro ws h; exact h
  | cons j rest ih =>
    intro ws h
    rw [List.foldl_cons]
    exact ih _ (invNodup_destroyStrip ws j h)

theorem notIndexed_foldStrip_pres (ids : List String) :
    ∀ ws i, notIndexed ws i → notIndexed (ids.foldl destroyStrip ws) i := by
  induction ids with
  | nil => intro ws i h; exact h
  | cons j rest ih =>
    intro ws i h
    rw [List.foldl_cons]
    exact ih _ i (notIndexed_destroyStrip_pres ws i j h)

theorem notIndexed_foldStrip_all (ids : List String) :
    ∀ ws, InvNodup ws → ∀ i ∈ ids, notIndexed (ids.foldl destroyStrip ws) i := by
  induction ids with
  | nil => intro ws _ i hi; exact absurd hi (List.not_mem_nil i)
  | cons j rest ih =>
    intro ws hInv i hi
    rw [List.foldl_cons]
    rcases List.mem_cons.mp hi with h | h
    · subst h
      exact notIndexed_foldStrip_pres rest _ i (notIndexed_destroyStrip_self ws i hInv)
    · exact ih _ (invNodup_destroyStrip ws j hInv) i h

theorem destroyedIds_append (a b : List Event) :
    destroyedIds (a ++ b) = destroyedIds a ++ destroyedIds b := by
  unfold destroyedIds
  simp [List.filterMap_append]

theorem shape_clean_map :
    ∀ (evs : List Event), destroyShape evs →
      (∀ e ∈ evs, e ≠ Event.executorError "DestroyEntity: target missing") →
      evs = (destroyedIds evs).map Event.entityDestroyed := by
  intro evs
  induction evs with
  | nil => intro _ _; rfl
  | cons e t ih =>
    intro hs hc
    rcases hs e (List.mem_cons_self e t) with ⟨i, rfl⟩ | herr
    · have ht := ih (fun e2 he2 => hs e2 (List.mem_cons_of_mem _ he2))
        (fun e2 he2 => hc e2 (List.mem_cons_of_mem _ he2))
      rw [show destroyedIds (Event.entityDestroyed i :: t) =
        i :: destroyedIds t from rfl]
      rw [List.map_cons]
      rw [← ht]
    · exact absurd herr (hc e (List.mem_cons_self e t))

theorem runMany_destroy_chain
    (step : WorldState → EffectData → Context →
      Except ExecErr (WorldState × List Event))
    (hstep : ∀ ws e c ws2 evs2, e.effect = "DestroyEntity" →
      step ws e c = .ok (ws2, evs2) →
      ws2 = (destroyedIds evs2).foldl destroyStrip ws ∧ destroyShape evs2) :
    ∀ (pairs : List (EffectData × Context)) (ws ws1 : WorldState) (evs1 : List Event),
      (∀ p ∈ pairs, p.1.effect = "DestroyEntity") →
      runMany step ws pairs = .ok (ws1, evs1) →
      ws1 = (destroyedIds evs1).foldl destroyStrip ws ∧ destroyShape evs1 := by
  intro pairs
  induction pairs with
  | nil =>
    intro ws ws1 evs1 _ h
    rw [runMany] at h
    injection h with h2
    rw [Prod.mk.injEq] at h2
    obtain ⟨hws, hevs⟩ := h2
    subst hws
    subst hevs
    exact ⟨rfl, fun e he => absurd he (List.not_mem_nil e)⟩
  | cons pc rest ih =>
    intro ws ws1 evs1 hp h
    obtain ⟨e, c⟩ := pc
    rw [runMany] at h
    cases hs : step ws e c with
    | error err =>
      rw [hs] at h
      try dsimp only at h
      exact absurd h (by simp)
    | ok pr =>
      obtain ⟨wsa, evsa⟩ := pr
      rw [hs] at h
      try dsimp only at h
      cases hr : runMany step wsa rest with
      | error err =>
        rw [hr] at h
        try dsimp only at h
        exact absurd h (by simp)
      | ok pr2 =>
        obtain ⟨wsb, evsb⟩ := pr2
        rw [hr] at h
        try dsimp only at h
        injection h with h2
        rw [Prod.mk.injEq] at h2
        obtain ⟨hws, hevs⟩ := h2
        subst hws
        subst hevs
        have hA := hstep ws e c wsa evsa (hp (e, c) (List.mem_cons_self _ _)) hs
        have hB := ih wsa wsb evsb (fun p hp2 => hp p (List.mem_cons_of_mem _ hp2)) hr
        refine ⟨?_, ?_⟩
        · rw [destroyedIds_append, List.foldl_append, ← hA.1]
          exact hB.1
        · intro ev hev
          rcases List.mem_append.mp hev with h' | h'
          · exact hA.2 ev h'
          · exact hB.2 ev h'

theorem exec_destroy_chain (tm : Option Templates) :
    ∀ (fuel : Nat) (ws : WorldState) (data : EffectData) (ctx : Context)
      (ws' : WorldState) (evs : List Event),
      data.effect = "DestroyEntity" →
      exec tm fuel ws data ctx = .ok (ws', evs) →
      (ws' = (destroyedIds evs).foldl destroyStrip ws ∧ destroyShape evs) ∧
      (∀ ent, resolveEntityFromCtx ws ctx (data.target.getD "entity_to_destroy") =
          some ent → ∃ evs0, evs = evs0 ++ [Event.entityDestroyed ent.entity_id]) := by
  intro fuel
  induction fuel with
  | zero =>
    intro ws data ctx ws' evs hEff h
    rw [exec] at h
    exact absurd h (by simp)
  | succ f ih =>
    intro ws data ctx ws' evs hEff h
    rw [show (f + 1) = Nat.succ f from rfl, exec] at h
    rw [hEff] at h
    rw [if_neg (by decide), if_neg (by decide), if_neg (by decide), if_pos rfl] at h
    cases hres : resolveEntityFromCtx ws ctx (data.target.getD "entity_to_destroy") with
    | none =>
      rw [hres] at h
      try dsimp only at h
      injection h with h2
      rw [Prod.mk.injEq] at h2
      obtain ⟨hws, hevs⟩ := h2
      subst hws
      subst hevs
      refine ⟨⟨rfl, ?_⟩, ?_⟩
      · intro ev hev
        rw [List.mem_singleton.mp hev]
        exact Or.inr rfl
      · intro ent hent
        exact Option.noConfusion hent
    | some ent0 =>
      rw [hres] at h
      try dsimp only at h
      cases hcc : ent0.containerComp with
      | none =>
        rw [hcc] at h
        try dsimp only at h
        have hpairs : ∀ p ∈ List.map destroyEffectPair ([] : List String),
            p.1.effect = "DestroyEntity" := by
          intro p hp2
          rcases List.mem_map.mp hp2 with ⟨cid, _, hpe⟩
          rw [← hpe]
          rfl
        cases hrm : runMany (exec tm f) ws (List.map destroyEffectPair []) with
        | error err =>
          rw [hrm] at h
          try dsimp only at h
          exact absurd h (by simp)
        | ok pr =>
          obtain ⟨ws1, evs1⟩ := pr
          rw [hrm] at h
          try dsimp only at h
          injection h with h2
          rw [Prod.mk.injEq] at h2
          obtain ⟨hws, hevs⟩ := h2
          subst hws
          subst hevs
          have hrun := runMany_destroy_chain (exec tm f)
            (fun wsx ex cx wsy evsy hEx hy => (ih wsx ex cx wsy evsy hEx hy).1)
            (List.map destroyEffectPair []) ws ws1 evs1 hpairs hrm
          refine ⟨⟨?_, ?_⟩, ?_⟩
          · rw [destroyedIds_append, List.foldl_append, ← hrun.1]
            rfl
          · intro ev2 hev2
            rcases List.mem_append.mp hev2 with h' | h'
            · exact hrun.2 ev2 h'
            · rw [List.mem_singleton.mp h']
              exact Or.inl ⟨ent0.entity_id, rfl⟩
          · intro ent1 hent1
            injection hent1 with h3
            exact ⟨evs1, by rw [h3]⟩
      | some cc =>
        rw [hcc] at h
        try dsimp only at h
        have hpairs : ∀ p ∈ List.map destroyEffectPair cc.get_all_item_ids,
            p.1.effect = "DestroyEntity" := by
          intro p hp2
          rcases List.mem_map.mp hp2 with ⟨cid, _, hpe⟩
          rw [← hpe]
          rfl
        cases hrm : runMany (exec tm f) ws (List.map destroyEffectPair
            cc.get_all_item_ids) with
        | error err =>
          rw [hrm] at h
          try dsimp only at h
          exact absurd h (by simp)
        | ok pr =>
          obtain ⟨ws1, evs1⟩ := pr
          rw [hrm] at h
          try dsimp only at h
          injection h with h2
          rw [Prod.mk.injEq] at h2
          obtain ⟨hws, hevs⟩ := h2
          subst hws
          subst hevs
          have hrun := runMany_destroy_chain (exec tm f)
            (fun wsx ex cx wsy evsy hEx hy => (ih wsx ex cx wsy evsy hEx hy).1)
            (List.map destroyEffectPair cc.get_all_item_ids) ws ws1 evs1 hpairs hrm
          refine ⟨⟨?_, ?_⟩, ?_⟩
          · rw [destroyedIds_append, List.foldl_append, ← hrun.1]
            rfl
          · intro ev2 hev2
            rcases List.mem_append.mp hev2 with h' | h'
            · exact hrun.2 ev2 h'
            · rw [List.mem_singleton.mp h']
              exact Or.inl ⟨ent0.entity_id, rfl⟩
          · intro ent1 hent1
            injection hent1 with h3
            exact ⟨evs1, by rw [h3]⟩

/-- **C5.** DestroyEntity cascade: a successful run on a resolvable target
destroys the slot contents recursively first and the target last (the
event list ends with the target's EntityDestroyed, and the final world is
the left fold of the strip-and-delete step over the destroyed ids in
event order, so every child's strip precedes the target's); each
destruction emits exactly one EntityDestroyed event (on a run with no
missing-target error events the event list is exactly the destroyed ids
mapped to EntityDestroyed, descendants then target); and afterwards, under
the duplicate-free index discipline, no location membership list, no
container slot and no entity-table entry anywhere holds any destroyed id. -/
theorem C5_destroy_entity_cascade (tm : Option Templates) (fuel : Nat)
    (ws : WorldState) (data : EffectData) (ctx : Context) (ws' : WorldState)
    (evs : List Event) (ent : Entity)
    (hEff : data.effect = "DestroyEntity")
    (hres : resolveEntityFromCtx ws ctx (data.target.getD "entity_to_destroy") =
      some ent)
    (hInv : InvNodup ws)
    (hOk : exec tm fuel ws data ctx = .ok (ws', evs)) :
    ws' = (destroyedIds evs).foldl destroyStrip ws ∧
    (∃ evs0, evs = evs0 ++ [Event.entityDestroyed ent.entity_id]) ∧
    (destroyedIds evs).getLast? = some ent.entity_id ∧
    destroyShape evs ∧
    ((∀ e ∈ evs, e ≠ Event.executorError "DestroyEntity: target missing") →
      evs = (destroyedIds evs).map Event.entityDestroyed) ∧
    (∀ i ∈ destroyedIds evs, notIndexed ws' i) ∧
    ent.entity_id ∈ destroyedIds evs := by
  have hch := exec_destroy_chain tm fuel ws data ctx ws' evs hEff hOk
  rcases hch.2 ent hres with ⟨evs0, hdec⟩
  have hone : destroyedIds [Event.entityDestroyed ent.entity_id] =
      [ent.entity_id] := rfl
  have hlast : (destroyedIds evs).getLast? = some ent.entity_id := by
    rw [hdec, destroyedIds_append, hone]
    exact List.getLast?_concat _
  refine ⟨hch.1.1, ⟨evs0, hdec⟩, hlast, hch.1.2, ?_, ?_, ?_⟩
  · intro hc
    exact shape_clean_map evs hch.1.2 hc
  · intro i hi
    rw [hch.1.1]
    exact notIndexed_foldStrip_all (destroyedIds evs) ws hInv i hi
  · rw [hdec, destroyedIds_append, hone]
    exact List.mem_append_right _ (List.mem_singleton_self _)

/-- Witness for C5: destroying the box that holds the apple destroys the
apple first and the box second, and afterwards neither id is in the
room's membership list, in any slot, or in the entity table. -/
theorem C5_witness :
    exec none 10 wsM destroyEffD5 ctxD5 = .ok (wsD5, evsD5) ∧
    evsD5 = [Event.entityDestroyed "apple_1", Event.entityDestroyed "box_1"] ∧
    wsD5.get_entity_by_id "box_1" = none ∧
    wsD5.get_entity_by_id "apple_1" = none ∧
    (∀ i ∈ destroyedIds evsD5, notIndexed wsD5 i) := by
  have h := C5_destroy_entity_cascade none 10 wsM destroyEffD5 ctxD5 wsD5 evsD5
    boxE rfl (by decide) ⟨by decide, by decide⟩ rfl
  refine ⟨rfl, by decide, by decide, by decide, ?_⟩
  exact h.2.2.2.2.2.1

end Sandbox
